import Mathlib

/-!
# Spirit: the Hamiltonian parameter accessors (`core/src/Spirit/Hamiltonian.cpp`)

A shallow embedding of the set/get functions of the Hamiltonian API and proofs
of their contract.

Conventions of the embedding
* scalars (`scalar`, `float`) are elements of a linearly ordered field `K`
  (exact arithmetic); the definitions run on `ℚ`;
* a `std::vector` is a `List`; indexing it outside its size is undefined
  behaviour in C++ and is `none` here;
* a division whose divisor is zero has no real value (IEEE gives an infinity
  or a NaN) and is `none` here;
* a raw pointer argument (`const float*`, `float*`) is a map from offsets to
  scalars: the extent of the caller's buffer is not visible to the callee;
* `from_indices` is an external resolver: a `State` holds the image it
  resolves to, together with the process-wide log;
* the counts held by an image (`nos`, `n_spins_basic_domain`) are natural
  numbers; the caller's `n_shells` is an integer, and a loop bounded by it runs
  `n_shells.toNat` times;
* the API picks its branch by comparing `Name()` with a string literal and then
  casts to the class of that name; here the branch is picked by the class, which
  `Name` determines;
* for the lock discipline a setter is also run statement by statement
  (`Hamiltonian_Set_*_steps`): a statement that acts on the store changes the
  state, leaves its event in the trace and inspects the lock flag at that moment;
  the run reaches the state the setter returns, and its trace is the list
  `Hamiltonian_Set_*_events`.
-/

namespace Spirit

/-! ## Data model -/

/-- Vector3 of the source: three scalar components, read as `v[0]`, `v[1]`, `v[2]`. -/
structure Vector3 (K : Type) where
  x : K
  y : K
  z : K
deriving DecidableEq

/-- Pair of lattice sites `{i, j, translations}` as pushed by the setters. -/
structure Pair where
  i : Int
  j : Int
  translations : Int × Int × Int
deriving DecidableEq

/-- Neighbour record as read by the setters: `iatom`, `ineigh`, `translations`, `idx_shell`. -/
structure Neighbour where
  iatom : Int
  ineigh : Int
  translations : Int × Int × Int
  idx_shell : Int
deriving DecidableEq

/-- Geometry of an image: the size of the basic domain, and the lattice
description `L` that only the neighbour finder looks into. -/
structure Geometry (L : Type) where
  n_spins_basic_domain : Nat
  lattice : L
deriving DecidableEq

/-- Modelled from the spec: the result of `Update_Energy_Contributions`
(engine/Hamiltonian_Heisenberg_*.cpp, not under src/), which "recomputes which
energy terms are active (nonempty)". -/
structure Energy_Contributions where
  zeeman : Bool
  anisotropy : Bool
  exchange : Bool
  dmi : Bool
deriving DecidableEq

/-- The members of `Engine::Hamiltonian_Heisenberg_Neighbours` that the API touches. -/
structure Hamiltonian_Heisenberg_Neighbours (K : Type) where
  mu_s : List K
  external_field_indices : List Int
  external_field_magnitudes : List K
  external_field_normals : List (Vector3 K)
  anisotropy_indices : List Int
  anisotropy_magnitudes : List K
  anisotropy_normals : List (Vector3 K)
  exchange_magnitudes : List K
  dmi_magnitudes : List K
  energy_contributions : Energy_Contributions
deriving DecidableEq

/-- The members of `Engine::Hamiltonian_Heisenberg_Pairs` that the API touches. -/
structure Hamiltonian_Heisenberg_Pairs (K : Type) where
  mu_s : List K
  external_field_indices : List Int
  external_field_magnitudes : List K
  external_field_normals : List (Vector3 K)
  anisotropy_indices : List Int
  anisotropy_magnitudes : List K
  anisotropy_normals : List (Vector3 K)
  exchange_pairs : List Pair
  exchange_magnitudes : List K
  dmi_pairs : List Pair
  dmi_magnitudes : List K
  dmi_normals : List (Vector3 K)
  energy_contributions : Energy_Contributions
deriving DecidableEq

/-- The concrete class behind `image->hamiltonian`: the two Heisenberg classes
the API casts to, and `Hamiltonian_Gaussian`, for which no function of the file
has a branch. -/
inductive Hamiltonian_Class (K : Type) where
  | Heisenberg_Neighbours (ham : Hamiltonian_Heisenberg_Neighbours K)
  | Heisenberg_Pairs (ham : Hamiltonian_Heisenberg_Pairs K)
  | Gaussian
deriving DecidableEq

/-- Base class `Engine::Hamiltonian`: the boundary conditions and the derived object. -/
structure Hamiltonian (K : Type) where
  boundary_conditions : Bool × Bool × Bool
  derived : Hamiltonian_Class K
deriving DecidableEq

/-- Name the API compares against to pick a branch. -/
def Hamiltonian.Name {K : Type} (h : Hamiltonian K) : String :=
  match h.derived with
  | .Heisenberg_Neighbours _ => "Heisenberg (Neighbours)"
  | .Heisenberg_Pairs _ => "Heisenberg (Pairs)"
  | .Gaussian => "Gaussian"

/-- `Data::Spin_System`: number of spins, geometry, Hamiltonian and the mutex of the image. -/
structure Spin_System (K L : Type) where
  nos : Nat
  geometry : Geometry L
  hamiltonian : Hamiltonian K
  locked : Bool
deriving DecidableEq

/-- What a `Log` call of this file reports: the text is built from these values. -/
inductive Log_Message (K : Type) where
  | boundary_conditions (p0 p1 p2 : Bool)
  | mu_s (mu_s : K)
  | external_field (magnitude n0 n1 n2 : K)
  | anisotropy (magnitude n0 n1 n2 : K)
deriving DecidableEq

/-- One record of the log: level `Info`, sender `API`, message, image and chain index. -/
structure Log_Entry (K : Type) where
  message : Log_Message K
  idx_image : Int
  idx_chain : Int
deriving DecidableEq

/-- The image `from_indices` resolves to, and the log. -/
structure State (K L : Type) where
  image : Spin_System K L
  log : List (Log_Entry K)
deriving DecidableEq

/-- The collaborators the file calls but does not define: the constant
`Constants::mu_B`, the scalar square root used by Eigen, and the two functions
of `Engine::Neighbours`. -/
structure Env (K L : Type) where
  mu_B : K
  sqrt : K → K
  Get_Neighbours_in_Shells : Geometry L → Int → List Neighbour
  DMI_Normal_from_Pair : Geometry L → Pair → Int → Vector3 K

/-- A raw pointer to scalars: offset to value. -/
abbrev Ptr (K : Type) := Int → K

/-- Store through a pointer: `p[i] = a`. -/
def Ptr.write {K : Type} (p : Ptr K) (i : Int) (a : K) : Ptr K :=
  fun j => if j = i then a else p j

/-! ## Primitive operations -/

section Primitives

variable {α σ : Type}

/-- Read `v[i]` of a `std::vector`; `none` outside its size. -/
def vec_get (v : List α) (i : Nat) : Option α := v[i]?

/-- Write `v[i] = a` of a `std::vector`; `none` outside its size. -/
def vec_set (v : List α) (i : Nat) (a : α) : Option (List α) :=
  if i < v.length then some (v.set i a) else none

/-- The loop `for (int i = 0; i < n; ++i) body`: iterations `0, ..., n-1` in order. -/
def for_loop : Nat → (Nat → σ → Option σ) → σ → Option σ
  | 0, _, s => some s
  | n + 1, body, s => (for_loop n body s).bind (body n)

end Primitives

section Scalars

variable {K : Type} [LinearOrderedField K]

/-- Scalar division; no real value when the divisor is zero. -/
def fdiv (a b : K) : Option K := if b = 0 then none else some (a / b)

/-- Squared Euclidean norm. -/
def Vector3.squaredNorm (v : Vector3 K) : K := v.x * v.x + v.y * v.y + v.z * v.z

/-- Eigen, `normalize()`: divides the vector by its norm, and leaves it
unchanged when the squared norm is not positive. -/
def Vector3.normalize (sqrt : K → K) (v : Vector3 K) : Vector3 K :=
  let z := v.squaredNorm
  if 0 < z then ⟨v.x / sqrt z, v.y / sqrt z, v.z / sqrt z⟩ else v

end Scalars

/-! ## Collaborators modelled from the spec -/

section Collaborators

variable {K L : Type}

/-- Modelled from the spec: `Spin_System::Lock` (data/, not under src/), which
"acquires the store's exclusive lock". -/
def Spin_System.Lock (image : Spin_System K L) : Spin_System K L :=
  { image with locked := true }

/-- Modelled from the spec: `Spin_System::Unlock` (data/, not under src/), which releases the lock. -/
def Spin_System.Unlock (image : Spin_System K L) : Spin_System K L :=
  { image with locked := false }

/-- Modelled from the spec: `Log(level, sender, message, idx_image, idx_chain)`
(utility/, not under src/) records one entry. -/
def Log (log : List (Log_Entry K)) (message : Log_Message K) (idx_image idx_chain : Int) :
    List (Log_Entry K) :=
  log ++ [⟨message, idx_image, idx_chain⟩]

/-- Modelled from the spec: `Hamiltonian_Heisenberg_Neighbours::Update_Energy_Contributions`
(engine/, not under src/) "recomputes which energy terms are active (nonempty)". -/
def Hamiltonian_Heisenberg_Neighbours.Update_Energy_Contributions
    (ham : Hamiltonian_Heisenberg_Neighbours K) : Hamiltonian_Heisenberg_Neighbours K :=
  { ham with energy_contributions :=
      { zeeman := decide (0 < ham.external_field_indices.length)
        anisotropy := decide (0 < ham.anisotropy_indices.length)
        exchange := decide (0 < ham.exchange_magnitudes.length)
        dmi := decide (0 < ham.dmi_magnitudes.length) } }

/-- Modelled from the spec: `Hamiltonian_Heisenberg_Pairs::Update_Energy_Contributions`
(engine/, not under src/) "recomputes which energy terms are active (nonempty)". -/
def Hamiltonian_Heisenberg_Pairs.Update_Energy_Contributions
    (ham : Hamiltonian_Heisenberg_Pairs K) : Hamiltonian_Heisenberg_Pairs K :=
  { ham with energy_contributions :=
      { zeeman := decide (0 < ham.external_field_indices.length)
        anisotropy := decide (0 < ham.anisotropy_indices.length)
        exchange := decide (0 < ham.exchange_pairs.length)
        dmi := decide (0 < ham.dmi_pairs.length) } }

/-- Replace the object behind `image->hamiltonian` (the writes go through the cast pointer). -/
def Spin_System.with_derived (image : Spin_System K L) (d : Hamiltonian_Class K) :
    Spin_System K L :=
  { image with hamiltonian := { image.hamiltonian with derived := d } }

end Collaborators

/-! ## Set Parameters -/

section SetParameters

variable {K L : Type} [LinearOrderedField K]

/-- Hamiltonian_Set_Boundary_Conditions (source lines 19-35). -/
def Hamiltonian_Set_Boundary_Conditions (state : State K L) (periodical : Bool × Bool × Bool)
    (idx_image idx_chain : Int) : Option (State K L) :=
  let image := state.image.Lock
  let image := { image with hamiltonian :=
    { image.hamiltonian with
      boundary_conditions := (periodical.1, periodical.2.1, periodical.2.2) } }
  let log := Log state.log
    (.boundary_conditions periodical.1 periodical.2.1 periodical.2.2) idx_image idx_chain
  some { image := image.Unlock, log := log }

/-- Hamiltonian_Set_mu_s (source lines 37-60): `for (auto& m : ham->mu_s) m = mu_s;`. -/
def Hamiltonian_Set_mu_s (state : State K L) (mu_s : K) (idx_image idx_chain : Int) :
    Option (State K L) :=
  let image := state.image.Lock
  let image :=
    match image.hamiltonian.derived with
    | .Heisenberg_Neighbours ham =>
        image.with_derived (.Heisenberg_Neighbours { ham with mu_s := ham.mu_s.map (fun _ => mu_s) })
    | .Heisenberg_Pairs ham =>
        image.with_derived (.Heisenberg_Pairs { ham with mu_s := ham.mu_s.map (fun _ => mu_s) })
    | .Gaussian => image
  let log := Log state.log (.mu_s mu_s) idx_image idx_chain
  some { image := image.Unlock, log := log }

/-- The loop of Hamiltonian_Set_Field (source lines 78-84 and 104-110) over the two
fresh arrays `new_indices(nos)`, `new_magnitudes(nos)`. -/
def Set_Field_loop (mu_B : K) (mu_s : List K) (nos : Nat) (magnitude : K) :
    Option (List Int × List K) :=
  for_loop nos
    (fun i (new : List Int × List K) => do
      let new_indices ← vec_set new.1 i (i : Int)
      let mu ← vec_get mu_s i
      let new_magnitudes ← vec_set new.2 i (magnitude * mu * mu_B)
      pure (new_indices, new_magnitudes))
    (List.replicate nos 0, List.replicate nos 0)

/-- Hamiltonian_Set_Field (source lines 62-130). -/
def Hamiltonian_Set_Field (env : Env K L) (state : State K L) (magnitude : K) (normal : Ptr K)
    (idx_image idx_chain : Int) : Option (State K L) := do
  let image := state.image.Lock
  let nos := image.nos
  let image ←
    match image.hamiltonian.derived with
    | .Heisenberg_Neighbours ham => do
        let new ← Set_Field_loop env.mu_B ham.mu_s nos magnitude
        let new_normal := (Vector3.mk (normal 0) (normal 1) (normal 2)).normalize env.sqrt
        let new_normals := List.replicate nos new_normal
        let ham := { ham with
          external_field_indices := new.1
          external_field_magnitudes := new.2
          external_field_normals := new_normals }
        pure (image.with_derived (.Heisenberg_Neighbours ham.Update_Energy_Contributions))
    | .Heisenberg_Pairs ham => do
        let new ← Set_Field_loop env.mu_B ham.mu_s nos magnitude
        let new_normal := (Vector3.mk (normal 0) (normal 1) (normal 2)).normalize env.sqrt
        let new_normals := List.replicate nos new_normal
        let ham := { ham with
          external_field_indices := new.1
          external_field_magnitudes := new.2
          external_field_normals := new_normals }
        pure (image.with_derived (.Heisenberg_Pairs ham.Update_Energy_Contributions))
    | .Gaussian => pure image
  let log := Log state.log (.external_field magnitude (normal 0) (normal 1) (normal 2))
    idx_image idx_chain
  pure { image := image.Unlock, log := log }

/-- The loop of Hamiltonian_Set_Anisotropy (source lines 146-152 and 172-178). -/
def Set_Anisotropy_loop (nos : Nat) (magnitude : K) : Option (List Int × List K) :=
  for_loop nos
    (fun i (new : List Int × List K) => do
      let new_indices ← vec_set new.1 i (i : Int)
      let new_magnitudes ← vec_set new.2 i magnitude
      pure (new_indices, new_magnitudes))
    (List.replicate nos 0, List.replicate nos 0)

/-- Hamiltonian_Set_Anisotropy (source lines 132-197). -/
def Hamiltonian_Set_Anisotropy (env : Env K L) (state : State K L) (magnitude : K)
    (normal : Ptr K) (idx_image idx_chain : Int) : Option (State K L) := do
  let image := state.image.Lock
  let nos := image.nos
  let image ←
    match image.hamiltonian.derived with
    | .Heisenberg_Neighbours ham => do
        let new ← Set_Anisotropy_loop nos magnitude
        let new_normal := (Vector3.mk (normal 0) (normal 1) (normal 2)).normalize env.sqrt
        let new_normals := List.replicate nos new_normal
        let ham := { ham with
          anisotropy_indices := new.1
          anisotropy_magnitudes := new.2
          anisotropy_normals := new_normals }
        pure (image.with_derived (.Heisenberg_Neighbours ham.Update_Energy_Contributions))
    | .Heisenberg_Pairs ham => do
        let new ← Set_Anisotropy_loop nos magnitude
        let new_normal := (Vector3.mk (normal 0) (normal 1) (normal 2)).normalize env.sqrt
        let new_normals := List.replicate nos new_normal
        let ham := { ham with
          anisotropy_indices := new.1
          anisotropy_magnitudes := new.2
          anisotropy_normals := new_normals }
        pure (image.with_derived (.Heisenberg_Pairs ham.Update_Energy_Contributions))
    | .Gaussian => pure image
  let log := Log state.log (.anisotropy magnitude (normal 0) (normal 1) (normal 2))
    idx_image idx_chain
  pure { image := image.Unlock, log := log }

end SetParameters

section SetPairwise

variable {K L : Type} [LinearOrderedField K]

/-- The loop of Hamiltonian_Set_Exchange over the neighbours (source lines 222-228):
two `push_back` per record. -/
def Set_Exchange_loop (jij : Ptr K) (neighbours : List Neighbour) : List Pair × List K :=
  neighbours.foldl
    (fun (acc : List Pair × List K) neigh =>
      (acc.1 ++ [⟨neigh.iatom, neigh.ineigh, neigh.translations⟩],
       acc.2 ++ [(1 / 2 : K) * jij neigh.idx_shell]))
    ([], [])

/-- Hamiltonian_Set_Exchange (source lines 199-240). -/
def Hamiltonian_Set_Exchange (env : Env K L) (state : State K L) (n_shells : Int) (jij : Ptr K)
    (_idx_image _idx_chain : Int) : Option (State K L) := do
  let image := state.image.Lock
  let image ←
    match image.hamiltonian.derived with
    | .Heisenberg_Neighbours ham => do
        let exchange_magnitudes ←
          for_loop n_shells.toNat (fun i v => vec_set v i (jij (i : Int))) ham.exchange_magnitudes
        let ham := { ham with exchange_magnitudes := exchange_magnitudes }
        pure (image.with_derived (.Heisenberg_Neighbours ham.Update_Energy_Contributions))
    | .Heisenberg_Pairs ham => do
        let neighbours := env.Get_Neighbours_in_Shells image.geometry n_shells
        let new := Set_Exchange_loop jij neighbours
        let ham := { ham with exchange_pairs := new.1, exchange_magnitudes := new.2 }
        pure (image.with_derived (.Heisenberg_Pairs ham.Update_Energy_Contributions))
    | .Gaussian => pure image
  pure { image := image.Unlock, log := state.log }

/-- The loop of Hamiltonian_Set_DMI over the neighbours (source lines 265-273):
three `push_back` per record, the normal taken from `pairs.back()` with chirality 1. -/
def Set_DMI_loop (env : Env K L) (geometry : Geometry L) (dij : Ptr K)
    (neighbours : List Neighbour) : List Pair × List K × List (Vector3 K) :=
  neighbours.foldl
    (fun (acc : List Pair × List K × List (Vector3 K)) neigh =>
      let back : Pair := ⟨neigh.iatom, neigh.ineigh, neigh.translations⟩
      (acc.1 ++ [back],
       acc.2.1 ++ [(1 / 2 : K) * dij neigh.idx_shell],
       acc.2.2 ++ [env.DMI_Normal_from_Pair geometry back 1]))
    ([], [], [])

/-- Hamiltonian_Set_DMI (source lines 242-286). -/
def Hamiltonian_Set_DMI (env : Env K L) (state : State K L) (n_shells : Int) (dij : Ptr K)
    (_idx_image _idx_chain : Int) : Option (State K L) := do
  let image := state.image.Lock
  let image ←
    match image.hamiltonian.derived with
    | .Heisenberg_Neighbours ham => do
        let dmi_magnitudes ←
          for_loop n_shells.toNat (fun i v => vec_set v i (dij (i : Int))) ham.dmi_magnitudes
        let ham := { ham with dmi_magnitudes := dmi_magnitudes }
        pure (image.with_derived (.Heisenberg_Neighbours ham.Update_Energy_Contributions))
    | .Heisenberg_Pairs ham => do
        let neighbours := env.Get_Neighbours_in_Shells image.geometry n_shells
        let new := Set_DMI_loop env image.geometry dij neighbours
        let ham := { ham with
          dmi_pairs := new.1, dmi_magnitudes := new.2.1, dmi_normals := new.2.2 }
        pure (image.with_derived (.Heisenberg_Pairs ham.Update_Energy_Contributions))
    | .Gaussian => pure image
  pure { image := image.Unlock, log := state.log }

/-- Hamiltonian_Set_DDI (source lines 288-291): empty body. -/
def Hamiltonian_Set_DDI (state : State K L) (_radius : K) (_idx_image _idx_chain : Int) :
    Option (State K L) :=
  some state

end SetPairwise

/-! ## Get Parameters -/

section GetParameters

variable {K L : Type} [LinearOrderedField K]

/-- Hamiltonian_Get_Name (source lines 297-304). -/
def Hamiltonian_Get_Name (state : State K L) (_idx_image _idx_chain : Int) : String :=
  state.image.hamiltonian.Name

/-- Hamiltonian_Get_Boundary_Conditions (source lines 306-315): all three outputs are written. -/
def Hamiltonian_Get_Boundary_Conditions (state : State K L) (_idx_image _idx_chain : Int) :
    Bool × Bool × Bool :=
  (state.image.hamiltonian.boundary_conditions.1,
   state.image.hamiltonian.boundary_conditions.2.1,
   state.image.hamiltonian.boundary_conditions.2.2)

/-- The loop of Hamiltonian_Get_mu_s (source lines 326-327 and 332-333). -/
def Get_mu_s_loop (ham_mu_s : List K) (n_spins_basic_domain : Nat) (mu_s : Ptr K) :
    Option (Ptr K) :=
  for_loop n_spins_basic_domain
    (fun i out => do
      let m ← vec_get ham_mu_s i
      pure (out.write (i : Int) m))
    mu_s

/-- Hamiltonian_Get_mu_s (source lines 317-335); the result is the output buffer. -/
def Hamiltonian_Get_mu_s (state : State K L) (mu_s : Ptr K) (_idx_image _idx_chain : Int) :
    Option (Ptr K) :=
  let image := state.image
  match image.hamiltonian.derived with
  | .Heisenberg_Neighbours ham => Get_mu_s_loop ham.mu_s image.geometry.n_spins_basic_domain mu_s
  | .Heisenberg_Pairs ham => Get_mu_s_loop ham.mu_s image.geometry.n_spins_basic_domain mu_s
  | .Gaussian => some mu_s

/-- The three stores `normal[0] = v[0]; normal[1] = v[1]; normal[2] = v[2]`. -/
def Ptr.write3 (normal : Ptr K) (v : Vector3 K) : Ptr K :=
  ((normal.write 0 v.x).write 1 v.y).write 2 v.z

/-- Body shared by the two branches of Hamiltonian_Get_Field (source lines 347-363, 369-385). -/
def Get_Field_branch (mu_B : K) (mu_s : List K) (external_field_indices : List Int)
    (external_field_magnitudes : List K) (external_field_normals : List (Vector3 K))
    (normal : Ptr K) : Option (K × Ptr K) :=
  if external_field_indices.length > 0 then do
    let mag0 ← vec_get external_field_magnitudes 0
    let mu0 ← vec_get mu_s 0
    let q ← fdiv mag0 mu0
    let magnitude ← fdiv q mu_B
    let n0 ← vec_get external_field_normals 0
    pure (magnitude, normal.write3 n0)
  else
    pure (0, normal.write3 ⟨0, 0, 1⟩)

/-- Hamiltonian_Get_Field (source lines 337-387); the result is `(*magnitude, normal)`. -/
def Hamiltonian_Get_Field (env : Env K L) (state : State K L) (magnitude : K) (normal : Ptr K)
    (_idx_image _idx_chain : Int) : Option (K × Ptr K) :=
  match state.image.hamiltonian.derived with
  | .Heisenberg_Neighbours ham =>
      Get_Field_branch env.mu_B ham.mu_s ham.external_field_indices
        ham.external_field_magnitudes ham.external_field_normals normal
  | .Heisenberg_Pairs ham =>
      Get_Field_branch env.mu_B ham.mu_s ham.external_field_indices
        ham.external_field_magnitudes ham.external_field_normals normal
  | .Gaussian => some (magnitude, normal)

/-- Body shared by the two branches of Hamiltonian_Get_Anisotropy (source lines 399-415, 421-437). -/
def Get_Anisotropy_branch (anisotropy_indices : List Int) (anisotropy_magnitudes : List K)
    (anisotropy_normals : List (Vector3 K)) (normal : Ptr K) : Option (K × Ptr K) :=
  if anisotropy_indices.length > 0 then do
    let magnitude ← vec_get anisotropy_magnitudes 0
    let n0 ← vec_get anisotropy_normals 0
    pure (magnitude, normal.write3 n0)
  else
    pure (0, normal.write3 ⟨0, 0, 1⟩)

/-- Hamiltonian_Get_Anisotropy (source lines 389-439); the result is `(*magnitude, normal)`. -/
def Hamiltonian_Get_Anisotropy (state : State K L) (magnitude : K) (normal : Ptr K)
    (_idx_image _idx_chain : Int) : Option (K × Ptr K) :=
  match state.image.hamiltonian.derived with
  | .Heisenberg_Neighbours ham =>
      Get_Anisotropy_branch ham.anisotropy_indices ham.anisotropy_magnitudes
        ham.anisotropy_normals normal
  | .Heisenberg_Pairs ham =>
      Get_Anisotropy_branch ham.anisotropy_indices ham.anisotropy_magnitudes
        ham.anisotropy_normals normal
  | .Gaussian => some (magnitude, normal)

/-- The loop of Hamiltonian_Get_Exchange / Hamiltonian_Get_DMI (source lines 454-457, 477-480). -/
def Get_shells_loop (magnitudes : List K) (n_shells : Nat) (out : Ptr K) : Option (Ptr K) :=
  for_loop n_shells
    (fun i out => do
      let m ← vec_get magnitudes i
      pure (out.write (i : Int) m))
    out

/-- Hamiltonian_Get_Exchange (source lines 441-463); the result is `(*n_shells, jij)`. -/
def Hamiltonian_Get_Exchange (state : State K L) (n_shells : Int) (jij : Ptr K)
    (_idx_image _idx_chain : Int) : Option (Int × Ptr K) :=
  match state.image.hamiltonian.derived with
  | .Heisenberg_Neighbours ham => do
      let n_shells : Int := ham.exchange_magnitudes.length
      let jij ← Get_shells_loop ham.exchange_magnitudes n_shells.toNat jij
      pure (n_shells, jij)
  | .Heisenberg_Pairs _ => some (n_shells, jij)
  | .Gaussian => some (n_shells, jij)

/-- Hamiltonian_Get_DMI (source lines 465-486); the result is `(*n_shells, dij)`. -/
def Hamiltonian_Get_DMI (state : State K L) (n_shells : Int) (dij : Ptr K)
    (_idx_image _idx_chain : Int) : Option (Int × Ptr K) :=
  match state.image.hamiltonian.derived with
  | .Heisenberg_Neighbours ham => do
      let n_shells : Int := ham.dmi_magnitudes.length
      let dij ← Get_shells_loop ham.dmi_magnitudes n_shells.toNat dij
      pure (n_shells, dij)
  | .Heisenberg_Pairs _ => some (n_shells, dij)
  | .Gaussian => some (n_shells, dij)

/-- Hamiltonian_Get_DDI (source lines 488-491): empty body, the output is not written. -/
def Hamiltonian_Get_DDI (_state : State K L) (radius : K) (_idx_image _idx_chain : Int) : K :=
  radius

end GetParameters

/-! ## Views used to state the contract for both Heisenberg classes at once -/

section Views

variable {K : Type}

/-- The object is one of the two Heisenberg classes (the shell model or the pair model). -/
def Hamiltonian_Class.is_Heisenberg : Hamiltonian_Class K → Prop
  | .Heisenberg_Neighbours _ => True
  | .Heisenberg_Pairs _ => True
  | .Gaussian => False

/-- Member `mu_s` of either Heisenberg class. -/
def Hamiltonian_Class.mu_s : Hamiltonian_Class K → List K
  | .Heisenberg_Neighbours ham => ham.mu_s
  | .Heisenberg_Pairs ham => ham.mu_s
  | .Gaussian => []

/-- Member `external_field_indices` of either Heisenberg class. -/
def Hamiltonian_Class.external_field_indices : Hamiltonian_Class K → List Int
  | .Heisenberg_Neighbours ham => ham.external_field_indices
  | .Heisenberg_Pairs ham => ham.external_field_indices
  | .Gaussian => []

/-- Member `external_field_magnitudes` of either Heisenberg class. -/
def Hamiltonian_Class.external_field_magnitudes : Hamiltonian_Class K → List K
  | .Heisenberg_Neighbours ham => ham.external_field_magnitudes
  | .Heisenberg_Pairs ham => ham.external_field_magnitudes
  | .Gaussian => []

/-- Member `external_field_normals` of either Heisenberg class. -/
def Hamiltonian_Class.external_field_normals : Hamiltonian_Class K → List (Vector3 K)
  | .Heisenberg_Neighbours ham => ham.external_field_normals
  | .Heisenberg_Pairs ham => ham.external_field_normals
  | .Gaussian => []

/-- Member `anisotropy_indices` of either Heisenberg class. -/
def Hamiltonian_Class.anisotropy_indices : Hamiltonian_Class K → List Int
  | .Heisenberg_Neighbours ham => ham.anisotropy_indices
  | .Heisenberg_Pairs ham => ham.anisotropy_indices
  | .Gaussian => []

/-- Member `anisotropy_magnitudes` of either Heisenberg class. -/
def Hamiltonian_Class.anisotropy_magnitudes : Hamiltonian_Class K → List K
  | .Heisenberg_Neighbours ham => ham.anisotropy_magnitudes
  | .Heisenberg_Pairs ham => ham.anisotropy_magnitudes
  | .Gaussian => []

/-- Member `anisotropy_normals` of either Heisenberg class. -/
def Hamiltonian_Class.anisotropy_normals : Hamiltonian_Class K → List (Vector3 K)
  | .Heisenberg_Neighbours ham => ham.anisotropy_normals
  | .Heisenberg_Pairs ham => ham.anisotropy_normals
  | .Gaussian => []

/-- The recompute of the active energy terms, on whichever class is present. -/
def Hamiltonian_Class.Update_Energy_Contributions : Hamiltonian_Class K → Hamiltonian_Class K
  | .Heisenberg_Neighbours ham => .Heisenberg_Neighbours ham.Update_Energy_Contributions
  | .Heisenberg_Pairs ham => .Heisenberg_Pairs ham.Update_Energy_Contributions
  | .Gaussian => .Gaussian

/-- The image with the exchange data of a pair-model object replaced; the
derived energy terms may differ as well. -/
def Hamiltonian_Heisenberg_Pairs.with_exchange (ham : Hamiltonian_Heisenberg_Pairs K)
    (pairs : List Pair) (magnitudes : List K) (e : Energy_Contributions) :
    Hamiltonian_Heisenberg_Pairs K :=
  { ham with exchange_pairs := pairs, exchange_magnitudes := magnitudes,
             energy_contributions := e }

/-- Pair pushed for a neighbour record. -/
def Neighbour.toPair (neigh : Neighbour) : Pair :=
  ⟨neigh.iatom, neigh.ineigh, neigh.translations⟩

/-- The state with another object behind `image->hamiltonian`, all else equal. -/
def State.with_derived {L : Type} (state : State K L) (d : Hamiltonian_Class K) : State K L :=
  { state with image := state.image.with_derived d }

/-- Either Heisenberg object after the three external-field members are
overwritten and the energy terms recomputed. -/
def Hamiltonian_Class.put_external_field (d : Hamiltonian_Class K) (indices : List Int)
    (magnitudes : List K) (normals : List (Vector3 K)) : Hamiltonian_Class K :=
  match d with
  | .Heisenberg_Neighbours ham =>
      .Heisenberg_Neighbours
        ({ ham with
            external_field_indices := indices
            external_field_magnitudes := magnitudes
            external_field_normals := normals } :
          Hamiltonian_Heisenberg_Neighbours K).Update_Energy_Contributions
  | .Heisenberg_Pairs ham =>
      .Heisenberg_Pairs
        ({ ham with
            external_field_indices := indices
            external_field_magnitudes := magnitudes
            external_field_normals := normals } :
          Hamiltonian_Heisenberg_Pairs K).Update_Energy_Contributions
  | .Gaussian => .Gaussian

/-- Either Heisenberg object after the three anisotropy members are overwritten
and the energy terms recomputed. -/
def Hamiltonian_Class.put_anisotropy (d : Hamiltonian_Class K) (indices : List Int)
    (magnitudes : List K) (normals : List (Vector3 K)) : Hamiltonian_Class K :=
  match d with
  | .Heisenberg_Neighbours ham =>
      .Heisenberg_Neighbours
        ({ ham with
            anisotropy_indices := indices
            anisotropy_magnitudes := magnitudes
            anisotropy_normals := normals } :
          Hamiltonian_Heisenberg_Neighbours K).Update_Energy_Contributions
  | .Heisenberg_Pairs ham =>
      .Heisenberg_Pairs
        ({ ham with
            anisotropy_indices := indices
            anisotropy_magnitudes := magnitudes
            anisotropy_normals := normals } :
          Hamiltonian_Heisenberg_Pairs K).Update_Energy_Contributions
  | .Gaussian => .Gaussian

/-- Either Heisenberg object after `mu_s` is overwritten. -/
def Hamiltonian_Class.put_mu_s (d : Hamiltonian_Class K) (mu_s : List K) : Hamiltonian_Class K :=
  match d with
  | .Heisenberg_Neighbours ham => .Heisenberg_Neighbours { ham with mu_s := mu_s }
  | .Heisenberg_Pairs ham => .Heisenberg_Pairs { ham with mu_s := mu_s }
  | .Gaussian => .Gaussian

end Views

/-! ## A concrete environment over the rationals -/

section Concrete

/-- A chain lattice with two sites per cell: bonds of shell 0 inside the cell,
bonds of shells 1 and 2 to the next cells. -/
def chain_neighbours : List Neighbour :=
  [⟨0, 1, (0, 0, 0), 0⟩, ⟨1, 0, (0, 0, 0), 0⟩, ⟨0, 0, (1, 0, 0), 1⟩,
   ⟨1, 1, (1, 0, 0), 1⟩, ⟨0, 1, (1, 0, 0), 2⟩]

/-- Environment over `ℚ`: the square root is exact on squares of rationals, the
finder returns the chain bonds of the first `n_shells` shells. -/
def envQ : Env ℚ Unit where
  mu_B := 57883817555 / 1000000000000
  sqrt := Rat.sqrt
  Get_Neighbours_in_Shells := fun _ n_shells =>
    chain_neighbours.filter (fun neigh => decide (neigh.idx_shell < n_shells))
  DMI_Normal_from_Pair := fun _ pair chirality =>
    ⟨(chirality : ℚ), (pair.j - pair.i : Int), 0⟩

/-- A Pairs Hamiltonian with two sites and nothing set yet. -/
def pairsQ : Hamiltonian_Heisenberg_Pairs ℚ where
  mu_s := [2, 3]
  external_field_indices := []
  external_field_magnitudes := []
  external_field_normals := []
  anisotropy_indices := []
  anisotropy_magnitudes := []
  anisotropy_normals := []
  exchange_pairs := []
  exchange_magnitudes := []
  dmi_pairs := []
  dmi_magnitudes := []
  dmi_normals := []
  energy_contributions := ⟨false, false, false, false⟩

/-- A Neighbours Hamiltonian with two sites and three shells. -/
def neighboursQ : Hamiltonian_Heisenberg_Neighbours ℚ where
  mu_s := [2, 3]
  external_field_indices := []
  external_field_magnitudes := []
  external_field_normals := []
  anisotropy_indices := []
  anisotropy_magnitudes := []
  anisotropy_normals := []
  exchange_magnitudes := [10, 20, 30]
  dmi_magnitudes := [1, 2, 3]
  energy_contributions := ⟨false, false, true, true⟩

/-- State around a given Hamiltonian object: two spins, unlocked, empty log. -/
def stateQ (d : Hamiltonian_Class ℚ) : State ℚ Unit where
  image := { nos := 2, geometry := ⟨2, ()⟩, hamiltonian := ⟨(false, false, false), d⟩,
             locked := false }
  log := []

/-- The two-spin state in the pair model. -/
def pairs_stateQ : State ℚ Unit := stateQ (.Heisenberg_Pairs pairsQ)

/-- The two-spin state in the shell model. -/
def neighbours_stateQ : State ℚ Unit := stateQ (.Heisenberg_Neighbours neighboursQ)

/-- Coefficient buffer holding `5, 7, 9` at offsets 0, 1, 2. -/
def coeffQ : Ptr ℚ := fun i => if i = 0 then 5 else if i = 1 then 7 else if i = 2 then 9 else 0

/-- Buffer holding `3, 4, 0`: a direction of norm 5. -/
def dirQ : Ptr ℚ := fun i => if i = 0 then 3 else if i = 1 then 4 else 0

/-- A pair-model image without any site. -/
def empty_stateQ : State ℚ Unit where
  image := { nos := 0, geometry := ⟨0, ()⟩,
             hamiltonian := ⟨(false, false, false),
               .Heisenberg_Pairs { pairsQ with mu_s := [] }⟩,
             locked := false }
  log := []

/-- The two-spin pair-model state whose moments are all zero (as after `Set_mu_s(0)`). -/
def zero_moment_stateQ : State ℚ Unit := stateQ (.Heisenberg_Pairs { pairsQ with mu_s := [0, 0] })

/-- The two-spin shell-model state with a field and an anisotropy already stored,
the entries of site 1 differing from those of site 0. -/
def field_stateQ : State ℚ Unit :=
  stateQ (.Heisenberg_Neighbours
    { neighboursQ with
      external_field_indices := [0, 1]
      external_field_magnitudes := [4, 6]
      external_field_normals := [⟨0, 0, 1⟩, ⟨1, 0, 0⟩]
      anisotropy_indices := [0, 1]
      anisotropy_magnitudes := [8, 9]
      anisotropy_normals := [⟨0, 1, 0⟩, ⟨1, 0, 0⟩]
      energy_contributions := ⟨true, true, true, true⟩ })

/-- The two-spin state whose Hamiltonian is the Gaussian one: no function of the
file has a branch for it. -/
def gaussian_stateQ : State ℚ Unit := stateQ .Gaussian

/-- The two-spin shell-model state with three exchange shells and one DMI shell stored. -/
def uneven_stateQ : State ℚ Unit :=
  stateQ (.Heisenberg_Neighbours { neighboursQ with dmi_magnitudes := [1] })

end Concrete

/-! ## Properties stated by the contract -/

section Properties

variable {K L : Type} [LinearOrderedField K]

/-- Round trip of the external field: Hamiltonian_Set_Field with `(m, v)` returns,
and Hamiltonian_Get_Field on the resulting state returns the magnitude `m` and the
normal `v / |v|`, whatever the output buffers held before. -/
def Field_round_trip (env : Env K L) (state : State K L) (m : K) (v : Ptr K) : Prop :=
  ∀ (magnitude : K) (normal : Ptr K) (idx_image idx_chain : Int),
    ∃ (state1 : State K L) (out : K × Ptr K),
      Hamiltonian_Set_Field env state m v idx_image idx_chain = some state1 ∧
      Hamiltonian_Get_Field env state1 magnitude normal idx_image idx_chain = some out ∧
      out.1 = m ∧
      out.2 0 = v 0 / env.sqrt (v 0 * v 0 + v 1 * v 1 + v 2 * v 2) ∧
      out.2 1 = v 1 / env.sqrt (v 0 * v 0 + v 1 * v 1 + v 2 * v 2) ∧
      out.2 2 = v 2 / env.sqrt (v 0 * v 0 + v 1 * v 1 + v 2 * v 2)

/-- Round trip of the anisotropy: Hamiltonian_Set_Anisotropy with `(m, v)` returns,
every stored magnitude is `m` itself (one per site), and Hamiltonian_Get_Anisotropy on
the resulting state returns the magnitude `m` and the normal `v / |v|`. -/
def Anisotropy_round_trip (env : Env K L) (state : State K L) (m : K) (v : Ptr K) : Prop :=
  ∀ (magnitude : K) (normal : Ptr K) (idx_image idx_chain : Int),
    ∃ (state1 : State K L) (out : K × Ptr K),
      Hamiltonian_Set_Anisotropy env state m v idx_image idx_chain = some state1 ∧
      state1.image.hamiltonian.derived.anisotropy_magnitudes =
        List.replicate state.image.nos m ∧
      Hamiltonian_Get_Anisotropy state1 magnitude normal idx_image idx_chain = some out ∧
      out.1 = m ∧
      out.2 0 = v 0 / env.sqrt (v 0 * v 0 + v 1 * v 1 + v 2 * v 2) ∧
      out.2 1 = v 1 / env.sqrt (v 0 * v 0 + v 1 * v 1 + v 2 * v 2) ∧
      out.2 2 = v 2 / env.sqrt (v 0 * v 0 + v 1 * v 1 + v 2 * v 2)

/-- Shell-model copy of the exchange coefficients: Hamiltonian_Set_Exchange with
`(n_shells, jij)` returns, the stored array then satisfies `exchange[i] = jij[i]` for
every `i < n_shells`, and Hamiltonian_Get_Exchange afterwards returns and has written
`jij[i]` to output position `i` for every `i < n_shells`. -/
def Exchange_copy (env : Env K L) (state : State K L) (n_shells : Int) (jij : Ptr K) : Prop :=
  ∀ (n0 : Int) (out : Ptr K) (idx_image idx_chain : Int),
    ∃ (state1 : State K L) (ham1 : Hamiltonian_Heisenberg_Neighbours K) (res : Int × Ptr K),
      Hamiltonian_Set_Exchange env state n_shells jij idx_image idx_chain = some state1 ∧
      state1.image.hamiltonian.derived = .Heisenberg_Neighbours ham1 ∧
      (∀ i : Nat, (i : Int) < n_shells → ham1.exchange_magnitudes[i]? = some (jij (i : Int))) ∧
      Hamiltonian_Get_Exchange state1 n0 out idx_image idx_chain = some res ∧
      (∀ i : Nat, (i : Int) < n_shells → res.2 (i : Int) = jij (i : Int))

/-- Shell-model copy of the DMI coefficients, as `Exchange_copy` with the `dmi` array. -/
def DMI_copy (env : Env K L) (state : State K L) (n_shells : Int) (dij : Ptr K) : Prop :=
  ∀ (n0 : Int) (out : Ptr K) (idx_image idx_chain : Int),
    ∃ (state1 : State K L) (ham1 : Hamiltonian_Heisenberg_Neighbours K) (res : Int × Ptr K),
      Hamiltonian_Set_DMI env state n_shells dij idx_image idx_chain = some state1 ∧
      state1.image.hamiltonian.derived = .Heisenberg_Neighbours ham1 ∧
      (∀ i : Nat, (i : Int) < n_shells → ham1.dmi_magnitudes[i]? = some (dij (i : Int))) ∧
      Hamiltonian_Get_DMI state1 n0 out idx_image idx_chain = some res ∧
      (∀ i : Nat, (i : Int) < n_shells → res.2 (i : Int) = dij (i : Int))

end Properties

/-! ## Loop lemmas -/

/-! ## Store events: the order in which a setter acts on the store -/

section Events

variable {K L : Type}

/-- Member of the store a statement of the file assigns to; element-wise stores
carry the index. -/
inductive Member where
  | boundary_conditions (i : Nat)
  | mu_s (i : Nat)
  | external_field_indices
  | external_field_magnitudes
  | external_field_normals
  | anisotropy_indices
  | anisotropy_magnitudes
  | anisotropy_normals
  | exchange_magnitudes_at (i : Nat)
  | dmi_magnitudes_at (i : Nat)
  | exchange_pairs
  | exchange_magnitudes
  | dmi_pairs
  | dmi_magnitudes
  | dmi_normals
deriving DecidableEq

/-- What a setter does to the store, one event per statement that acts on it:
`image->Lock()`, `image->Unlock()`, an assignment to a member, the call of
`Update_Energy_Contributions`, a `Log` call. -/
inductive Store_Event (K : Type) where
  | Lock
  | Unlock
  | Write (m : Member)
  | Update_Energy_Contributions
  | Log (entry : Log_Entry K)

/-- Events of Hamiltonian_Set_Boundary_Conditions, in the order of source lines 25-34. -/
def Hamiltonian_Set_Boundary_Conditions_events (periodical : Bool × Bool × Bool)
    (idx_image idx_chain : Int) : List (Store_Event K) :=
  [.Lock,
   .Write (.boundary_conditions 0), .Write (.boundary_conditions 1),
   .Write (.boundary_conditions 2),
   .Log ⟨.boundary_conditions periodical.1 periodical.2.1 periodical.2.2, idx_image, idx_chain⟩,
   .Unlock]

/-- Events of Hamiltonian_Set_mu_s, in the order of source lines 43-59: one store per
entry of `mu_s` in the branch taken. -/
def Hamiltonian_Set_mu_s_events (state : State K L) (mu_s : K) (idx_image idx_chain : Int) :
    List (Store_Event K) :=
  [.Lock] ++
  (match state.image.hamiltonian.derived with
    | .Heisenberg_Neighbours ham => (List.range ham.mu_s.length).map (fun i => .Write (.mu_s i))
    | .Heisenberg_Pairs ham => (List.range ham.mu_s.length).map (fun i => .Write (.mu_s i))
    | .Gaussian => []) ++
  [.Log ⟨.mu_s mu_s, idx_image, idx_chain⟩, .Unlock]

/-- Events of Hamiltonian_Set_Field, in the order of source lines 69-129: the loops
fill local arrays, the store is assigned at lines 91-93 (117-119). -/
def Hamiltonian_Set_Field_events (state : State K L) (magnitude : K) (normal : Ptr K)
    (idx_image idx_chain : Int) : List (Store_Event K) :=
  [.Lock] ++
  (match state.image.hamiltonian.derived with
    | .Heisenberg_Neighbours _ =>
        [.Write .external_field_indices, .Write .external_field_magnitudes,
         .Write .external_field_normals, .Update_Energy_Contributions]
    | .Heisenberg_Pairs _ =>
        [.Write .external_field_indices, .Write .external_field_magnitudes,
         .Write .external_field_normals, .Update_Energy_Contributions]
    | .Gaussian => []) ++
  [.Log ⟨.external_field magnitude (normal 0) (normal 1) (normal 2), idx_image, idx_chain⟩,
   .Unlock]

/-- Events of Hamiltonian_Set_Anisotropy, in the order of source lines 138-196. -/
def Hamiltonian_Set_Anisotropy_events (state : State K L) (magnitude : K) (normal : Ptr K)
    (idx_image idx_chain : Int) : List (Store_Event K) :=
  [.Lock] ++
  (match state.image.hamiltonian.derived with
    | .Heisenberg_Neighbours _ =>
        [.Write .anisotropy_indices, .Write .anisotropy_magnitudes,
         .Write .anisotropy_normals, .Update_Energy_Contributions]
    | .Heisenberg_Pairs _ =>
        [.Write .anisotropy_indices, .Write .anisotropy_magnitudes,
         .Write .anisotropy_normals, .Update_Energy_Contributions]
    | .Gaussian => []) ++
  [.Log ⟨.anisotropy magnitude (normal 0) (normal 1) (normal 2), idx_image, idx_chain⟩,
   .Unlock]

/-- Events of Hamiltonian_Set_Exchange, in the order of source lines 205-239: the
shell model stores entry by entry, the pair model assigns the two arrays; there is
no `Log` call. -/
def Hamiltonian_Set_Exchange_events (state : State K L) (n_shells : Int) :
    List (Store_Event K) :=
  [.Lock] ++
  (match state.image.hamiltonian.derived with
    | .Heisenberg_Neighbours _ =>
        (List.range n_shells.toNat).map (fun i => .Write (.exchange_magnitudes_at i)) ++
          [.Update_Energy_Contributions]
    | .Heisenberg_Pairs _ =>
        [.Write .exchange_pairs, .Write .exchange_magnitudes, .Update_Energy_Contributions]
    | .Gaussian => []) ++
  [.Unlock]

/-- Events of Hamiltonian_Set_DMI, in the order of source lines 248-285; there is no
`Log` call. -/
def Hamiltonian_Set_DMI_events (state : State K L) (n_shells : Int) : List (Store_Event K) :=
  [.Lock] ++
  (match state.image.hamiltonian.derived with
    | .Heisenberg_Neighbours _ =>
        (List.range n_shells.toNat).map (fun i => .Write (.dmi_magnitudes_at i)) ++
          [.Update_Energy_Contributions]
    | .Heisenberg_Pairs _ =>
        [.Write .dmi_pairs, .Write .dmi_magnitudes, .Write .dmi_normals,
         .Update_Energy_Contributions]
    | .Gaussian => []) ++
  [.Unlock]

/-- The event takes or releases the lock. -/
def Store_Event.is_lock_event : Store_Event K → Bool
  | .Lock => true
  | .Unlock => true
  | _ => false

/-- Lock first, Unlock last, and neither of them strictly in between. -/
def Bracketed (events : List (Store_Event K)) : Prop :=
  ∃ middle : List (Store_Event K),
    events = Store_Event.Lock :: (middle ++ [Store_Event.Unlock]) ∧
    ∀ e ∈ middle, e.is_lock_event = false

/-- Whether the lock is held after the events, given whether it was held before. -/
def lock_after : Bool → List (Store_Event K) → Bool
  | held, [] => held
  | _, .Lock :: rest => lock_after true rest
  | _, .Unlock :: rest => lock_after false rest
  | held, _ :: rest => lock_after held rest

/-- Every store, recompute and log write of the events happens while the lock is held. -/
def guarded : Bool → List (Store_Event K) → Bool
  | _, [] => true
  | _, .Lock :: rest => guarded true rest
  | _, .Unlock :: rest => guarded false rest
  | held, _ :: rest => held && guarded held rest

/-- The log records written by the events, in order. -/
def logged : List (Store_Event K) → List (Log_Entry K)
  | [] => []
  | .Log entry :: rest => entry :: logged rest
  | _ :: rest => logged rest

/-- The lock discipline of one call: its events are bracketed by Lock and Unlock,
every action on the store is under the lock, the lock is free afterwards, and the
state the call returns has the lock flag and the log the events lead to. -/
def Lock_discipline (events : List (Store_Event K)) (before : State K L)
    (result : Option (State K L)) : Prop :=
  Bracketed events ∧
  guarded false events = true ∧
  lock_after false events = false ∧
  ∀ state1 : State K L, result = some state1 →
    state1.image.locked = lock_after before.image.locked events ∧
    state1.image.locked = false ∧
    state1.log = before.log ++ logged events

/-- Either Heisenberg object after the exchange data are overwritten and the energy
terms recomputed: the shell model holds magnitudes only. -/
def Hamiltonian_Class.put_exchange (d : Hamiltonian_Class K) (pairs : List Pair)
    (magnitudes : List K) : Hamiltonian_Class K :=
  match d with
  | .Heisenberg_Neighbours ham =>
      .Heisenberg_Neighbours
        ({ ham with exchange_magnitudes := magnitudes } :
          Hamiltonian_Heisenberg_Neighbours K).Update_Energy_Contributions
  | .Heisenberg_Pairs ham =>
      .Heisenberg_Pairs
        ({ ham with exchange_pairs := pairs, exchange_magnitudes := magnitudes } :
          Hamiltonian_Heisenberg_Pairs K).Update_Energy_Contributions
  | .Gaussian => .Gaussian

/-- Either Heisenberg object after the DMI data are overwritten and the energy terms
recomputed: the shell model holds magnitudes only. -/
def Hamiltonian_Class.put_dmi (d : Hamiltonian_Class K) (pairs : List Pair)
    (magnitudes : List K) (normals : List (Vector3 K)) : Hamiltonian_Class K :=
  match d with
  | .Heisenberg_Neighbours ham =>
      .Heisenberg_Neighbours
        ({ ham with dmi_magnitudes := magnitudes } :
          Hamiltonian_Heisenberg_Neighbours K).Update_Energy_Contributions
  | .Heisenberg_Pairs ham =>
      .Heisenberg_Pairs
        ({ ham with dmi_pairs := pairs, dmi_magnitudes := magnitudes, dmi_normals := normals } :
          Hamiltonian_Heisenberg_Pairs K).Update_Energy_Contributions
  | .Gaussian => .Gaussian

/-- The image with its lock released and another object behind `image->hamiltonian`:
number of spins, geometry and boundary conditions are those of `image`. -/
def Spin_System.released_with (image : Spin_System K L) (d : Hamiltonian_Class K) :
    Spin_System K L :=
  { image with locked := false, hamiltonian := { image.hamiltonian with derived := d } }

end Events

/-! ## The setters statement by statement

Each statement of a setter that acts on the store is an `Action`; executing it
changes the state, appends its event to the trace, and notes whether the lock was
held at that moment. A setter is the sequence of its statements in source order. -/

section Steps

variable {K L : Type} [LinearOrderedField K]

/-- A statement that acts on the store, with the value it stores. -/
inductive Action (K : Type) where
  | Lock
  | Unlock
  | boundary_conditions (i : Nat) (b : Bool)
  | mu_s (i : Nat) (m : K)
  | external_field_indices (new_indices : List Int)
  | external_field_magnitudes (new_magnitudes : List K)
  | external_field_normals (new_normals : List (Vector3 K))
  | anisotropy_indices (new_indices : List Int)
  | anisotropy_magnitudes (new_magnitudes : List K)
  | anisotropy_normals (new_normals : List (Vector3 K))
  | exchange_magnitudes_at (i : Nat) (j : K)
  | dmi_magnitudes_at (i : Nat) (d : K)
  | exchange_pairs (pairs : List Pair)
  | exchange_magnitudes (magnitudes : List K)
  | dmi_pairs (pairs : List Pair)
  | dmi_magnitudes (magnitudes : List K)
  | dmi_normals (normals : List (Vector3 K))
  | Update_Energy_Contributions
  | Log (entry : Log_Entry K)

/-- The event an action leaves in the trace. -/
def Action.event : Action K → Store_Event K
  | .Lock => .Lock
  | .Unlock => .Unlock
  | .boundary_conditions i _ => .Write (.boundary_conditions i)
  | .mu_s i _ => .Write (.mu_s i)
  | .external_field_indices _ => .Write .external_field_indices
  | .external_field_magnitudes _ => .Write .external_field_magnitudes
  | .external_field_normals _ => .Write .external_field_normals
  | .anisotropy_indices _ => .Write .anisotropy_indices
  | .anisotropy_magnitudes _ => .Write .anisotropy_magnitudes
  | .anisotropy_normals _ => .Write .anisotropy_normals
  | .exchange_magnitudes_at i _ => .Write (.exchange_magnitudes_at i)
  | .dmi_magnitudes_at i _ => .Write (.dmi_magnitudes_at i)
  | .exchange_pairs _ => .Write .exchange_pairs
  | .exchange_magnitudes _ => .Write .exchange_magnitudes
  | .dmi_pairs _ => .Write .dmi_pairs
  | .dmi_magnitudes _ => .Write .dmi_magnitudes
  | .dmi_normals _ => .Write .dmi_normals
  | .Update_Energy_Contributions => .Update_Energy_Contributions
  | .Log entry => .Log entry

/-- Effect of a store through the cast pointer `ham` on the shell-model object;
`none` for an index outside the array and for a member the class does not have. -/
def Hamiltonian_Heisenberg_Neighbours.store (ham : Hamiltonian_Heisenberg_Neighbours K) :
    Action K → Option (Hamiltonian_Heisenberg_Neighbours K)
  | .mu_s i m => (vec_set ham.mu_s i m).map (fun l => { ham with mu_s := l })
  | .external_field_indices l => some { ham with external_field_indices := l }
  | .external_field_magnitudes l => some { ham with external_field_magnitudes := l }
  | .external_field_normals l => some { ham with external_field_normals := l }
  | .anisotropy_indices l => some { ham with anisotropy_indices := l }
  | .anisotropy_magnitudes l => some { ham with anisotropy_magnitudes := l }
  | .anisotropy_normals l => some { ham with anisotropy_normals := l }
  | .exchange_magnitudes_at i j =>
      (vec_set ham.exchange_magnitudes i j).map (fun l => { ham with exchange_magnitudes := l })
  | .dmi_magnitudes_at i d =>
      (vec_set ham.dmi_magnitudes i d).map (fun l => { ham with dmi_magnitudes := l })
  | .Update_Energy_Contributions => some ham.Update_Energy_Contributions
  | _ => none

/-- Effect of a store through the cast pointer `ham` on the pair-model object;
`none` for an index outside the array and for a member the class does not have. -/
def Hamiltonian_Heisenberg_Pairs.store (ham : Hamiltonian_Heisenberg_Pairs K) :
    Action K → Option (Hamiltonian_Heisenberg_Pairs K)
  | .mu_s i m => (vec_set ham.mu_s i m).map (fun l => { ham with mu_s := l })
  | .external_field_indices l => some { ham with external_field_indices := l }
  | .external_field_magnitudes l => some { ham with external_field_magnitudes := l }
  | .external_field_normals l => some { ham with external_field_normals := l }
  | .anisotropy_indices l => some { ham with anisotropy_indices := l }
  | .anisotropy_magnitudes l => some { ham with anisotropy_magnitudes := l }
  | .anisotropy_normals l => some { ham with anisotropy_normals := l }
  | .exchange_pairs l => some { ham with exchange_pairs := l }
  | .exchange_magnitudes l => some { ham with exchange_magnitudes := l }
  | .dmi_pairs l => some { ham with dmi_pairs := l }
  | .dmi_magnitudes l => some { ham with dmi_magnitudes := l }
  | .dmi_normals l => some { ham with dmi_normals := l }
  | .Update_Energy_Contributions => some ham.Update_Energy_Contributions
  | _ => none

/-- Effect of an action on the state: `Lock`, `Unlock` and `Log` as modelled from
the spec, the boundary flags on the base class, every other store on the object
behind `image->hamiltonian` (no setter stores into the Gaussian one). -/
def Action.apply (a : Action K) (state : State K L) : Option (State K L) :=
  match a with
  | .Lock => some { state with image := state.image.Lock }
  | .Unlock => some { state with image := state.image.Unlock }
  | .Log entry =>
      some { state with
        log := Spirit.Log state.log entry.message entry.idx_image entry.idx_chain }
  | .boundary_conditions i b =>
      let bc := state.image.hamiltonian.boundary_conditions
      let put (new : Bool × Bool × Bool) : State K L :=
        { state with image :=
          { state.image with hamiltonian :=
            { state.image.hamiltonian with boundary_conditions := new } } }
      match i with
      | 0 => some (put (b, bc.2.1, bc.2.2))
      | 1 => some (put (bc.1, b, bc.2.2))
      | 2 => some (put (bc.1, bc.2.1, b))
      | _ => none
  | a =>
      match state.image.hamiltonian.derived with
      | .Heisenberg_Neighbours ham =>
          (ham.store a).map
            (fun ham1 => { state with image := state.image.with_derived (.Heisenberg_Neighbours ham1) })
      | .Heisenberg_Pairs ham =>
          (ham.store a).map
            (fun ham1 => { state with image := state.image.with_derived (.Heisenberg_Pairs ham1) })
      | .Gaussian => none

/-- A run in progress: the state, the events so far, and whether every store,
recompute and log write so far found the lock held. -/
structure Machine (K L : Type) where
  state : State K L
  events : List (Store_Event K)
  under_lock : Bool

/-- The run before its first statement. -/
def Machine.start (state : State K L) : Machine K L :=
  ⟨state, [], true⟩

/-- Execute one action: its effect on the state, its event appended, and the lock
flag of the state inspected unless the action is `Lock` or `Unlock` itself. -/
def step (a : Action K) (m : Machine K L) : Option (Machine K L) :=
  (a.apply m.state).map (fun state1 =>
    ⟨state1, m.events ++ [a.event],
      m.under_lock && (a.event.is_lock_event || m.state.image.locked)⟩)

/-- Hamiltonian_Set_Boundary_Conditions statement by statement (source lines 25-34). -/
def Hamiltonian_Set_Boundary_Conditions_steps (periodical : Bool × Bool × Bool)
    (idx_image idx_chain : Int) (m : Machine K L) : Option (Machine K L) := do
  let m ← step .Lock m
  let m ← step (.boundary_conditions 0 periodical.1) m
  let m ← step (.boundary_conditions 1 periodical.2.1) m
  let m ← step (.boundary_conditions 2 periodical.2.2) m
  let m ← step (.Log ⟨.boundary_conditions periodical.1 periodical.2.1 periodical.2.2,
    idx_image, idx_chain⟩) m
  step .Unlock m

/-- Hamiltonian_Set_mu_s statement by statement (source lines 43-59): the range loop
stores into each entry of `mu_s` in turn. -/
def Hamiltonian_Set_mu_s_steps (mu_s : K) (idx_image idx_chain : Int) (m : Machine K L) :
    Option (Machine K L) := do
  let m ← step .Lock m
  let m ←
    match m.state.image.hamiltonian.derived with
    | .Heisenberg_Neighbours ham =>
        for_loop ham.mu_s.length (fun i m => step (.mu_s i mu_s) m) m
    | .Heisenberg_Pairs ham =>
        for_loop ham.mu_s.length (fun i m => step (.mu_s i mu_s) m) m
    | .Gaussian => pure m
  let m ← step (.Log ⟨.mu_s mu_s, idx_image, idx_chain⟩) m
  step .Unlock m

/-- Hamiltonian_Set_Field statement by statement (source lines 69-129): the loop
fills the local arrays, then the three members are assigned. -/
def Hamiltonian_Set_Field_steps (env : Env K L) (magnitude : K) (normal : Ptr K)
    (idx_image idx_chain : Int) (m : Machine K L) : Option (Machine K L) := do
  let m ← step .Lock m
  let nos := m.state.image.nos
  let m ←
    match m.state.image.hamiltonian.derived with
    | .Heisenberg_Neighbours ham => do
        let new ← Set_Field_loop env.mu_B ham.mu_s nos magnitude
        let new_normal := (Vector3.mk (normal 0) (normal 1) (normal 2)).normalize env.sqrt
        let new_normals := List.replicate nos new_normal
        let m ← step (.external_field_indices new.1) m
        let m ← step (.external_field_magnitudes new.2) m
        let m ← step (.external_field_normals new_normals) m
        step .Update_Energy_Contributions m
    | .Heisenberg_Pairs ham => do
        let new ← Set_Field_loop env.mu_B ham.mu_s nos magnitude
        let new_normal := (Vector3.mk (normal 0) (normal 1) (normal 2)).normalize env.sqrt
        let new_normals := List.replicate nos new_normal
        let m ← step (.external_field_indices new.1) m
        let m ← step (.external_field_magnitudes new.2) m
        let m ← step (.external_field_normals new_normals) m
        step .Update_Energy_Contributions m
    | .Gaussian => pure m
  let m ← step (.Log ⟨.external_field magnitude (normal 0) (normal 1) (normal 2),
    idx_image, idx_chain⟩) m
  step .Unlock m

/-- Hamiltonian_Set_Anisotropy statement by statement (source lines 138-196). -/
def Hamiltonian_Set_Anisotropy_steps (env : Env K L) (magnitude : K) (normal : Ptr K)
    (idx_image idx_chain : Int) (m : Machine K L) : Option (Machine K L) := do
  let m ← step .Lock m
  let nos := m.state.image.nos
  let m ←
    match m.state.image.hamiltonian.derived with
    | .Heisenberg_Neighbours _ => do
        let new ← Set_Anisotropy_loop nos magnitude
        let new_normal := (Vector3.mk (normal 0) (normal 1) (normal 2)).normalize env.sqrt
        let new_normals := List.replicate nos new_normal
        let m ← step (.anisotropy_indices new.1) m
        let m ← step (.anisotropy_magnitudes new.2) m
        let m ← step (.anisotropy_normals new_normals) m
        step .Update_Energy_Contributions m
    | .Heisenberg_Pairs _ => do
        let new ← Set_Anisotropy_loop nos magnitude
        let new_normal := (Vector3.mk (normal 0) (normal 1) (normal 2)).normalize env.sqrt
        let new_normals := List.replicate nos new_normal
        let m ← step (.anisotropy_indices new.1) m
        let m ← step (.anisotropy_magnitudes new.2) m
        let m ← step (.anisotropy_normals new_normals) m
        step .Update_Energy_Contributions m
    | .Gaussian => pure m
  let m ← step (.Log ⟨.anisotropy magnitude (normal 0) (normal 1) (normal 2),
    idx_image, idx_chain⟩) m
  step .Unlock m

/-- Hamiltonian_Set_Exchange statement by statement (source lines 205-239): the
shell model stores entry by entry inside its loop, the pair model builds the local
lists and assigns the two members; no `Log` call. -/
def Hamiltonian_Set_Exchange_steps (env : Env K L) (n_shells : Int) (jij : Ptr K)
    (_idx_image _idx_chain : Int) (m : Machine K L) : Option (Machine K L) := do
  let m ← step .Lock m
  let m ←
    match m.state.image.hamiltonian.derived with
    | .Heisenberg_Neighbours _ => do
        let m ← for_loop n_shells.toNat
          (fun i m => step (.exchange_magnitudes_at i (jij (i : Int))) m) m
        step .Update_Energy_Contributions m
    | .Heisenberg_Pairs _ => do
        let neighbours := env.Get_Neighbours_in_Shells m.state.image.geometry n_shells
        let new := Set_Exchange_loop jij neighbours
        let m ← step (.exchange_pairs new.1) m
        let m ← step (.exchange_magnitudes new.2) m
        step .Update_Energy_Contributions m
    | .Gaussian => pure m
  step .Unlock m

/-- Hamiltonian_Set_DMI statement by statement (source lines 248-285); no `Log` call. -/
def Hamiltonian_Set_DMI_steps (env : Env K L) (n_shells : Int) (dij : Ptr K)
    (_idx_image _idx_chain : Int) (m : Machine K L) : Option (Machine K L) := do
  let m ← step .Lock m
  let m ←
    match m.state.image.hamiltonian.derived with
    | .Heisenberg_Neighbours _ => do
        let m ← for_loop n_shells.toNat
          (fun i m => step (.dmi_magnitudes_at i (dij (i : Int))) m) m
        step .Update_Energy_Contributions m
    | .Heisenberg_Pairs _ => do
        let neighbours := env.Get_Neighbours_in_Shells m.state.image.geometry n_shells
        let new := Set_DMI_loop env m.state.image.geometry dij neighbours
        let m ← step (.dmi_pairs new.1) m
        let m ← step (.dmi_magnitudes new.2.1) m
        let m ← step (.dmi_normals new.2.2) m
        step .Update_Energy_Contributions m
    | .Gaussian => pure m
  step .Unlock m

/-- What the run of a setter, statement by statement, shows about the lock: the
states it reaches are those the setter returns; its trace has Lock first and
Unlock last with every other event strictly between; each store, recompute and log
write found the lock held when it was executed; the lock is free at the end; and
the log has grown by the records of the trace. -/
def Runs_under_lock (run : Option (Machine K L)) (before : State K L)
    (result : Option (State K L)) : Prop :=
  run.map (fun m => m.state) = result ∧
  ∀ m1 : Machine K L, run = some m1 →
    Bracketed m1.events ∧
    m1.under_lock = true ∧
    guarded false m1.events = true ∧
    lock_after before.image.locked m1.events = m1.state.image.locked ∧
    m1.state.image.locked = false ∧
    m1.state.log = before.log ++ logged m1.events

end Steps

/-! ## The invariant of the indexed fields, and the frame of a setter -/

section Invariants

variable {K L : Type} [LinearOrderedField K]

/-- Unit length: the squared norm is one. -/
def Vector3.is_unit (v : Vector3 K) : Prop := v.squaredNorm = 1

/-- Invariant of the two indexed fields: indices, magnitudes and normals of the
external field have one length and every normal is of unit length; likewise for the
anisotropy. -/
def Indexed_field_invariant (d : Hamiltonian_Class K) : Prop :=
  d.external_field_indices.length = d.external_field_magnitudes.length ∧
  d.external_field_magnitudes.length = d.external_field_normals.length ∧
  (∀ v ∈ d.external_field_normals, v.is_unit) ∧
  d.anisotropy_indices.length = d.anisotropy_magnitudes.length ∧
  d.anisotropy_magnitudes.length = d.anisotropy_normals.length ∧
  (∀ v ∈ d.anisotropy_normals, v.is_unit)

/-- The call keeps the invariant of the indexed fields: if it holds in the state
before, it holds in the state the call returns. -/
def Preserves_indexed_invariant (before : State K L) (result : Option (State K L)) : Prop :=
  Indexed_field_invariant before.image.hamiltonian.derived →
    ∀ state1 : State K L, result = some state1 →
      Indexed_field_invariant state1.image.hamiltonian.derived

/-- Frame of a call: number of spins and geometry are as before, a lock that was
free before is free after, and the Hamiltonian after has the given boundary
conditions and the given object. -/
def Changes_only (before after : State K L) (boundary_conditions : Bool × Bool × Bool)
    (d : Hamiltonian_Class K) : Prop :=
  after.image.nos = before.image.nos ∧
  after.image.geometry = before.image.geometry ∧
  (before.image.locked = false → after.image.locked = before.image.locked) ∧
  after.image.hamiltonian.boundary_conditions = boundary_conditions ∧
  after.image.hamiltonian.derived = d

end Invariants

section Dispatch

variable {K : Type}

/-- The comparison `Name() == "Heisenberg (Neighbours)"` holds exactly for the shell-model class. -/
theorem Name_eq_Neighbours_iff (h : Hamiltonian K) :
    h.Name = "Heisenberg (Neighbours)" ↔ ∃ ham, h.derived = .Heisenberg_Neighbours ham := by
  cases hd : h.derived <;> simp [Hamiltonian.Name, hd]

/-- The comparison `Name() == "Heisenberg (Pairs)"` holds exactly for the pair-model class. -/
theorem Name_eq_Pairs_iff (h : Hamiltonian K) :
    h.Name = "Heisenberg (Pairs)" ↔ ∃ ham, h.derived = .Heisenberg_Pairs ham := by
  cases hd : h.derived <;> simp [Hamiltonian.Name, hd]

end Dispatch

section LoopLemmas

variable {K L : Type} [LinearOrderedField K]

theorem Set_Exchange_loop_eq (jij : Ptr K) (neighbours : List Neighbour) :
    Set_Exchange_loop jij neighbours =
      (neighbours.map Neighbour.toPair,
       neighbours.map (fun neigh => (1 / 2 : K) * jij neigh.idx_shell)) := by
  have key : ∀ (ns : List Neighbour) (acc : List Pair × List K),
      ns.foldl
        (fun (acc : List Pair × List K) neigh =>
          (acc.1 ++ [⟨neigh.iatom, neigh.ineigh, neigh.translations⟩],
           acc.2 ++ [(1 / 2 : K) * jij neigh.idx_shell])) acc =
        (acc.1 ++ ns.map Neighbour.toPair,
         acc.2 ++ ns.map (fun neigh => (1 / 2 : K) * jij neigh.idx_shell)) := by
    intro ns
    induction ns with
    | nil => intro acc; simp
    | cons n ns ih =>
      intro acc
      rw [List.foldl_cons, ih]
      simp [Neighbour.toPair]
  simpa [Set_Exchange_loop] using key neighbours ([], [])

theorem Set_DMI_loop_eq (env : Env K L) (geometry : Geometry L) (dij : Ptr K)
    (neighbours : List Neighbour) :
    Set_DMI_loop env geometry dij neighbours =
      (neighbours.map Neighbour.toPair,
       neighbours.map (fun neigh => (1 / 2 : K) * dij neigh.idx_shell),
       neighbours.map (fun neigh => env.DMI_Normal_from_Pair geometry neigh.toPair 1)) := by
  have key : ∀ (ns : List Neighbour) (acc : List Pair × List K × List (Vector3 K)),
      ns.foldl
        (fun (acc : List Pair × List K × List (Vector3 K)) neigh =>
          let back : Pair := ⟨neigh.iatom, neigh.ineigh, neigh.translations⟩
          (acc.1 ++ [back],
           acc.2.1 ++ [(1 / 2 : K) * dij neigh.idx_shell],
           acc.2.2 ++ [env.DMI_Normal_from_Pair geometry back 1])) acc =
        (acc.1 ++ ns.map Neighbour.toPair,
         acc.2.1 ++ ns.map (fun neigh => (1 / 2 : K) * dij neigh.idx_shell),
         acc.2.2 ++ ns.map (fun neigh => env.DMI_Normal_from_Pair geometry neigh.toPair 1)) := by
    intro ns
    induction ns with
    | nil => intro acc; simp
    | cons n ns ih =>
      intro acc
      rw [List.foldl_cons, ih]
      simp [Neighbour.toPair]
  simpa [Set_DMI_loop] using key neighbours ([], [], [])

theorem vec_set_fill {α : Type} (A : List α) (d x : α) (m : Nat) :
    vec_set (A ++ List.replicate (m + 1) d) A.length x = some ((A ++ [x]) ++ List.replicate m d) := by
  simp [vec_set, List.replicate_succ]

theorem Set_Anisotropy_loop_aux (nos : Nat) (magnitude : K) (k : Nat) (hk : k ≤ nos) :
    for_loop k
      (fun i (new : List Int × List K) => do
        let new_indices ← vec_set new.1 i (i : Int)
        let new_magnitudes ← vec_set new.2 i magnitude
        pure (new_indices, new_magnitudes))
      (List.replicate nos 0, List.replicate nos 0) =
    some ((List.range k).map Int.ofNat ++ List.replicate (nos - k) 0,
          List.replicate k magnitude ++ List.replicate (nos - k) 0) := by
  induction k with
  | zero => simp [for_loop]
  | succ k ih =>
    have h1 : nos - k = (nos - (k + 1)) + 1 := by omega
    have hA : ((List.range k).map Int.ofNat).length = k := by simp
    have hB : (List.replicate k magnitude).length = k := by simp
    have e1 := vec_set_fill ((List.range k).map Int.ofNat) (0 : Int) (k : Int) (nos - (k + 1))
    have e2 := vec_set_fill (List.replicate k magnitude) (0 : K) magnitude (nos - (k + 1))
    rw [hA] at e1
    rw [hB] at e2
    rw [for_loop, ih (by omega), h1]
    simp only [Option.bind_eq_bind, Option.some_bind, e1, e2, Option.pure_def, bind_pure_comp,
      Option.map_some']
    simp [List.range_succ, List.replicate_succ']

end LoopLemmas

section LoopLemmas2

variable {K L : Type} [LinearOrderedField K]

theorem vec_set_append_cons {α : Type} (A : List α) (b x : α) (B : List α) (k : Nat)
    (hk : A.length = k) : vec_set (A ++ b :: B) k x = some ((A ++ [x]) ++ B) := by
  subst hk
  simp [vec_set]

theorem Set_Field_loop_aux (mu_B : K) (mu_s : List K) (nos : Nat) (magnitude : K) (k : Nat)
    (hk : k ≤ nos) (hmu : k ≤ mu_s.length) :
    for_loop k
      (fun i (new : List Int × List K) => do
        let new_indices ← vec_set new.1 i (i : Int)
        let mu ← vec_get mu_s i
        let new_magnitudes ← vec_set new.2 i (magnitude * mu * mu_B)
        pure (new_indices, new_magnitudes))
      (List.replicate nos 0, List.replicate nos 0) =
    some ((List.range k).map Int.ofNat ++ List.replicate (nos - k) 0,
          (mu_s.take k).map (fun mu => magnitude * mu * mu_B) ++ List.replicate (nos - k) 0) := by
  induction k with
  | zero => simp [for_loop]
  | succ k ih =>
    have h1 : nos - k = (nos - (k + 1)) + 1 := by omega
    have hlt : k < mu_s.length := by omega
    have hA : ((List.range k).map Int.ofNat).length = k := by simp
    have hB : ((mu_s.take k).map (fun mu => magnitude * mu * mu_B)).length = k := by
      simp; omega
    have e1 := vec_set_fill ((List.range k).map Int.ofNat) (0 : Int) (k : Int) (nos - (k + 1))
    have e2 := fun x : K => vec_set_fill ((mu_s.take k).map (fun mu => magnitude * mu * mu_B))
      (0 : K) x (nos - (k + 1))
    have e3 : vec_get mu_s k = some mu_s[k] := by simp [vec_get, hlt]
    rw [hA] at e1
    rw [hB] at e2
    rw [for_loop, ih (by omega) (by omega), h1]
    simp only [Option.bind_eq_bind, Option.some_bind, e1, e2, e3, Option.pure_def]
    rw [List.range_succ, List.take_succ, List.getElem?_eq_getElem hlt]
    simp only [Option.toList_some, List.map_append, List.map_cons, List.map_nil,
      List.append_assoc]
    rfl

/-- Result of the loop of Hamiltonian_Set_Field when `mu_s` covers the `nos` sites. -/
theorem Set_Field_loop_eq (mu_B : K) (mu_s : List K) (nos : Nat) (magnitude : K)
    (hmu : nos ≤ mu_s.length) :
    Set_Field_loop mu_B mu_s nos magnitude =
      some ((List.range nos).map Int.ofNat,
            (mu_s.take nos).map (fun mu => magnitude * mu * mu_B)) := by
  have h := Set_Field_loop_aux mu_B mu_s nos magnitude nos (le_refl _) hmu
  simpa [Set_Field_loop] using h

/-- Result of the loop of Hamiltonian_Set_Anisotropy. -/
theorem Set_Anisotropy_loop_eq (nos : Nat) (magnitude : K) :
    Set_Anisotropy_loop nos magnitude =
      some ((List.range nos).map Int.ofNat, List.replicate nos magnitude) := by
  have h := Set_Anisotropy_loop_aux nos magnitude nos (le_refl _)
  simpa [Set_Anisotropy_loop] using h

end LoopLemmas2

section LoopLemmas3

variable {K : Type}

/-- In-place copy loop of the shell model: the first `n` entries are overwritten. -/
theorem shell_copy_loop_eq (jij : Ptr K) (v : List K) (n : Nat) (hn : n ≤ v.length) :
    for_loop n (fun i v => vec_set v i (jij (i : Int))) v =
      some ((List.range n).map (fun (i : Nat) => jij (i : Int)) ++ v.drop n) := by
  induction n with
  | zero => simp [for_loop]
  | succ k ih =>
    have hlt : k < v.length := by omega
    have e1 := vec_set_append_cons ((List.range k).map (fun (i : Nat) => jij (i : Int))) v[k]
      (jij (k : Int)) (v.drop (k + 1)) k (by simp)
    rw [for_loop, ih (by omega), List.drop_eq_getElem_cons hlt]
    simp only [Option.bind_eq_bind, Option.some_bind, e1]
    simp [List.range_succ]

/-- Copy loop of the getters: offsets below `n` receive the vector entries, the
other offsets keep their value. -/
theorem get_loop_spec (l : List K) (n : Nat) (out : Ptr K) (hn : n ≤ l.length) :
    ∃ res : Ptr K,
      for_loop n (fun i out => do
          let m ← vec_get l i
          pure (Ptr.write out (i : Int) m)) out = some res ∧
      (∀ i : Nat, i < n → l[i]? = some (res (i : Int))) ∧
      (∀ j : Int, (j < 0 ∨ (n : Int) ≤ j) → res j = out j) := by
  induction n with
  | zero => exact ⟨out, by simp [for_loop], by intro i hi; omega, by intro j _; rfl⟩
  | succ k ih =>
    obtain ⟨res, h1, h2, h3⟩ := ih (by omega)
    have hlt : k < l.length := by omega
    refine ⟨res.write (k : Int) l[k], ?_, ?_, ?_⟩
    · rw [for_loop, h1]
      simp [vec_get, hlt]
    · intro i hi
      by_cases hik : i = k
      · subst hik
        simp [Ptr.write, hlt]
      · have : (i : Int) ≠ (k : Int) := by omega
        simp only [Ptr.write, this, if_false]
        exact h2 i (by omega)
    · intro j hj
      have : j ≠ (k : Int) := by omega
      simp only [Ptr.write, this, if_false]
      exact h3 j (by omega)

/-- Entries below `n` of an array whose first `n` entries were overwritten from `c`. -/
theorem copied_getElem? (c : Ptr K) (v : List K) (n i : Nat) (hi : i < n) :
    ((List.range n).map (fun (i : Nat) => c (i : Int)) ++ v.drop n)[i]? = some (c (i : Int)) := by
  rw [List.getElem?_append_left (by simpa using hi)]
  simp [List.getElem?_map, List.getElem?_range hi]

/-- Shell-model getter loop after the copy: outputs below `n` are the coefficients. -/
theorem get_after_copy (c : Ptr K) (v : List K) (n : Nat) (hn : n ≤ v.length) (out : Ptr K) :
    ∃ res : Ptr K,
      Get_shells_loop ((List.range n).map (fun (i : Nat) => c (i : Int)) ++ v.drop n)
        ((((List.range n).map (fun (i : Nat) => c (i : Int)) ++ v.drop n).length : Int)).toNat
        out = some res ∧
      ∀ i : Nat, i < n → res (i : Int) = c (i : Int) := by
  have hlen : ((List.range n).map (fun (i : Nat) => c (i : Int)) ++ v.drop n).length =
      v.length := by
    simp
    omega
  obtain ⟨res, hres, hin, -⟩ :=
    get_loop_spec ((List.range n).map (fun (i : Nat) => c (i : Int)) ++ v.drop n)
      ((List.range n).map (fun (i : Nat) => c (i : Int)) ++ v.drop n).length out (le_refl _)
  refine ⟨res, ?_, ?_⟩
  · rw [Int.toNat_ofNat]
    exact hres
  · intro i hi
    have h1 := hin i (by rw [hlen]; omega)
    rw [copied_getElem? c v n i hi] at h1
    exact (Option.some.inj h1).symm

end LoopLemmas3

/-! ## Evaluation of the setters on each class -/

section Evaluation

variable {K L : Type} [LinearOrderedField K]

/-- Pair-model branch of Hamiltonian_Set_Exchange in closed form. -/
theorem Set_Exchange_Pairs_eq (env : Env K L) (state : State K L)
    (ham : Hamiltonian_Heisenberg_Pairs K) (n_shells : Int) (jij : Ptr K)
    (idx_image idx_chain : Int)
    (hP : state.image.hamiltonian.derived = .Heisenberg_Pairs ham) :
    Hamiltonian_Set_Exchange env state n_shells jij idx_image idx_chain =
      some
        { image :=
            { state.image with
              locked := false
              hamiltonian :=
                { state.image.hamiltonian with
                  derived := .Heisenberg_Pairs
                    ({ ham with
                        exchange_pairs :=
                          (env.Get_Neighbours_in_Shells state.image.geometry n_shells).map
                            Neighbour.toPair
                        exchange_magnitudes :=
                          (env.Get_Neighbours_in_Shells state.image.geometry n_shells).map
                            (fun neigh => (1 / 2 : K) * jij neigh.idx_shell)
                      } : Hamiltonian_Heisenberg_Pairs K).Update_Energy_Contributions } }
          log := state.log } := by
  simp only [Hamiltonian_Set_Exchange, Spin_System.Lock, hP, Set_Exchange_loop_eq,
    Spin_System.with_derived, Spin_System.Unlock]
  rfl

end Evaluation

section PairModel

variable {K L : Type} [LinearOrderedField K]

/-- Sum of the halved coefficients over the records of one shell. -/
theorem shell_sum (c : Ptr K) (s : Int) (N : List Neighbour) :
    (((N.zip (N.map (fun neigh => (1 / 2 : K) * c neigh.idx_shell))).filter
        (fun p => decide (p.1.idx_shell = s))).map Prod.snd).sum =
      (1 / 2 : K) * c s * ((N.filter (fun neigh => decide (neigh.idx_shell = s))).length : K) := by
  induction N with
  | nil => simp
  | cons r N ih =>
    by_cases h : r.idx_shell = s
    · simp only [List.map_cons, List.zip_cons_cons, List.filter_cons, h, decide_True, if_true,
        List.sum_cons, List.length_cons, Nat.cast_add, Nat.cast_one]
      rw [ih]
      ring
    · simp only [List.map_cons, List.zip_cons_cons, List.filter_cons, h, decide_False]
      simpa using ih

/-- Claim C1. In the pair model, Hamiltonian_Set_Exchange returns, and afterwards
`exchange_pairs` and `exchange_magnitudes` have the length of the sequence returned
by Get_Neighbours_in_Shells; entry `k` of the pairs is `(iatom, ineigh, translations)`
of record `k`, entry `k` of the magnitudes is `0.5 * jij[idx_shell]` of record `k`;
hence for every shell `s` the magnitudes of the bonds of shell `s` sum to
`0.5 * jij[s]` times the number of enumerated bonds of shell `s`. -/
theorem C1_set_exchange_pairs (env : Env K L) (state : State K L)
    (ham : Hamiltonian_Heisenberg_Pairs K) (n_shells : Int) (jij : Ptr K)
    (idx_image idx_chain : Int)
    (hP : state.image.hamiltonian.derived = .Heisenberg_Pairs ham) :
    ∃ (state1 : State K L) (ham1 : Hamiltonian_Heisenberg_Pairs K),
      Hamiltonian_Set_Exchange env state n_shells jij idx_image idx_chain = some state1 ∧
      state1.image.hamiltonian.derived = .Heisenberg_Pairs ham1 ∧
      ham1.exchange_pairs.length =
        (env.Get_Neighbours_in_Shells state.image.geometry n_shells).length ∧
      ham1.exchange_magnitudes.length =
        (env.Get_Neighbours_in_Shells state.image.geometry n_shells).length ∧
      (∀ (k : Nat) (neigh : Neighbour),
        (env.Get_Neighbours_in_Shells state.image.geometry n_shells)[k]? = some neigh →
          ham1.exchange_pairs[k]? = some ⟨neigh.iatom, neigh.ineigh, neigh.translations⟩ ∧
          ham1.exchange_magnitudes[k]? = some ((1 / 2 : K) * jij neigh.idx_shell)) ∧
      (∀ s : Int,
        ((((env.Get_Neighbours_in_Shells state.image.geometry n_shells).zip
            ham1.exchange_magnitudes).filter
              (fun p => decide (p.1.idx_shell = s))).map Prod.snd).sum =
          (1 / 2 : K) * jij s *
            ((((env.Get_Neighbours_in_Shells state.image.geometry n_shells).filter
              (fun neigh => decide (neigh.idx_shell = s))).length : Nat) : K)) := by
  refine ⟨_, _, Set_Exchange_Pairs_eq env state ham n_shells jij idx_image idx_chain hP, rfl,
    ?_, ?_, ?_, ?_⟩
  · simp [Hamiltonian_Heisenberg_Pairs.Update_Energy_Contributions]
  · simp [Hamiltonian_Heisenberg_Pairs.Update_Energy_Contributions]
  · intro k neigh hk
    simp [Hamiltonian_Heisenberg_Pairs.Update_Energy_Contributions, List.getElem?_map, hk,
      Neighbour.toPair]
  · intro s
    exact shell_sum jij s _

/-- Claim C1 at the chain lattice: two shells requested, coefficients `5, 7, 9`. -/
theorem C1_set_exchange_pairs_witness :
    ∃ (state1 : State ℚ Unit) (ham1 : Hamiltonian_Heisenberg_Pairs ℚ),
      Hamiltonian_Set_Exchange envQ (stateQ (.Heisenberg_Pairs pairsQ)) 2 coeffQ 0 0 =
        some state1 ∧
      state1.image.hamiltonian.derived = .Heisenberg_Pairs ham1 ∧
      ham1.exchange_pairs.length =
        (envQ.Get_Neighbours_in_Shells (stateQ (.Heisenberg_Pairs pairsQ)).image.geometry 2).length ∧
      ham1.exchange_magnitudes.length =
        (envQ.Get_Neighbours_in_Shells (stateQ (.Heisenberg_Pairs pairsQ)).image.geometry 2).length ∧
      (∀ (k : Nat) (neigh : Neighbour),
        (envQ.Get_Neighbours_in_Shells (stateQ (.Heisenberg_Pairs pairsQ)).image.geometry 2)[k]? =
            some neigh →
          ham1.exchange_pairs[k]? = some ⟨neigh.iatom, neigh.ineigh, neigh.translations⟩ ∧
          ham1.exchange_magnitudes[k]? = some ((1 / 2 : ℚ) * coeffQ neigh.idx_shell)) ∧
      (∀ s : Int,
        ((((envQ.Get_Neighbours_in_Shells (stateQ (.Heisenberg_Pairs pairsQ)).image.geometry 2).zip
            ham1.exchange_magnitudes).filter
              (fun p => decide (p.1.idx_shell = s))).map Prod.snd).sum =
          (1 / 2 : ℚ) * coeffQ s *
            ((((envQ.Get_Neighbours_in_Shells
                (stateQ (.Heisenberg_Pairs pairsQ)).image.geometry 2).filter
              (fun neigh => decide (neigh.idx_shell = s))).length : Nat) : ℚ)) :=
  C1_set_exchange_pairs envQ (stateQ (.Heisenberg_Pairs pairsQ)) pairsQ 2 coeffQ 0 0 rfl

end PairModel

section PairModelDMI

variable {K L : Type} [LinearOrderedField K]

/-- Pair-model branch of Hamiltonian_Set_DMI in closed form. -/
theorem Set_DMI_Pairs_eq (env : Env K L) (state : State K L)
    (ham : Hamiltonian_Heisenberg_Pairs K) (n_shells : Int) (dij : Ptr K)
    (idx_image idx_chain : Int)
    (hP : state.image.hamiltonian.derived = .Heisenberg_Pairs ham) :
    Hamiltonian_Set_DMI env state n_shells dij idx_image idx_chain =
      some
        { image :=
            { state.image with
              locked := false
              hamiltonian :=
                { state.image.hamiltonian with
                  derived := .Heisenberg_Pairs
                    ({ ham with
                        dmi_pairs :=
                          (env.Get_Neighbours_in_Shells state.image.geometry n_shells).map
                            Neighbour.toPair
                        dmi_magnitudes :=
                          (env.Get_Neighbours_in_Shells state.image.geometry n_shells).map
                            (fun neigh => (1 / 2 : K) * dij neigh.idx_shell)
                        dmi_normals :=
                          (env.Get_Neighbours_in_Shells state.image.geometry n_shells).map
                            (fun neigh =>
                              env.DMI_Normal_from_Pair state.image.geometry neigh.toPair 1)
                      } : Hamiltonian_Heisenberg_Pairs K).Update_Energy_Contributions } }
          log := state.log } := by
  simp only [Hamiltonian_Set_DMI, Spin_System.Lock, hP, Set_DMI_loop_eq,
    Spin_System.with_derived, Spin_System.Unlock]
  rfl

/-- Claim C2. In the pair model, Hamiltonian_Set_DMI returns, and afterwards
`dmi_pairs`, `dmi_magnitudes` and `dmi_normals` all have the length of the enumerated
neighbour sequence; at every position `k` the pair is `(iatom, ineigh, translations)`
of record `k`, the magnitude is `0.5 * dij[idx_shell]` of record `k`, and the normal
is DMI_Normal_from_Pair of the geometry, that pair and chirality `1`. -/
theorem C2_set_dmi_pairs (env : Env K L) (state : State K L)
    (ham : Hamiltonian_Heisenberg_Pairs K) (n_shells : Int) (dij : Ptr K)
    (idx_image idx_chain : Int)
    (hP : state.image.hamiltonian.derived = .Heisenberg_Pairs ham) :
    ∃ (state1 : State K L) (ham1 : Hamiltonian_Heisenberg_Pairs K),
      Hamiltonian_Set_DMI env state n_shells dij idx_image idx_chain = some state1 ∧
      state1.image.hamiltonian.derived = .Heisenberg_Pairs ham1 ∧
      ham1.dmi_pairs.length =
        (env.Get_Neighbours_in_Shells state.image.geometry n_shells).length ∧
      ham1.dmi_magnitudes.length =
        (env.Get_Neighbours_in_Shells state.image.geometry n_shells).length ∧
      ham1.dmi_normals.length =
        (env.Get_Neighbours_in_Shells state.image.geometry n_shells).length ∧
      (∀ (k : Nat) (neigh : Neighbour),
        (env.Get_Neighbours_in_Shells state.image.geometry n_shells)[k]? = some neigh →
          ∃ pair : Pair,
            pair = ⟨neigh.iatom, neigh.ineigh, neigh.translations⟩ ∧
            ham1.dmi_pairs[k]? = some pair ∧
            ham1.dmi_magnitudes[k]? = some ((1 / 2 : K) * dij neigh.idx_shell) ∧
            ham1.dmi_normals[k]? =
              some (env.DMI_Normal_from_Pair state.image.geometry pair 1)) := by
  refine ⟨_, _, Set_DMI_Pairs_eq env state ham n_shells dij idx_image idx_chain hP, rfl,
    ?_, ?_, ?_, ?_⟩
  · simp [Hamiltonian_Heisenberg_Pairs.Update_Energy_Contributions]
  · simp [Hamiltonian_Heisenberg_Pairs.Update_Energy_Contributions]
  · simp [Hamiltonian_Heisenberg_Pairs.Update_Energy_Contributions]
  · intro k neigh hk
    refine ⟨_, rfl, ?_⟩
    simp [Hamiltonian_Heisenberg_Pairs.Update_Energy_Contributions, List.getElem?_map, hk,
      Neighbour.toPair]

/-- Claim C2 at the chain lattice: two shells requested, coefficients `5, 7, 9`. -/
theorem C2_set_dmi_pairs_witness :
    ∃ (state1 : State ℚ Unit) (ham1 : Hamiltonian_Heisenberg_Pairs ℚ),
      Hamiltonian_Set_DMI envQ (stateQ (.Heisenberg_Pairs pairsQ)) 2 coeffQ 0 0 = some state1 ∧
      state1.image.hamiltonian.derived = .Heisenberg_Pairs ham1 ∧
      ham1.dmi_pairs.length =
        (envQ.Get_Neighbours_in_Shells (stateQ (.Heisenberg_Pairs pairsQ)).image.geometry 2).length ∧
      ham1.dmi_magnitudes.length =
        (envQ.Get_Neighbours_in_Shells (stateQ (.Heisenberg_Pairs pairsQ)).image.geometry 2).length ∧
      ham1.dmi_normals.length =
        (envQ.Get_Neighbours_in_Shells (stateQ (.Heisenberg_Pairs pairsQ)).image.geometry 2).length ∧
      (∀ (k : Nat) (neigh : Neighbour),
        (envQ.Get_Neighbours_in_Shells (stateQ (.Heisenberg_Pairs pairsQ)).image.geometry 2)[k]? =
            some neigh →
          ∃ pair : Pair,
            pair = ⟨neigh.iatom, neigh.ineigh, neigh.translations⟩ ∧
            ham1.dmi_pairs[k]? = some pair ∧
            ham1.dmi_magnitudes[k]? = some ((1 / 2 : ℚ) * coeffQ neigh.idx_shell) ∧
            ham1.dmi_normals[k]? =
              some (envQ.DMI_Normal_from_Pair
                (stateQ (.Heisenberg_Pairs pairsQ)).image.geometry pair 1)) :=
  C2_set_dmi_pairs envQ (stateQ (.Heisenberg_Pairs pairsQ)) pairsQ 2 coeffQ 0 0 rfl

end PairModelDMI

section Regeneration

variable {K L : Type} [LinearOrderedField K]

/-- Claim C3. In the pair model Hamiltonian_Set_Exchange is a full regeneration:
it returns, and two states that differ only in the current exchange bond list (and
the energy terms derived from it) are taken to the same state; hence after
`Set_Exchange(n1, a)` followed by `Set_Exchange(n2, b)` the bond list is exactly the
one enumerated for `n2` shells, the state is the one a single `Set_Exchange(n2, b)`
gives, and where the finder only reports shells below the requested number no bond
of a shell beyond `n2` remains. -/
theorem C3_set_exchange_regenerates (env : Env K L) (state : State K L)
    (ham : Hamiltonian_Heisenberg_Pairs K)
    (hP : state.image.hamiltonian.derived = .Heisenberg_Pairs ham) :
    (∀ (pairs : List Pair) (magnitudes : List K) (e : Energy_Contributions) (n : Int)
        (jij : Ptr K) (idx_image idx_chain : Int),
      ∃ state1 : State K L,
        Hamiltonian_Set_Exchange env state n jij idx_image idx_chain = some state1 ∧
        Hamiltonian_Set_Exchange env
          (state.with_derived (.Heisenberg_Pairs (ham.with_exchange pairs magnitudes e)))
          n jij idx_image idx_chain = some state1) ∧
    (∀ (n1 n2 : Int) (a b : Ptr K) (idx_image idx_chain : Int), n2 < n1 →
      ∃ (state1 state2 : State K L) (ham2 : Hamiltonian_Heisenberg_Pairs K),
        Hamiltonian_Set_Exchange env state n1 a idx_image idx_chain = some state1 ∧
        Hamiltonian_Set_Exchange env state1 n2 b idx_image idx_chain = some state2 ∧
        Hamiltonian_Set_Exchange env state n2 b idx_image idx_chain = some state2 ∧
        state2.image.hamiltonian.derived = .Heisenberg_Pairs ham2 ∧
        ham2.exchange_pairs =
          (env.Get_Neighbours_in_Shells state.image.geometry n2).map Neighbour.toPair ∧
        ham2.exchange_magnitudes =
          (env.Get_Neighbours_in_Shells state.image.geometry n2).map
            (fun neigh => (1 / 2 : K) * b neigh.idx_shell) ∧
        ((∀ (n : Int) (neigh : Neighbour),
            neigh ∈ env.Get_Neighbours_in_Shells state.image.geometry n → neigh.idx_shell < n) →
          ∃ records : List Neighbour,
            ham2.exchange_pairs = records.map Neighbour.toPair ∧
            ham2.exchange_pairs.length = records.length ∧
            ∀ neigh ∈ records, neigh.idx_shell < n2)) := by
  constructor
  · intro pairs magnitudes e n jij idx_image idx_chain
    refine ⟨_, Set_Exchange_Pairs_eq env state ham n jij idx_image idx_chain hP, ?_⟩
    rw [Set_Exchange_Pairs_eq env _ (ham.with_exchange pairs magnitudes e) n jij idx_image
      idx_chain rfl]
    simp [State.with_derived, Spin_System.with_derived,
      Hamiltonian_Heisenberg_Pairs.with_exchange,
      Hamiltonian_Heisenberg_Pairs.Update_Energy_Contributions]
  · intro n1 n2 a b idx_image idx_chain _
    refine ⟨_, _, _, Set_Exchange_Pairs_eq env state ham n1 a idx_image idx_chain hP,
      Set_Exchange_Pairs_eq env _ _ n2 b idx_image idx_chain rfl, ?_, rfl, ?_, ?_, ?_⟩
    · rw [Set_Exchange_Pairs_eq env state ham n2 b idx_image idx_chain hP]
      simp [Hamiltonian_Heisenberg_Pairs.Update_Energy_Contributions]
    · simp [Hamiltonian_Heisenberg_Pairs.Update_Energy_Contributions]
    · simp [Hamiltonian_Heisenberg_Pairs.Update_Energy_Contributions]
    · intro hfinder
      refine ⟨env.Get_Neighbours_in_Shells state.image.geometry n2, ?_, ?_, ?_⟩
      · simp [Hamiltonian_Heisenberg_Pairs.Update_Energy_Contributions]
      · simp [Hamiltonian_Heisenberg_Pairs.Update_Energy_Contributions]
      · intro neigh hmem
        exact hfinder n2 neigh hmem

/-- Claim C3 at the chain lattice, the test case of the contract: `Set_Exchange` with
one shell after `Set_Exchange` with three shells leaves exactly the bonds enumerated
for one shell, all of shell index below one; and a state with a foreign bond list is
taken to the same state. -/
theorem C3_set_exchange_regenerates_witness :
    (∃ state1 : State ℚ Unit,
      Hamiltonian_Set_Exchange envQ pairs_stateQ 3 coeffQ 0 0 = some state1 ∧
      Hamiltonian_Set_Exchange envQ
        (pairs_stateQ.with_derived
          (.Heisenberg_Pairs (pairsQ.with_exchange [⟨7, 7, (0, 0, 0)⟩] [1]
            ⟨false, false, true, false⟩)))
        3 coeffQ 0 0 = some state1) ∧
    (∃ (state1 state2 : State ℚ Unit) (ham2 : Hamiltonian_Heisenberg_Pairs ℚ),
      Hamiltonian_Set_Exchange envQ pairs_stateQ 3 coeffQ 0 0 = some state1 ∧
      Hamiltonian_Set_Exchange envQ state1 1 coeffQ 0 0 = some state2 ∧
      state2.image.hamiltonian.derived = .Heisenberg_Pairs ham2 ∧
      ham2.exchange_pairs =
        (envQ.Get_Neighbours_in_Shells pairs_stateQ.image.geometry 1).map Neighbour.toPair ∧
      ∃ records : List Neighbour,
        ham2.exchange_pairs = records.map Neighbour.toPair ∧
        ham2.exchange_pairs.length = records.length ∧
        ∀ neigh ∈ records, neigh.idx_shell < 1) := by
  have h := C3_set_exchange_regenerates envQ pairs_stateQ pairsQ rfl
  refine ⟨h.1 [⟨7, 7, (0, 0, 0)⟩] [1] ⟨false, false, true, false⟩ 3 coeffQ 0 0, ?_⟩
  obtain ⟨state1, state2, ham2, h1, h2, -, h4, h5, -, h7⟩ :=
    h.2 3 1 coeffQ coeffQ 0 0 (by decide)
  refine ⟨state1, state2, ham2, h1, h2, h4, h5, h7 ?_⟩
  intro n neigh hmem
  simp only [envQ, List.mem_filter, decide_eq_true_eq] at hmem
  exact hmem.2

/-- Claim C4. In the pair model Hamiltonian_Set_Exchange is idempotent: it returns,
and applying it once more with the same input returns the same state. -/
theorem C4_set_exchange_idempotent (env : Env K L) (state : State K L)
    (ham : Hamiltonian_Heisenberg_Pairs K) (n_shells : Int) (jij : Ptr K)
    (idx_image idx_chain : Int)
    (hP : state.image.hamiltonian.derived = .Heisenberg_Pairs ham) :
    ∃ state1 : State K L,
      Hamiltonian_Set_Exchange env state n_shells jij idx_image idx_chain = some state1 ∧
      Hamiltonian_Set_Exchange env state1 n_shells jij idx_image idx_chain = some state1 := by
  refine ⟨_, Set_Exchange_Pairs_eq env state ham n_shells jij idx_image idx_chain hP, ?_⟩
  rw [Set_Exchange_Pairs_eq env _ _ n_shells jij idx_image idx_chain rfl]
  simp [Hamiltonian_Heisenberg_Pairs.Update_Energy_Contributions]

/-- Claim C4 at the chain lattice: two shells, coefficients `5, 7, 9`. -/
theorem C4_set_exchange_idempotent_witness :
    ∃ state1 : State ℚ Unit,
      Hamiltonian_Set_Exchange envQ pairs_stateQ 2 coeffQ 0 0 = some state1 ∧
      Hamiltonian_Set_Exchange envQ state1 2 coeffQ 0 0 = some state1 :=
  C4_set_exchange_idempotent envQ pairs_stateQ pairsQ 2 coeffQ 0 0 rfl

end Regeneration

section FieldEvaluation

variable {K L : Type} [LinearOrderedField K]

/-- Hamiltonian_Set_Field on either Heisenberg class, when `mu_s` covers the `nos` sites. -/
theorem Set_Field_eq (env : Env K L) (state : State K L) (magnitude : K) (normal : Ptr K)
    (idx_image idx_chain : Int)
    (hH : state.image.hamiltonian.derived.is_Heisenberg)
    (hmu : state.image.nos ≤ state.image.hamiltonian.derived.mu_s.length) :
    Hamiltonian_Set_Field env state magnitude normal idx_image idx_chain =
      some
        { image :=
            { state.image with
              locked := false
              hamiltonian :=
                { state.image.hamiltonian with
                  derived := state.image.hamiltonian.derived.put_external_field
                    ((List.range state.image.nos).map Int.ofNat)
                    ((state.image.hamiltonian.derived.mu_s.take state.image.nos).map
                      (fun mu => magnitude * mu * env.mu_B))
                    (List.replicate state.image.nos
                      ((Vector3.mk (normal 0) (normal 1) (normal 2)).normalize env.sqrt)) } }
          log := Log state.log (.external_field magnitude (normal 0) (normal 1) (normal 2))
            idx_image idx_chain } := by
  cases hd : state.image.hamiltonian.derived with
  | Heisenberg_Neighbours ham =>
    rw [hd] at hmu
    simp only [Hamiltonian_Class.mu_s] at hmu
    simp only [Hamiltonian_Set_Field, Spin_System.Lock, hd, Set_Field_loop_eq _ _ _ _ hmu,
      Spin_System.with_derived, Spin_System.Unlock, Hamiltonian_Class.put_external_field,
      Hamiltonian_Class.mu_s]
    rfl
  | Heisenberg_Pairs ham =>
    rw [hd] at hmu
    simp only [Hamiltonian_Class.mu_s] at hmu
    simp only [Hamiltonian_Set_Field, Spin_System.Lock, hd, Set_Field_loop_eq _ _ _ _ hmu,
      Spin_System.with_derived, Spin_System.Unlock, Hamiltonian_Class.put_external_field,
      Hamiltonian_Class.mu_s]
    rfl
  | Gaussian =>
    rw [hd] at hH
    exact absurd hH (by simp [Hamiltonian_Class.is_Heisenberg])

/-- Hamiltonian_Set_Anisotropy on either Heisenberg class. -/
theorem Set_Anisotropy_eq (env : Env K L) (state : State K L) (magnitude : K) (normal : Ptr K)
    (idx_image idx_chain : Int)
    (hH : state.image.hamiltonian.derived.is_Heisenberg) :
    Hamiltonian_Set_Anisotropy env state magnitude normal idx_image idx_chain =
      some
        { image :=
            { state.image with
              locked := false
              hamiltonian :=
                { state.image.hamiltonian with
                  derived := state.image.hamiltonian.derived.put_anisotropy
                    ((List.range state.image.nos).map Int.ofNat)
                    (List.replicate state.image.nos magnitude)
                    (List.replicate state.image.nos
                      ((Vector3.mk (normal 0) (normal 1) (normal 2)).normalize env.sqrt)) } }
          log := Log state.log (.anisotropy magnitude (normal 0) (normal 1) (normal 2))
            idx_image idx_chain } := by
  cases hd : state.image.hamiltonian.derived with
  | Heisenberg_Neighbours ham =>
    simp only [Hamiltonian_Set_Anisotropy, Spin_System.Lock, hd, Set_Anisotropy_loop_eq,
      Spin_System.with_derived, Spin_System.Unlock, Hamiltonian_Class.put_anisotropy]
    rfl
  | Heisenberg_Pairs ham =>
    simp only [Hamiltonian_Set_Anisotropy, Spin_System.Lock, hd, Set_Anisotropy_loop_eq,
      Spin_System.with_derived, Spin_System.Unlock, Hamiltonian_Class.put_anisotropy]
    rfl
  | Gaussian =>
    rw [hd] at hH
    exact absurd hH (by simp [Hamiltonian_Class.is_Heisenberg])

/-- Hamiltonian_Get_Field on either Heisenberg class. -/
theorem Get_Field_eq (env : Env K L) (state : State K L) (magnitude : K) (normal : Ptr K)
    (idx_image idx_chain : Int)
    (hH : state.image.hamiltonian.derived.is_Heisenberg) :
    Hamiltonian_Get_Field env state magnitude normal idx_image idx_chain =
      Get_Field_branch env.mu_B state.image.hamiltonian.derived.mu_s
        state.image.hamiltonian.derived.external_field_indices
        state.image.hamiltonian.derived.external_field_magnitudes
        state.image.hamiltonian.derived.external_field_normals normal := by
  cases hd : state.image.hamiltonian.derived with
  | Heisenberg_Neighbours ham =>
    simp [Hamiltonian_Get_Field, hd, Hamiltonian_Class.mu_s,
      Hamiltonian_Class.external_field_indices, Hamiltonian_Class.external_field_magnitudes,
      Hamiltonian_Class.external_field_normals]
  | Heisenberg_Pairs ham =>
    simp [Hamiltonian_Get_Field, hd, Hamiltonian_Class.mu_s,
      Hamiltonian_Class.external_field_indices, Hamiltonian_Class.external_field_magnitudes,
      Hamiltonian_Class.external_field_normals]
  | Gaussian =>
    rw [hd] at hH
    exact absurd hH (by simp [Hamiltonian_Class.is_Heisenberg])

/-- Hamiltonian_Get_Anisotropy on either Heisenberg class. -/
theorem Get_Anisotropy_eq (state : State K L) (magnitude : K) (normal : Ptr K)
    (idx_image idx_chain : Int)
    (hH : state.image.hamiltonian.derived.is_Heisenberg) :
    Hamiltonian_Get_Anisotropy state magnitude normal idx_image idx_chain =
      Get_Anisotropy_branch state.image.hamiltonian.derived.anisotropy_indices
        state.image.hamiltonian.derived.anisotropy_magnitudes
        state.image.hamiltonian.derived.anisotropy_normals normal := by
  cases hd : state.image.hamiltonian.derived with
  | Heisenberg_Neighbours ham =>
    simp [Hamiltonian_Get_Anisotropy, hd, Hamiltonian_Class.anisotropy_indices,
      Hamiltonian_Class.anisotropy_magnitudes, Hamiltonian_Class.anisotropy_normals]
  | Heisenberg_Pairs ham =>
    simp [Hamiltonian_Get_Anisotropy, hd, Hamiltonian_Class.anisotropy_indices,
      Hamiltonian_Class.anisotropy_magnitudes, Hamiltonian_Class.anisotropy_normals]
  | Gaussian =>
    rw [hd] at hH
    exact absurd hH (by simp [Hamiltonian_Class.is_Heisenberg])

end FieldEvaluation

section ViewLemmas

variable {K : Type}

theorem put_external_field_views (d : Hamiltonian_Class K) (indices : List Int)
    (magnitudes : List K) (normals : List (Vector3 K)) (hH : d.is_Heisenberg) :
    (d.put_external_field indices magnitudes normals).is_Heisenberg ∧
    (d.put_external_field indices magnitudes normals).mu_s = d.mu_s ∧
    (d.put_external_field indices magnitudes normals).external_field_indices = indices ∧
    (d.put_external_field indices magnitudes normals).external_field_magnitudes = magnitudes ∧
    (d.put_external_field indices magnitudes normals).external_field_normals = normals := by
  cases d with
  | Heisenberg_Neighbours ham => exact ⟨trivial, rfl, rfl, rfl, rfl⟩
  | Heisenberg_Pairs ham => exact ⟨trivial, rfl, rfl, rfl, rfl⟩
  | Gaussian => exact absurd hH (by simp [Hamiltonian_Class.is_Heisenberg])

theorem put_anisotropy_views (d : Hamiltonian_Class K) (indices : List Int)
    (magnitudes : List K) (normals : List (Vector3 K)) (hH : d.is_Heisenberg) :
    (d.put_anisotropy indices magnitudes normals).is_Heisenberg ∧
    (d.put_anisotropy indices magnitudes normals).mu_s = d.mu_s ∧
    (d.put_anisotropy indices magnitudes normals).anisotropy_indices = indices ∧
    (d.put_anisotropy indices magnitudes normals).anisotropy_magnitudes = magnitudes ∧
    (d.put_anisotropy indices magnitudes normals).anisotropy_normals = normals := by
  cases d with
  | Heisenberg_Neighbours ham => exact ⟨trivial, rfl, rfl, rfl, rfl⟩
  | Heisenberg_Pairs ham => exact ⟨trivial, rfl, rfl, rfl, rfl⟩
  | Gaussian => exact absurd hH (by simp [Hamiltonian_Class.is_Heisenberg])

theorem put_external_field_updated (d : Hamiltonian_Class K) (indices : List Int)
    (magnitudes : List K) (normals : List (Vector3 K)) :
    (d.put_external_field indices magnitudes normals).Update_Energy_Contributions =
      d.put_external_field indices magnitudes normals := by
  cases d <;> rfl

theorem put_anisotropy_updated (d : Hamiltonian_Class K) (indices : List Int)
    (magnitudes : List K) (normals : List (Vector3 K)) :
    (d.put_anisotropy indices magnitudes normals).Update_Energy_Contributions =
      d.put_anisotropy indices magnitudes normals := by
  cases d <;> rfl

theorem write3_apply (p : Ptr K) (a b c : K) :
    Ptr.write3 p ⟨a, b, c⟩ 0 = a ∧ Ptr.write3 p ⟨a, b, c⟩ 1 = b ∧
      Ptr.write3 p ⟨a, b, c⟩ 2 = c := by
  simp [Ptr.write3, Ptr.write]

end ViewLemmas

section RoundTrip

variable {K L : Type} [LinearOrderedField K]

theorem squaredNorm_pos (v : Ptr K) (hv : v 0 ≠ 0 ∨ v 1 ≠ 0 ∨ v 2 ≠ 0) :
    0 < (Vector3.mk (v 0) (v 1) (v 2)).squaredNorm := by
  simp only [Vector3.squaredNorm]
  rcases hv with h | h | h
  · have := mul_self_pos.mpr h
    nlinarith [mul_self_nonneg (v 1), mul_self_nonneg (v 2)]
  · have := mul_self_pos.mpr h
    nlinarith [mul_self_nonneg (v 0), mul_self_nonneg (v 2)]
  · have := mul_self_pos.mpr h
    nlinarith [mul_self_nonneg (v 0), mul_self_nonneg (v 1)]

theorem normalize_of_ne_zero (sqrt : K → K) (v : Ptr K)
    (hv : v 0 ≠ 0 ∨ v 1 ≠ 0 ∨ v 2 ≠ 0) :
    (Vector3.mk (v 0) (v 1) (v 2)).normalize sqrt =
      ⟨v 0 / sqrt (v 0 * v 0 + v 1 * v 1 + v 2 * v 2),
       v 1 / sqrt (v 0 * v 0 + v 1 * v 1 + v 2 * v 2),
       v 2 / sqrt (v 0 * v 0 + v 1 * v 1 + v 2 * v 2)⟩ := by
  have h := squaredNorm_pos v hv
  simp only [Vector3.normalize, h, if_true]
  rfl

end RoundTrip

section RoundTripField

variable {K L : Type} [LinearOrderedField K]

theorem Get_Field_branch_nil (mu_B : K) (mu_s : List K) (magnitudes : List K)
    (normals : List (Vector3 K)) (normal : Ptr K) :
    Get_Field_branch mu_B mu_s [] magnitudes normals normal =
      some (0, normal.write3 ⟨0, 0, 1⟩) := by
  simp [Get_Field_branch]

theorem Get_Field_branch_cons (mu_B mu0 a : K) (i0 : Int) (is : List Int) (as bs : List K)
    (n0 : Vector3 K) (ns : List (Vector3 K)) (normal : Ptr K) (h0 : mu0 ≠ 0) (hB : mu_B ≠ 0) :
    Get_Field_branch mu_B (mu0 :: bs) (i0 :: is) (a :: as) (n0 :: ns) normal =
      some (a / mu0 / mu_B, normal.write3 n0) := by
  simp [Get_Field_branch, vec_get, fdiv, h0, hB]

theorem Get_Anisotropy_branch_nil (magnitudes : List K) (normals : List (Vector3 K))
    (normal : Ptr K) :
    Get_Anisotropy_branch [] magnitudes normals normal = some (0, normal.write3 ⟨0, 0, 1⟩) := by
  simp [Get_Anisotropy_branch]

theorem Get_Anisotropy_branch_cons (a : K) (i0 : Int) (is : List Int) (as : List K)
    (n0 : Vector3 K) (ns : List (Vector3 K)) (normal : Ptr K) :
    Get_Anisotropy_branch (i0 :: is) (a :: as) (n0 :: ns) normal =
      some (a, normal.write3 n0) := by
  simp [Get_Anisotropy_branch, vec_get]

/-- Hamiltonian_Set_Field seen through the views: what each member holds afterwards. -/
theorem Set_Field_spec (env : Env K L) (state : State K L) (m : K) (v : Ptr K)
    (idx_image idx_chain : Int)
    (hH : state.image.hamiltonian.derived.is_Heisenberg)
    (hmu : state.image.nos ≤ state.image.hamiltonian.derived.mu_s.length) :
    ∃ state1 : State K L,
      Hamiltonian_Set_Field env state m v idx_image idx_chain = some state1 ∧
      state1.image.hamiltonian.derived.is_Heisenberg ∧
      state1.image.hamiltonian.derived.mu_s = state.image.hamiltonian.derived.mu_s ∧
      state1.image.hamiltonian.derived.external_field_indices =
        (List.range state.image.nos).map Int.ofNat ∧
      state1.image.hamiltonian.derived.external_field_magnitudes =
        (state.image.hamiltonian.derived.mu_s.take state.image.nos).map
          (fun mu => m * mu * env.mu_B) ∧
      state1.image.hamiltonian.derived.external_field_normals =
        List.replicate state.image.nos
          ((Vector3.mk (v 0) (v 1) (v 2)).normalize env.sqrt) :=
  ⟨_, Set_Field_eq env state m v idx_image idx_chain hH hmu,
    put_external_field_views state.image.hamiltonian.derived _ _ _ hH⟩

/-- Hamiltonian_Set_Anisotropy seen through the views: what each member holds afterwards. -/
theorem Set_Anisotropy_spec (env : Env K L) (state : State K L) (m : K) (v : Ptr K)
    (idx_image idx_chain : Int)
    (hH : state.image.hamiltonian.derived.is_Heisenberg) :
    ∃ state1 : State K L,
      Hamiltonian_Set_Anisotropy env state m v idx_image idx_chain = some state1 ∧
      state1.image.hamiltonian.derived.is_Heisenberg ∧
      state1.image.hamiltonian.derived.mu_s = state.image.hamiltonian.derived.mu_s ∧
      state1.image.hamiltonian.derived.anisotropy_indices =
        (List.range state.image.nos).map Int.ofNat ∧
      state1.image.hamiltonian.derived.anisotropy_magnitudes =
        List.replicate state.image.nos m ∧
      state1.image.hamiltonian.derived.anisotropy_normals =
        List.replicate state.image.nos
          ((Vector3.mk (v 0) (v 1) (v 2)).normalize env.sqrt) :=
  ⟨_, Set_Anisotropy_eq env state m v idx_image idx_chain hH,
    put_anisotropy_views state.image.hamiltonian.derived _ _ _ hH⟩

/-- Claim C5, amended. For a state in either Heisenberg class with at least one site,
`mu_s` holding an entry for each site, `mu_s[0]` nonzero and `mu_B` nonzero, every
magnitude `m` and every nonzero vector `v`: Hamiltonian_Set_Field with `(m, v)`
followed by Hamiltonian_Get_Field returns the magnitude `m` and the normal `v / |v|`. -/
theorem C5_field_round_trip (env : Env K L) (state : State K L) (m : K) (v : Ptr K)
    (hH : state.image.hamiltonian.derived.is_Heisenberg)
    (hnos : 0 < state.image.nos)
    (hmu : state.image.nos ≤ state.image.hamiltonian.derived.mu_s.length)
    (hmu0 : state.image.hamiltonian.derived.mu_s[0]? ≠ some 0)
    (hB : env.mu_B ≠ 0)
    (hv : v 0 ≠ 0 ∨ v 1 ≠ 0 ∨ v 2 ≠ 0) :
    Field_round_trip env state m v := by
  intro magnitude normal idx_image idx_chain
  obtain ⟨state1, hs, hH1, hmu1, hidx, hmag, hnor⟩ :=
    Set_Field_spec env state m v idx_image idx_chain hH hmu
  obtain ⟨n, hn⟩ : ∃ n, state.image.nos = n + 1 := ⟨state.image.nos - 1, by omega⟩
  cases hl : state.image.hamiltonian.derived.mu_s with
  | nil => rw [hl, hn] at hmu; simp at hmu
  | cons mu0 rest =>
    have h0 : mu0 ≠ 0 := by
      intro h
      apply hmu0
      rw [hl, h]
      simp
    have hget := Get_Field_eq env state1 magnitude normal idx_image idx_chain hH1
    rw [hmu1, hidx, hmag, hnor, hl, hn, List.range_succ_eq_map, List.take_succ_cons,
      List.replicate_succ, List.map_cons, List.map_cons,
      Get_Field_branch_cons _ _ _ _ _ _ _ _ _ _ h0 hB, normalize_of_ne_zero _ _ hv] at hget
    refine ⟨state1, _, hs, hget, ?_, ?_, ?_, ?_⟩
    · show m * mu0 * env.mu_B / mu0 / env.mu_B = m
      field_simp
      ring
    · simp [Ptr.write3, Ptr.write]
    · simp [Ptr.write3, Ptr.write]
    · simp [Ptr.write3, Ptr.write]

/-- Claim C5 as stated fails: on an image without sites the getter reports the
magnitude `0`, and on an image whose moments are zero the division by `mu_s[0]` has
no value; in both cases the field `(1, (3, 4, 0))` is not read back. -/
theorem C5_field_round_trip_counterexample :
    ¬ Field_round_trip envQ empty_stateQ 1 dirQ ∧
    ¬ Field_round_trip envQ zero_moment_stateQ 1 dirQ := by
  constructor
  · intro h
    obtain ⟨state1, out, h1, h2, h3, -⟩ := h 0 dirQ 0 0
    obtain ⟨state2, hs, hH1, hmu1, hidx, hmag, hnor⟩ :=
      Set_Field_spec envQ empty_stateQ 1 dirQ 0 0 trivial (by decide)
    rw [hs] at h1
    cases h1
    rw [Get_Field_eq envQ _ 0 dirQ 0 0 hH1, hidx] at h2
    simp [empty_stateQ, Get_Field_branch] at h2
    rw [← h2] at h3
    simp at h3
  · intro h
    obtain ⟨state1, out, h1, h2, -⟩ := h 0 dirQ 0 0
    obtain ⟨state2, hs, hH1, hmu1, hidx, hmag, hnor⟩ :=
      Set_Field_spec envQ zero_moment_stateQ 1 dirQ 0 0 trivial (by decide)
    rw [hs] at h1
    cases h1
    rw [Get_Field_eq envQ _ 0 dirQ 0 0 hH1, hidx, hmag, hmu1] at h2
    simp [zero_moment_stateQ, stateQ, Get_Field_branch, Hamiltonian_Class.mu_s, vec_get, fdiv,
      List.range_succ] at h2

/-- Claim C5, amended, at the two-spin pair-model state with the field `(1, (3, 4, 0))`. -/
theorem C5_field_round_trip_witness : Field_round_trip envQ pairs_stateQ 1 dirQ :=
  C5_field_round_trip envQ pairs_stateQ 1 dirQ trivial (by decide) (by decide)
    (by simp [pairs_stateQ, stateQ, Hamiltonian_Class.mu_s, pairsQ])
    (by simp [envQ]) (by simp [dirQ])

end RoundTripField

section FieldContents

variable {K L : Type} [LinearOrderedField K]

/-- Claim C6. For a state in either Heisenberg class with `nos` sites (and `mu_s`
holding an entry for each of them), every magnitude `m` and every vector `n`:
Hamiltonian_Set_Field returns, and afterwards `external_field_indices` is exactly
`[0, ..., nos-1]`, `external_field_magnitudes[i] = m * mu_s[i] * mu_B` for every site
`i < nos` with the `mu_s` held at the call, `external_field_normals[i]` is the
normalized `n` for every `i < nos`, the three arrays have length `nos`, and the
energy contributions are the recompute of the resulting object. -/
theorem C6_set_field_contents (env : Env K L) (state : State K L) (m : K) (n : Ptr K)
    (idx_image idx_chain : Int)
    (hH : state.image.hamiltonian.derived.is_Heisenberg)
    (hmu : state.image.nos ≤ state.image.hamiltonian.derived.mu_s.length) :
    ∃ state1 : State K L,
      Hamiltonian_Set_Field env state m n idx_image idx_chain = some state1 ∧
      state1.image.hamiltonian.derived.external_field_indices =
        (List.range state.image.nos).map Int.ofNat ∧
      state1.image.hamiltonian.derived.external_field_magnitudes.length = state.image.nos ∧
      state1.image.hamiltonian.derived.external_field_normals.length = state.image.nos ∧
      (∀ i : Nat, i < state.image.nos →
        ∃ mu : K,
          state.image.hamiltonian.derived.mu_s[i]? = some mu ∧
          state1.image.hamiltonian.derived.external_field_magnitudes[i]? =
            some (m * mu * env.mu_B) ∧
          state1.image.hamiltonian.derived.external_field_normals[i]? =
            some ((Vector3.mk (n 0) (n 1) (n 2)).normalize env.sqrt)) ∧
      state1.image.hamiltonian.derived.Update_Energy_Contributions =
        state1.image.hamiltonian.derived := by
  obtain ⟨state1, hs, -, -, hidx, hmag, hnor⟩ :=
    Set_Field_spec env state m n idx_image idx_chain hH hmu
  have hupd : state1.image.hamiltonian.derived.Update_Energy_Contributions =
      state1.image.hamiltonian.derived := by
    rw [Set_Field_eq env state m n idx_image idx_chain hH hmu] at hs
    cases hs
    exact put_external_field_updated _ _ _ _
  refine ⟨state1, hs, hidx, ?_, ?_, ?_, hupd⟩
  · rw [hmag]
    simp
    exact hmu
  · rw [hnor]
    simp
  · intro i hi
    have hlt : i < state.image.hamiltonian.derived.mu_s.length := by omega
    refine ⟨state.image.hamiltonian.derived.mu_s[i], by simp [hlt], ?_, ?_⟩
    · rw [hmag]
      simp [List.getElem?_map, List.getElem?_take, hi, hlt]
    · rw [hnor]
      simp [List.getElem?_replicate, hi]

/-- Claim C6 at the two-spin shell-model state with the field `(1, (3, 4, 0))`. -/
theorem C6_set_field_contents_witness :
    ∃ state1 : State ℚ Unit,
      Hamiltonian_Set_Field envQ neighbours_stateQ 1 dirQ 0 0 = some state1 ∧
      state1.image.hamiltonian.derived.external_field_indices =
        (List.range neighbours_stateQ.image.nos).map Int.ofNat ∧
      state1.image.hamiltonian.derived.external_field_magnitudes.length =
        neighbours_stateQ.image.nos ∧
      state1.image.hamiltonian.derived.external_field_normals.length =
        neighbours_stateQ.image.nos ∧
      (∀ i : Nat, i < neighbours_stateQ.image.nos →
        ∃ mu : ℚ,
          neighbours_stateQ.image.hamiltonian.derived.mu_s[i]? = some mu ∧
          state1.image.hamiltonian.derived.external_field_magnitudes[i]? =
            some (1 * mu * envQ.mu_B) ∧
          state1.image.hamiltonian.derived.external_field_normals[i]? =
            some ((Vector3.mk (dirQ 0) (dirQ 1) (dirQ 2)).normalize envQ.sqrt)) ∧
      state1.image.hamiltonian.derived.Update_Energy_Contributions =
        state1.image.hamiltonian.derived :=
  C6_set_field_contents envQ neighbours_stateQ 1 dirQ 0 0 trivial (by decide)

end FieldContents

section RoundTripAnisotropy

variable {K L : Type} [LinearOrderedField K]

/-- Claim C7, amended. For a state in either Heisenberg class with at least one site,
every magnitude `m` and every nonzero vector `v`: Hamiltonian_Set_Anisotropy with
`(m, v)` stores `m` itself for every site, and Hamiltonian_Get_Anisotropy afterwards
returns the magnitude `m` and the normal `v / |v|`; neither side scales by `mu_s`
or `mu_B`. -/
theorem C7_anisotropy_round_trip (env : Env K L) (state : State K L) (m : K) (v : Ptr K)
    (hH : state.image.hamiltonian.derived.is_Heisenberg)
    (hnos : 0 < state.image.nos)
    (hv : v 0 ≠ 0 ∨ v 1 ≠ 0 ∨ v 2 ≠ 0) :
    Anisotropy_round_trip env state m v := by
  intro magnitude normal idx_image idx_chain
  obtain ⟨state1, hs, hH1, -, hidx, hmag, hnor⟩ :=
    Set_Anisotropy_spec env state m v idx_image idx_chain hH
  obtain ⟨n, hn⟩ : ∃ n, state.image.nos = n + 1 := ⟨state.image.nos - 1, by omega⟩
  have hget := Get_Anisotropy_eq state1 magnitude normal idx_image idx_chain hH1
  rw [hidx, hmag, hnor, hn, List.range_succ_eq_map, List.replicate_succ, List.replicate_succ,
    List.map_cons, Get_Anisotropy_branch_cons, normalize_of_ne_zero _ _ hv] at hget
  refine ⟨state1, _, hs, hmag, hget, rfl, ?_, ?_, ?_⟩
  · simp [Ptr.write3, Ptr.write]
  · simp [Ptr.write3, Ptr.write]
  · simp [Ptr.write3, Ptr.write]

/-- Claim C7 as stated fails on an image without sites: the arrays written by the
setter are empty and the getter reports the magnitude `0`, not `1`. -/
theorem C7_anisotropy_round_trip_counterexample :
    ¬ Anisotropy_round_trip envQ empty_stateQ 1 dirQ := by
  intro h
  obtain ⟨state1, out, h1, -, h2, h3, -⟩ := h 0 dirQ 0 0
  obtain ⟨state2, hs, hH1, -, hidx, -, -⟩ :=
    Set_Anisotropy_spec envQ empty_stateQ 1 dirQ 0 0 trivial
  rw [hs] at h1
  cases h1
  rw [Get_Anisotropy_eq _ 0 dirQ 0 0 hH1, hidx] at h2
  simp [empty_stateQ, Get_Anisotropy_branch] at h2
  rw [← h2] at h3
  simp at h3

/-- Claim C7, amended, at the two-spin shell-model state with `(1, (3, 4, 0))`. -/
theorem C7_anisotropy_round_trip_witness :
    Anisotropy_round_trip envQ neighbours_stateQ 1 dirQ :=
  C7_anisotropy_round_trip envQ neighbours_stateQ 1 dirQ trivial (by decide) (by simp [dirQ])

end RoundTripAnisotropy

section MomentViews

variable {K L : Type}

/-- Hamiltonian_Get_mu_s on either Heisenberg class. -/
theorem Get_mu_s_eq (state : State K L) (mu_s : Ptr K) (idx_image idx_chain : Int)
    (hH : state.image.hamiltonian.derived.is_Heisenberg) :
    Hamiltonian_Get_mu_s state mu_s idx_image idx_chain =
      Get_mu_s_loop state.image.hamiltonian.derived.mu_s
        state.image.geometry.n_spins_basic_domain mu_s := by
  cases hd : state.image.hamiltonian.derived with
  | Heisenberg_Neighbours ham => simp [Hamiltonian_Get_mu_s, hd, Hamiltonian_Class.mu_s]
  | Heisenberg_Pairs ham => simp [Hamiltonian_Get_mu_s, hd, Hamiltonian_Class.mu_s]
  | Gaussian =>
    rw [hd] at hH
    exact absurd hH (by simp [Hamiltonian_Class.is_Heisenberg])

theorem put_mu_s_views (d : Hamiltonian_Class K) (mu_s : List K) (hH : d.is_Heisenberg) :
    (d.put_mu_s mu_s).is_Heisenberg ∧ (d.put_mu_s mu_s).mu_s = mu_s := by
  cases d with
  | Heisenberg_Neighbours ham => exact ⟨trivial, rfl⟩
  | Heisenberg_Pairs ham => exact ⟨trivial, rfl⟩
  | Gaussian => exact absurd hH (by simp [Hamiltonian_Class.is_Heisenberg])

/-- Hamiltonian_Set_mu_s in closed form, on every class. -/
theorem Set_mu_s_eq (state : State K L) (mu : K) (idx_image idx_chain : Int) :
    Hamiltonian_Set_mu_s state mu idx_image idx_chain =
      some
        { image :=
            { state.image with
              locked := false
              hamiltonian :=
                { state.image.hamiltonian with
                  derived := state.image.hamiltonian.derived.put_mu_s
                    (state.image.hamiltonian.derived.mu_s.map (fun _ => mu)) } }
          log := Log state.log (.mu_s mu) idx_image idx_chain } := by
  rcases state with ⟨⟨nos, geometry, ⟨bc, d⟩, locked⟩, log⟩
  cases d <;> rfl

theorem put_mu_s_field_views (d : Hamiltonian_Class K) (mu_s : List K) :
    (d.put_mu_s mu_s).external_field_indices = d.external_field_indices ∧
    (d.put_mu_s mu_s).external_field_magnitudes = d.external_field_magnitudes ∧
    (d.put_mu_s mu_s).external_field_normals = d.external_field_normals := by
  cases d <;> exact ⟨rfl, rfl, rfl⟩

/-- Hamiltonian_Set_mu_s seen through the views: the moments are overwritten, the
stored external field is as before. -/
theorem Set_mu_s_spec (state : State K L) (mu : K) (idx_image idx_chain : Int)
    (hH : state.image.hamiltonian.derived.is_Heisenberg) :
    ∃ state1 : State K L,
      Hamiltonian_Set_mu_s state mu idx_image idx_chain = some state1 ∧
      state1.image.hamiltonian.derived.is_Heisenberg ∧
      state1.image.hamiltonian.derived.mu_s =
        state.image.hamiltonian.derived.mu_s.map (fun _ => mu) ∧
      state1.image.hamiltonian.derived.external_field_indices =
        state.image.hamiltonian.derived.external_field_indices ∧
      state1.image.hamiltonian.derived.external_field_magnitudes =
        state.image.hamiltonian.derived.external_field_magnitudes ∧
      state1.image.hamiltonian.derived.external_field_normals =
        state.image.hamiltonian.derived.external_field_normals :=
  ⟨_, Set_mu_s_eq state mu idx_image idx_chain,
    (put_mu_s_views state.image.hamiltonian.derived _ hH).1,
    (put_mu_s_views state.image.hamiltonian.derived _ hH).2,
    put_mu_s_field_views state.image.hamiltonian.derived _⟩

end MomentViews

section Moment

variable {K L : Type}

/-- Claim C8. For a state in either Heisenberg class (with `mu_s` covering the basic
domain) and every value `mu`: Hamiltonian_Set_mu_s returns, afterwards `mu_s` has
its former length and every entry equals `mu`, and Hamiltonian_Get_mu_s then
returns and writes `mu` to output position `i` for every `i < n_spins_basic_domain`,
leaving the other positions of the buffer as they were. -/
theorem C8_mu_s_broadcast (state : State K L) (mu : K) (out : Ptr K)
    (idx_image idx_chain : Int)
    (hH : state.image.hamiltonian.derived.is_Heisenberg)
    (hbd : state.image.geometry.n_spins_basic_domain ≤
      state.image.hamiltonian.derived.mu_s.length) :
    ∃ (state1 : State K L) (out1 : Ptr K),
      Hamiltonian_Set_mu_s state mu idx_image idx_chain = some state1 ∧
      state1.image.hamiltonian.derived.mu_s.length =
        state.image.hamiltonian.derived.mu_s.length ∧
      (∀ x ∈ state1.image.hamiltonian.derived.mu_s, x = mu) ∧
      Hamiltonian_Get_mu_s state1 out idx_image idx_chain = some out1 ∧
      (∀ i : Nat, i < state.image.geometry.n_spins_basic_domain → out1 (i : Int) = mu) ∧
      (∀ j : Int, (j < 0 ∨ (state.image.geometry.n_spins_basic_domain : Int) ≤ j) →
        out1 j = out j) := by
  obtain ⟨hH1, hmu1⟩ := put_mu_s_views state.image.hamiltonian.derived
    (state.image.hamiltonian.derived.mu_s.map (fun _ => mu)) hH
  have hlen : state.image.geometry.n_spins_basic_domain ≤
      (state.image.hamiltonian.derived.mu_s.map (fun _ => mu)).length := by
    simpa using hbd
  obtain ⟨res, hres, hin, hout⟩ :=
    get_loop_spec (state.image.hamiltonian.derived.mu_s.map (fun _ => mu))
      state.image.geometry.n_spins_basic_domain out hlen
  refine ⟨_, res, Set_mu_s_eq state mu idx_image idx_chain, ?_, ?_, ?_, ?_, hout⟩
  · show (Hamiltonian_Class.mu_s (Hamiltonian_Class.put_mu_s _ _)).length = _
    rw [hmu1]
    simp
  · show ∀ x ∈ Hamiltonian_Class.mu_s (Hamiltonian_Class.put_mu_s _ _), x = mu
    rw [hmu1]
    intro x hx
    rw [List.map_const'] at hx
    exact List.eq_of_mem_replicate hx
  · rw [Get_mu_s_eq _ out idx_image idx_chain hH1]
    show Get_mu_s_loop (Hamiltonian_Class.mu_s (Hamiltonian_Class.put_mu_s _ _)) _ out = _
    rw [hmu1]
    exact hres
  · intro i hi
    have h := hin i hi
    have hlt : i < state.image.hamiltonian.derived.mu_s.length := by omega
    simp [List.getElem?_map, hlt] at h
    exact h.symm

/-- Claim C8 at the two-spin pair-model state: `Set_mu_s(5/2)` then `Get_mu_s`. -/
theorem C8_mu_s_broadcast_witness :
    ∃ (state1 : State ℚ Unit) (out1 : Ptr ℚ),
      Hamiltonian_Set_mu_s pairs_stateQ (5 / 2) 0 0 = some state1 ∧
      state1.image.hamiltonian.derived.mu_s.length =
        pairs_stateQ.image.hamiltonian.derived.mu_s.length ∧
      (∀ x ∈ state1.image.hamiltonian.derived.mu_s, x = 5 / 2) ∧
      Hamiltonian_Get_mu_s state1 coeffQ 0 0 = some out1 ∧
      (∀ i : Nat, i < pairs_stateQ.image.geometry.n_spins_basic_domain →
        out1 (i : Int) = 5 / 2) ∧
      (∀ j : Int, (j < 0 ∨ (pairs_stateQ.image.geometry.n_spins_basic_domain : Int) ≤ j) →
        out1 j = coeffQ j) :=
  C8_mu_s_broadcast pairs_stateQ (5 / 2) coeffQ 0 0 trivial (by decide)

end Moment

section ShellModel

variable {K L : Type} [LinearOrderedField K]

/-- Shell-model branch of Hamiltonian_Set_Exchange when the first `n_shells` entries exist. -/
theorem Set_Exchange_Neighbours_eq (env : Env K L) (state : State K L)
    (ham : Hamiltonian_Heisenberg_Neighbours K) (n_shells : Int) (jij : Ptr K)
    (idx_image idx_chain : Int)
    (hN : state.image.hamiltonian.derived = .Heisenberg_Neighbours ham)
    (hn : n_shells.toNat ≤ ham.exchange_magnitudes.length) :
    Hamiltonian_Set_Exchange env state n_shells jij idx_image idx_chain =
      some
        { image :=
            { state.image with
              locked := false
              hamiltonian :=
                { state.image.hamiltonian with
                  derived := .Heisenberg_Neighbours
                    ({ ham with
                        exchange_magnitudes :=
                          (List.range n_shells.toNat).map (fun (i : Nat) => jij (i : Int)) ++
                            ham.exchange_magnitudes.drop n_shells.toNat
                      } : Hamiltonian_Heisenberg_Neighbours K).Update_Energy_Contributions } }
          log := state.log } := by
  simp only [Hamiltonian_Set_Exchange, Spin_System.Lock, hN, shell_copy_loop_eq jij _ _ hn,
    Spin_System.with_derived, Spin_System.Unlock]
  rfl

/-- Shell-model branch of Hamiltonian_Set_DMI when the first `n_shells` entries exist. -/
theorem Set_DMI_Neighbours_eq (env : Env K L) (state : State K L)
    (ham : Hamiltonian_Heisenberg_Neighbours K) (n_shells : Int) (dij : Ptr K)
    (idx_image idx_chain : Int)
    (hN : state.image.hamiltonian.derived = .Heisenberg_Neighbours ham)
    (hn : n_shells.toNat ≤ ham.dmi_magnitudes.length) :
    Hamiltonian_Set_DMI env state n_shells dij idx_image idx_chain =
      some
        { image :=
            { state.image with
              locked := false
              hamiltonian :=
                { state.image.hamiltonian with
                  derived := .Heisenberg_Neighbours
                    ({ ham with
                        dmi_magnitudes :=
                          (List.range n_shells.toNat).map (fun (i : Nat) => dij (i : Int)) ++
                            ham.dmi_magnitudes.drop n_shells.toNat
                      } : Hamiltonian_Heisenberg_Neighbours K).Update_Energy_Contributions } }
          log := state.log } := by
  simp only [Hamiltonian_Set_DMI, Spin_System.Lock, hN, shell_copy_loop_eq dij _ _ hn,
    Spin_System.with_derived, Spin_System.Unlock]
  rfl

/-- Claim C9, amended. In the shell model, for every `n_shells` not larger than the
number of stored exchange shells and every coefficient buffer:
Hamiltonian_Set_Exchange returns, afterwards `exchange[i] = jij[i]` for every
`i < n_shells`, and Hamiltonian_Get_Exchange then writes `jij[i]` to output position
`i` for every `i < n_shells`; and, on its own bound, the same for Hamiltonian_Set_DMI
and Hamiltonian_Get_DMI for every `n_shells` not larger than the number of stored
DMI shells. -/
theorem C9_shell_copy (env : Env K L) (state : State K L)
    (ham : Hamiltonian_Heisenberg_Neighbours K) (n_shells : Int) (jij dij : Ptr K)
    (hN : state.image.hamiltonian.derived = .Heisenberg_Neighbours ham) :
    (n_shells ≤ (ham.exchange_magnitudes.length : Int) →
      Exchange_copy env state n_shells jij) ∧
    (n_shells ≤ (ham.dmi_magnitudes.length : Int) →
      DMI_copy env state n_shells dij) := by
  constructor
  · intro hE n0 out idx_image idx_chain
    have hE1 : n_shells.toNat ≤ ham.exchange_magnitudes.length := by omega
    obtain ⟨res, hres, hin⟩ := get_after_copy jij ham.exchange_magnitudes n_shells.toNat hE1 out
    refine ⟨_, _,
      ((((List.range n_shells.toNat).map (fun (i : Nat) => jij (i : Int)) ++
          ham.exchange_magnitudes.drop n_shells.toNat).length : Int), res),
      Set_Exchange_Neighbours_eq env state ham n_shells jij idx_image idx_chain hN hE1, rfl,
      ?_, ?_, ?_⟩
    · intro i hi
      exact copied_getElem? jij _ _ i (by omega)
    · simp only [Hamiltonian_Get_Exchange,
        Hamiltonian_Heisenberg_Neighbours.Update_Energy_Contributions]
      rw [hres]
      rfl
    · intro i hi
      exact hin i (by omega)
  · intro hD n0 out idx_image idx_chain
    have hD1 : n_shells.toNat ≤ ham.dmi_magnitudes.length := by omega
    obtain ⟨res, hres, hin⟩ := get_after_copy dij ham.dmi_magnitudes n_shells.toNat hD1 out
    refine ⟨_, _,
      ((((List.range n_shells.toNat).map (fun (i : Nat) => dij (i : Int)) ++
          ham.dmi_magnitudes.drop n_shells.toNat).length : Int), res),
      Set_DMI_Neighbours_eq env state ham n_shells dij idx_image idx_chain hN hD1, rfl,
      ?_, ?_, ?_⟩
    · intro i hi
      exact copied_getElem? dij _ _ i (by omega)
    · simp only [Hamiltonian_Get_DMI,
        Hamiltonian_Heisenberg_Neighbours.Update_Energy_Contributions]
      rw [hres]
      rfl
    · intro i hi
      exact hin i (by omega)

/-- Claim C9 as stated fails when more shells are passed than are stored: with three
stored shells and `n_shells = 4` the loop indexes entry 3 of a three-element array,
so neither setter returns a state. -/
theorem C9_shell_copy_counterexample :
    ¬ Exchange_copy envQ neighbours_stateQ 4 coeffQ ∧
    ¬ DMI_copy envQ neighbours_stateQ 4 coeffQ := by
  constructor
  · intro h
    obtain ⟨state1, ham1, res, h1, -⟩ := h 0 coeffQ 0 0
    simp [Hamiltonian_Set_Exchange, neighbours_stateQ, stateQ, neighboursQ, Spin_System.Lock,
      for_loop, vec_set] at h1
  · intro h
    obtain ⟨state1, ham1, res, h1, -⟩ := h 0 coeffQ 0 0
    simp [Hamiltonian_Set_DMI, neighbours_stateQ, stateQ, neighboursQ, Spin_System.Lock,
      for_loop, vec_set] at h1

/-- Claim C9, amended, at two shell-model states: with three exchange shells and one
DMI shell stored, three exchange coefficients are copied; with three DMI shells
stored, two DMI coefficients are copied. -/
theorem C9_shell_copy_witness :
    Exchange_copy envQ uneven_stateQ 3 coeffQ ∧ DMI_copy envQ neighbours_stateQ 2 coeffQ :=
  ⟨(C9_shell_copy envQ uneven_stateQ { neighboursQ with dmi_magnitudes := [1] } 3 coeffQ coeffQ
      rfl).1 (by decide),
   (C9_shell_copy envQ neighbours_stateQ neighboursQ 2 coeffQ coeffQ rfl).2 (by decide)⟩

end ShellModel

section FirstEntry

variable {K L : Type} [LinearOrderedField K]

/-- Claim C10. For a state in either Heisenberg class: with an empty external-field
index list Hamiltonian_Get_Field returns the magnitude `0` and the normal `(0,0,1)`;
otherwise it returns `external_field_magnitudes[0] / mu_s[0] / mu_B` (the divisors
being nonzero) and `external_field_normals[0]`, whatever the entries of index `1` and
above are, and two states that agree on the entries of index `0` get the same
answer. Hamiltonian_Get_Anisotropy does the same with `anisotropy_magnitudes[0]`
unscaled. -/
theorem C10_getters_first_entry (env : Env K L) (state : State K L) (magnitude : K)
    (normal : Ptr K) (idx_image idx_chain : Int)
    (hH : state.image.hamiltonian.derived.is_Heisenberg) :
    (state.image.hamiltonian.derived.external_field_indices = [] →
      Hamiltonian_Get_Field env state magnitude normal idx_image idx_chain =
        some (0, normal.write3 ⟨0, 0, 1⟩)) ∧
    (∀ (i0 : Int) (is : List Int) (a b : K) (as bs : List K) (n0 : Vector3 K)
        (ns : List (Vector3 K)),
      state.image.hamiltonian.derived.external_field_indices = i0 :: is →
      state.image.hamiltonian.derived.external_field_magnitudes = a :: as →
      state.image.hamiltonian.derived.mu_s = b :: bs →
      state.image.hamiltonian.derived.external_field_normals = n0 :: ns →
      b ≠ 0 → env.mu_B ≠ 0 →
      Hamiltonian_Get_Field env state magnitude normal idx_image idx_chain =
        some (a / b / env.mu_B, ((normal.write 0 n0.x).write 1 n0.y).write 2 n0.z)) ∧
    (∀ state2 : State K L,
      state2.image.hamiltonian.derived.is_Heisenberg →
      state.image.hamiltonian.derived.external_field_indices ≠ [] →
      state2.image.hamiltonian.derived.external_field_indices ≠ [] →
      state2.image.hamiltonian.derived.external_field_magnitudes[0]? =
        state.image.hamiltonian.derived.external_field_magnitudes[0]? →
      state2.image.hamiltonian.derived.mu_s[0]? = state.image.hamiltonian.derived.mu_s[0]? →
      state2.image.hamiltonian.derived.external_field_normals[0]? =
        state.image.hamiltonian.derived.external_field_normals[0]? →
      Hamiltonian_Get_Field env state2 magnitude normal idx_image idx_chain =
        Hamiltonian_Get_Field env state magnitude normal idx_image idx_chain) ∧
    (state.image.hamiltonian.derived.anisotropy_indices = [] →
      Hamiltonian_Get_Anisotropy state magnitude normal idx_image idx_chain =
        some (0, normal.write3 ⟨0, 0, 1⟩)) ∧
    (∀ (i0 : Int) (is : List Int) (a : K) (as : List K) (n0 : Vector3 K)
        (ns : List (Vector3 K)),
      state.image.hamiltonian.derived.anisotropy_indices = i0 :: is →
      state.image.hamiltonian.derived.anisotropy_magnitudes = a :: as →
      state.image.hamiltonian.derived.anisotropy_normals = n0 :: ns →
      Hamiltonian_Get_Anisotropy state magnitude normal idx_image idx_chain =
        some (a, ((normal.write 0 n0.x).write 1 n0.y).write 2 n0.z)) ∧
    (∀ state2 : State K L,
      state2.image.hamiltonian.derived.is_Heisenberg →
      state.image.hamiltonian.derived.anisotropy_indices ≠ [] →
      state2.image.hamiltonian.derived.anisotropy_indices ≠ [] →
      state2.image.hamiltonian.derived.anisotropy_magnitudes[0]? =
        state.image.hamiltonian.derived.anisotropy_magnitudes[0]? →
      state2.image.hamiltonian.derived.anisotropy_normals[0]? =
        state.image.hamiltonian.derived.anisotropy_normals[0]? →
      Hamiltonian_Get_Anisotropy state2 magnitude normal idx_image idx_chain =
        Hamiltonian_Get_Anisotropy state magnitude normal idx_image idx_chain) := by
  have hF := Get_Field_eq env state magnitude normal idx_image idx_chain hH
  have hA := Get_Anisotropy_eq state magnitude normal idx_image idx_chain hH
  refine ⟨?_, ?_, ?_, ?_, ?_, ?_⟩
  · intro h
    rw [hF, h, Get_Field_branch_nil]
  · intro i0 is a b as bs n0 ns h1 h2 h3 h4 hb hB
    rw [hF, h1, h2, h3, h4, Get_Field_branch_cons _ _ _ _ _ _ _ _ _ _ hb hB]
    rfl
  · intro state2 hH2 hne hne2 h1 h2 h3
    rw [hF, Get_Field_eq env state2 magnitude normal idx_image idx_chain hH2]
    have hp : 0 < state.image.hamiltonian.derived.external_field_indices.length :=
      List.length_pos.mpr hne
    have hp2 : 0 < state2.image.hamiltonian.derived.external_field_indices.length :=
      List.length_pos.mpr hne2
    simp only [Get_Field_branch, vec_get, gt_iff_lt, hp, hp2, if_true, h1, h2, h3]
  · intro h
    rw [hA, h, Get_Anisotropy_branch_nil]
  · intro i0 is a as n0 ns h1 h2 h3
    rw [hA, h1, h2, h3, Get_Anisotropy_branch_cons]
    rfl
  · intro state2 hH2 hne hne2 h1 h2
    rw [hA, Get_Anisotropy_eq state2 magnitude normal idx_image idx_chain hH2]
    have hp : 0 < state.image.hamiltonian.derived.anisotropy_indices.length :=
      List.length_pos.mpr hne
    have hp2 : 0 < state2.image.hamiltonian.derived.anisotropy_indices.length :=
      List.length_pos.mpr hne2
    simp only [Get_Anisotropy_branch, vec_get, gt_iff_lt, hp, hp2, if_true, h1, h2]

/-- Claim C10 at two shell-model states: with nothing stored both getters report
`(0, (0,0,1))`; with two differing entries stored they report entry 0, the field
magnitude divided by `mu_s[0] = 2` and by `mu_B`. -/
theorem C10_getters_first_entry_witness :
    Hamiltonian_Get_Field envQ neighbours_stateQ 7 coeffQ 0 0 =
      some (0, coeffQ.write3 ⟨0, 0, 1⟩) ∧
    Hamiltonian_Get_Anisotropy neighbours_stateQ 7 coeffQ 0 0 =
      some (0, coeffQ.write3 ⟨0, 0, 1⟩) ∧
    Hamiltonian_Get_Field envQ field_stateQ 7 coeffQ 0 0 =
      some (4 / 2 / envQ.mu_B, ((coeffQ.write 0 0).write 1 0).write 2 1) ∧
    Hamiltonian_Get_Anisotropy field_stateQ 7 coeffQ 0 0 =
      some (8, ((coeffQ.write 0 0).write 1 1).write 2 0) :=
  ⟨(C10_getters_first_entry envQ neighbours_stateQ 7 coeffQ 0 0 trivial).1 rfl,
   (C10_getters_first_entry envQ neighbours_stateQ 7 coeffQ 0 0 trivial).2.2.2.1 rfl,
   (C10_getters_first_entry envQ field_stateQ 7 coeffQ 0 0 trivial).2.1
      0 [1] 4 2 [6] [3] ⟨0, 0, 1⟩ [⟨1, 0, 0⟩] rfl rfl rfl rfl (by norm_num) (by simp [envQ]),
   (C10_getters_first_entry envQ field_stateQ 7 coeffQ 0 0 trivial).2.2.2.2.1
      0 [1] 8 [9] ⟨0, 1, 0⟩ [⟨1, 0, 0⟩] rfl rfl rfl⟩

end FirstEntry

section Boundary

variable {K L : Type}

/-- Claim C11. For every state, whatever its Hamiltonian class, and every triple of
booleans `(p0, p1, p2)`: Hamiltonian_Set_Boundary_Conditions returns, and
Hamiltonian_Get_Boundary_Conditions on the resulting state returns exactly
`(p0, p1, p2)`. -/
theorem C11_boundary_round_trip (state : State K L) (p0 p1 p2 : Bool)
    (idx_image idx_chain : Int) :
    ∃ state1 : State K L,
      Hamiltonian_Set_Boundary_Conditions state (p0, p1, p2) idx_image idx_chain =
        some state1 ∧
      Hamiltonian_Get_Boundary_Conditions state1 idx_image idx_chain = (p0, p1, p2) :=
  ⟨_, rfl, rfl⟩

/-- A Hamiltonian whose name is neither of the two Heisenberg names is the Gaussian one. -/
theorem derived_of_Name_ne (h : Hamiltonian K)
    (h1 : h.Name ≠ "Heisenberg (Neighbours)") (h2 : h.Name ≠ "Heisenberg (Pairs)") :
    h.derived = .Gaussian := by
  cases hd : h.derived with
  | Heisenberg_Neighbours ham => exact absurd (by simp [Hamiltonian.Name, hd]) h1
  | Heisenberg_Pairs ham => exact absurd (by simp [Hamiltonian.Name, hd]) h2
  | Gaussian => rfl

/-- Claim C13. For every state, whatever its Hamiltonian class, and every radius:
Hamiltonian_Set_DDI returns and leaves the whole state as it was (image with its
lock, Hamiltonian and geometry, and the log); Hamiltonian_Get_DDI does not touch the
state and leaves its output `radius` as it was. -/
theorem C13_ddi_no_op (state : State K L) (radius : K) (idx_image idx_chain : Int) :
    Hamiltonian_Set_DDI state radius idx_image idx_chain = some state ∧
    Hamiltonian_Get_DDI state radius idx_image idx_chain = radius :=
  ⟨rfl, rfl⟩

end Boundary

section NoBranch

variable {K L : Type} [LinearOrderedField K]

/-- Claim C12. An operation without a branch for the active class returns normally
and does nothing: (i) in the pair model Hamiltonian_Get_Exchange and
Hamiltonian_Get_DMI leave `n_shells` and the coefficient buffer as they were;
(ii) when the name is neither "Heisenberg (Neighbours)" nor "Heisenberg (Pairs)",
Set_mu_s, Set_Field, Set_Anisotropy, Set_Exchange and Set_DMI leave the Hamiltonian
(and the rest of the image) unchanged, and Get_mu_s, Get_Field, Get_Anisotropy,
Get_Exchange and Get_DMI leave their outputs unchanged. -/
theorem C12_no_branch_no_op (env : Env K L) (state : State K L) (x : K) (n_shells : Int)
    (p q : Ptr K) (idx_image idx_chain : Int) :
    (∀ ham : Hamiltonian_Heisenberg_Pairs K,
      state.image.hamiltonian.derived = .Heisenberg_Pairs ham →
        Hamiltonian_Get_Exchange state n_shells p idx_image idx_chain = some (n_shells, p) ∧
        Hamiltonian_Get_DMI state n_shells p idx_image idx_chain = some (n_shells, p)) ∧
    (state.image.hamiltonian.Name ≠ "Heisenberg (Neighbours)" →
      state.image.hamiltonian.Name ≠ "Heisenberg (Pairs)" →
        (∃ state1 : State K L,
          Hamiltonian_Set_mu_s state x idx_image idx_chain = some state1 ∧
          state1.image.hamiltonian = state.image.hamiltonian ∧
          state1.image.nos = state.image.nos ∧ state1.image.geometry = state.image.geometry) ∧
        (∃ state1 : State K L,
          Hamiltonian_Set_Field env state x q idx_image idx_chain = some state1 ∧
          state1.image.hamiltonian = state.image.hamiltonian ∧
          state1.image.nos = state.image.nos ∧ state1.image.geometry = state.image.geometry) ∧
        (∃ state1 : State K L,
          Hamiltonian_Set_Anisotropy env state x q idx_image idx_chain = some state1 ∧
          state1.image.hamiltonian = state.image.hamiltonian ∧
          state1.image.nos = state.image.nos ∧ state1.image.geometry = state.image.geometry) ∧
        (∃ state1 : State K L,
          Hamiltonian_Set_Exchange env state n_shells q idx_image idx_chain = some state1 ∧
          state1.image.hamiltonian = state.image.hamiltonian ∧
          state1.image.nos = state.image.nos ∧ state1.image.geometry = state.image.geometry) ∧
        (∃ state1 : State K L,
          Hamiltonian_Set_DMI env state n_shells q idx_image idx_chain = some state1 ∧
          state1.image.hamiltonian = state.image.hamiltonian ∧
          state1.image.nos = state.image.nos ∧ state1.image.geometry = state.image.geometry) ∧
        Hamiltonian_Get_mu_s state p idx_image idx_chain = some p ∧
        Hamiltonian_Get_Field env state x p idx_image idx_chain = some (x, p) ∧
        Hamiltonian_Get_Anisotropy state x p idx_image idx_chain = some (x, p) ∧
        Hamiltonian_Get_Exchange state n_shells p idx_image idx_chain = some (n_shells, p) ∧
        Hamiltonian_Get_DMI state n_shells p idx_image idx_chain = some (n_shells, p)) := by
  constructor
  · intro ham hP
    simp [Hamiltonian_Get_Exchange, Hamiltonian_Get_DMI, hP]
  · intro h1 h2
    have hG := derived_of_Name_ne state.image.hamiltonian h1 h2
    rcases state with ⟨⟨nos, geometry, ⟨bc, d⟩, locked⟩, log⟩
    simp only at hG
    subst hG
    exact ⟨⟨_, rfl, rfl, rfl, rfl⟩, ⟨_, rfl, rfl, rfl, rfl⟩, ⟨_, rfl, rfl, rfl, rfl⟩,
      ⟨_, rfl, rfl, rfl, rfl⟩, ⟨_, rfl, rfl, rfl, rfl⟩, rfl, rfl, rfl, rfl, rfl⟩

/-- Claim C12 at the pair-model state (getters of the shell coefficients) and at the
Gaussian state (a setter and a getter without branch). -/
theorem C12_no_branch_no_op_witness :
    Hamiltonian_Get_Exchange pairs_stateQ 7 coeffQ 0 0 = some (7, coeffQ) ∧
    Hamiltonian_Get_DMI pairs_stateQ 7 coeffQ 0 0 = some (7, coeffQ) ∧
    (∃ state1 : State ℚ Unit,
      Hamiltonian_Set_Field envQ gaussian_stateQ 1 dirQ 0 0 = some state1 ∧
      state1.image.hamiltonian = gaussian_stateQ.image.hamiltonian ∧
      state1.image.nos = gaussian_stateQ.image.nos ∧
      state1.image.geometry = gaussian_stateQ.image.geometry) ∧
    Hamiltonian_Get_Field envQ gaussian_stateQ 1 coeffQ 0 0 = some (1, coeffQ) :=
  ⟨((C12_no_branch_no_op envQ pairs_stateQ 1 7 coeffQ dirQ 0 0).1 pairsQ rfl).1,
   ((C12_no_branch_no_op envQ pairs_stateQ 1 7 coeffQ dirQ 0 0).1 pairsQ rfl).2,
   ((C12_no_branch_no_op envQ gaussian_stateQ 1 7 coeffQ dirQ 0 0).2
      (by decide) (by decide)).2.1,
   ((C12_no_branch_no_op envQ gaussian_stateQ 1 7 coeffQ dirQ 0 0).2
      (by decide) (by decide)).2.2.2.2.2.2.1⟩

end NoBranch

/-! ## What a setter that returns has done, on every class -/

section ShapesPlain

variable {K L : Type}

/-- Hamiltonian_Set_Boundary_Conditions in closed form. -/
theorem Set_Boundary_Conditions_eq (state : State K L) (periodical : Bool × Bool × Bool)
    (idx_image idx_chain : Int) :
    Hamiltonian_Set_Boundary_Conditions state periodical idx_image idx_chain =
      some
        { image :=
            { state.image with
              locked := false
              hamiltonian :=
                { state.image.hamiltonian with
                  boundary_conditions := (periodical.1, periodical.2.1, periodical.2.2) } }
          log := state.log ++
            [⟨.boundary_conditions periodical.1 periodical.2.1 periodical.2.2,
              idx_image, idx_chain⟩] } :=
  rfl

/-- Hamiltonian_Set_mu_s in closed form: lock released, `mu_s` overwritten, one log record. -/
theorem Set_mu_s_shape (state : State K L) (mu : K) (idx_image idx_chain : Int) :
    Hamiltonian_Set_mu_s state mu idx_image idx_chain =
      some
        { image := state.image.released_with
            (state.image.hamiltonian.derived.put_mu_s
              (state.image.hamiltonian.derived.mu_s.map (fun _ => mu)))
          log := state.log ++ [⟨.mu_s mu, idx_image, idx_chain⟩] } := by
  rcases state with ⟨⟨nos, geometry, ⟨bc, d⟩, locked⟩, log⟩
  cases d <;> rfl

end ShapesPlain

section Shapes

variable {K L : Type} [LinearOrderedField K]

/-- A property kept by every iteration is kept by the loop. -/
theorem for_loop_invariant {σ : Type} (P : σ → Prop) (body : Nat → σ → Option σ)
    (hbody : ∀ (i : Nat) (s s1 : σ), P s → body i s = some s1 → P s1) :
    ∀ (n : Nat) (s s1 : σ), P s → for_loop n body s = some s1 → P s1 := by
  intro n
  induction n with
  | zero =>
    intro s s1 hs h
    simp only [for_loop, Option.some.injEq] at h
    exact h ▸ hs
  | succ k ih =>
    intro s s1 hs h
    rw [for_loop] at h
    cases hk : for_loop k body s with
    | none => rw [hk] at h; simp at h
    | some s2 =>
      rw [hk] at h
      exact hbody k s2 s1 (ih s s2 hs hk) h

theorem vec_set_length {α : Type} (v v1 : List α) (i : Nat) (a : α)
    (h : vec_set v i a = some v1) : v1.length = v.length := by
  unfold vec_set at h
  split at h
  · cases h
    simp
  · simp at h

/-- The two arrays built by the loop of Hamiltonian_Set_Field have `nos` entries. -/
theorem Set_Field_loop_length (mu_B : K) (mu_s : List K) (nos : Nat) (magnitude : K)
    (new : List Int × List K) (h : Set_Field_loop mu_B mu_s nos magnitude = some new) :
    new.1.length = nos ∧ new.2.length = nos := by
  refine for_loop_invariant (fun p : List Int × List K => p.1.length = nos ∧ p.2.length = nos)
    _ ?_ nos _ new (by simp) h
  intro i s s1 hs hb
  cases h1 : vec_set s.1 i (i : Int) with
  | none => simp [h1] at hb
  | some a =>
    cases h2 : vec_get mu_s i with
    | none => simp [h1, h2] at hb
    | some mu =>
      cases h3 : vec_set s.2 i (magnitude * mu * mu_B) with
      | none => simp [h1, h2, h3] at hb
      | some b =>
        simp [h1, h2, h3] at hb
        subst hb
        exact ⟨(vec_set_length _ _ _ _ h1).trans hs.1, (vec_set_length _ _ _ _ h3).trans hs.2⟩

/-- Hamiltonian_Set_Anisotropy in closed form, on every class. -/
theorem Set_Anisotropy_shape (env : Env K L) (state : State K L) (magnitude : K)
    (normal : Ptr K) (idx_image idx_chain : Int) :
    Hamiltonian_Set_Anisotropy env state magnitude normal idx_image idx_chain =
      some
        { image := state.image.released_with
            (state.image.hamiltonian.derived.put_anisotropy
              ((List.range state.image.nos).map Int.ofNat)
              (List.replicate state.image.nos magnitude)
              (List.replicate state.image.nos
                ((Vector3.mk (normal 0) (normal 1) (normal 2)).normalize env.sqrt)))
          log := state.log ++
            [⟨.anisotropy magnitude (normal 0) (normal 1) (normal 2), idx_image, idx_chain⟩] } := by
  rcases state with ⟨⟨nos, geometry, ⟨bc, d⟩, locked⟩, log⟩
  cases d with
  | Heisenberg_Neighbours ham =>
    simp only [Hamiltonian_Set_Anisotropy, Spin_System.Lock, Set_Anisotropy_loop_eq]
    rfl
  | Heisenberg_Pairs ham =>
    simp only [Hamiltonian_Set_Anisotropy, Spin_System.Lock, Set_Anisotropy_loop_eq]
    rfl
  | Gaussian => rfl

/-- Hamiltonian_Set_Field, when it returns: lock released, the three external-field
arrays overwritten by arrays of `nos` entries, one log record. -/
theorem Set_Field_shape (env : Env K L) (state state1 : State K L) (magnitude : K)
    (normal : Ptr K) (idx_image idx_chain : Int)
    (h : Hamiltonian_Set_Field env state magnitude normal idx_image idx_chain = some state1) :
    ∃ (indices : List Int) (magnitudes : List K),
      indices.length = state.image.nos ∧ magnitudes.length = state.image.nos ∧
      state1 =
        { image := state.image.released_with
            (state.image.hamiltonian.derived.put_external_field indices magnitudes
              (List.replicate state.image.nos
                ((Vector3.mk (normal 0) (normal 1) (normal 2)).normalize env.sqrt)))
          log := state.log ++
            [⟨.external_field magnitude (normal 0) (normal 1) (normal 2),
              idx_image, idx_chain⟩] } := by
  rcases state with ⟨⟨nos, geometry, ⟨bc, d⟩, locked⟩, log⟩
  cases d with
  | Heisenberg_Neighbours ham =>
    simp only [Hamiltonian_Set_Field, Spin_System.Lock] at h
    cases hl : Set_Field_loop env.mu_B ham.mu_s nos magnitude with
    | none => simp [hl] at h
    | some new =>
      obtain ⟨h1, h2⟩ := Set_Field_loop_length _ _ _ _ _ hl
      simp only [hl, Option.pure_def, Option.bind_eq_bind, Option.some_bind,
        Option.some.injEq] at h
      exact ⟨new.1, new.2, h1, h2, h.symm⟩
  | Heisenberg_Pairs ham =>
    simp only [Hamiltonian_Set_Field, Spin_System.Lock] at h
    cases hl : Set_Field_loop env.mu_B ham.mu_s nos magnitude with
    | none => simp [hl] at h
    | some new =>
      obtain ⟨h1, h2⟩ := Set_Field_loop_length _ _ _ _ _ hl
      simp only [hl, Option.pure_def, Option.bind_eq_bind, Option.some_bind,
        Option.some.injEq] at h
      exact ⟨new.1, new.2, h1, h2, h.symm⟩
  | Gaussian =>
    refine ⟨List.replicate nos 0, List.replicate nos 0, by simp, by simp, ?_⟩
    simp only [Hamiltonian_Set_Field, Spin_System.Lock, Option.pure_def, Option.bind_eq_bind,
      Option.some_bind, Option.some.injEq] at h
    exact h.symm

/-- Hamiltonian_Set_Exchange, when it returns: lock released, the exchange data
overwritten, no log record. -/
theorem Set_Exchange_shape (env : Env K L) (state state1 : State K L) (n_shells : Int)
    (jij : Ptr K) (idx_image idx_chain : Int)
    (h : Hamiltonian_Set_Exchange env state n_shells jij idx_image idx_chain = some state1) :
    ∃ (pairs : List Pair) (magnitudes : List K),
      state1 =
        { image := state.image.released_with
            (state.image.hamiltonian.derived.put_exchange pairs magnitudes)
          log := state.log } := by
  rcases state with ⟨⟨nos, geometry, ⟨bc, d⟩, locked⟩, log⟩
  cases d with
  | Heisenberg_Neighbours ham =>
    simp only [Hamiltonian_Set_Exchange, Spin_System.Lock] at h
    cases hl : for_loop n_shells.toNat (fun i v => vec_set v i (jij (i : Int)))
        ham.exchange_magnitudes with
    | none => simp [hl] at h
    | some new =>
      simp only [hl, Option.pure_def, Option.bind_eq_bind, Option.some_bind,
        Option.some.injEq] at h
      exact ⟨[], new, h.symm⟩
  | Heisenberg_Pairs ham =>
    simp only [Hamiltonian_Set_Exchange, Spin_System.Lock, Option.pure_def,
      Option.bind_eq_bind, Option.some_bind, Option.some.injEq] at h
    exact ⟨_, _, h.symm⟩
  | Gaussian =>
    simp only [Hamiltonian_Set_Exchange, Spin_System.Lock, Option.pure_def,
      Option.bind_eq_bind, Option.some_bind, Option.some.injEq] at h
    exact ⟨[], [], h.symm⟩

/-- Hamiltonian_Set_DMI, when it returns: lock released, the DMI data overwritten,
no log record. -/
theorem Set_DMI_shape (env : Env K L) (state state1 : State K L) (n_shells : Int)
    (dij : Ptr K) (idx_image idx_chain : Int)
    (h : Hamiltonian_Set_DMI env state n_shells dij idx_image idx_chain = some state1) :
    ∃ (pairs : List Pair) (magnitudes : List K) (normals : List (Vector3 K)),
      state1 =
        { image := state.image.released_with
            (state.image.hamiltonian.derived.put_dmi pairs magnitudes normals)
          log := state.log } := by
  rcases state with ⟨⟨nos, geometry, ⟨bc, d⟩, locked⟩, log⟩
  cases d with
  | Heisenberg_Neighbours ham =>
    simp only [Hamiltonian_Set_DMI, Spin_System.Lock] at h
    cases hl : for_loop n_shells.toNat (fun i v => vec_set v i (dij (i : Int)))
        ham.dmi_magnitudes with
    | none => simp [hl] at h
    | some new =>
      simp only [hl, Option.pure_def, Option.bind_eq_bind, Option.some_bind,
        Option.some.injEq] at h
      exact ⟨[], new, [], h.symm⟩
  | Heisenberg_Pairs ham =>
    simp only [Hamiltonian_Set_DMI, Spin_System.Lock, Option.pure_def,
      Option.bind_eq_bind, Option.some_bind, Option.some.injEq] at h
    exact ⟨_, _, _, h.symm⟩
  | Gaussian =>
    simp only [Hamiltonian_Set_DMI, Spin_System.Lock, Option.pure_def,
      Option.bind_eq_bind, Option.some_bind, Option.some.injEq] at h
    exact ⟨[], [], [], h.symm⟩

end Shapes

/-! ## Lock discipline and log records -/

section LockDiscipline

variable {K L : Type}

theorem lock_after_middle (middle : List (Store_Event K))
    (h : ∀ e ∈ middle, e.is_lock_event = false) :
    guarded true (middle ++ [Store_Event.Unlock]) = true ∧
    lock_after true (middle ++ [Store_Event.Unlock]) = false := by
  induction middle with
  | nil => exact ⟨rfl, rfl⟩
  | cons e rest ih =>
    have hr := ih (fun e1 he1 => h e1 (List.mem_cons_of_mem _ he1))
    have he := h e (List.mem_cons_self _ _)
    cases e with
    | Lock => simp [Store_Event.is_lock_event] at he
    | Unlock => simp [Store_Event.is_lock_event] at he
    | Write m => simpa [guarded, lock_after] using hr
    | Update_Energy_Contributions => simpa [guarded, lock_after] using hr
    | Log entry => simpa [guarded, lock_after] using hr

/-- Bracketed events keep every action under the lock and leave the lock free. -/
theorem bracketed_lock (events : List (Store_Event K)) (h : Bracketed events) (held : Bool) :
    guarded held events = true ∧ lock_after held events = false := by
  obtain ⟨middle, rfl, hm⟩ := h
  simpa [guarded, lock_after] using lock_after_middle middle hm

theorem logged_append (a b : List (Store_Event K)) : logged (a ++ b) = logged a ++ logged b := by
  induction a with
  | nil => rfl
  | cons e rest ih => cases e <;> simp [logged, ih]

theorem logged_writes (f : Nat → Member) (l : List Nat) :
    logged (l.map (fun i => (Store_Event.Write (f i) : Store_Event K))) = [] := by
  induction l with
  | nil => rfl
  | cons i rest ih => simpa [logged] using ih

theorem writes_not_lock (f : Nat → Member) (l : List Nat) :
    ∀ e ∈ l.map (fun i => (Store_Event.Write (f i) : Store_Event K)),
      e.is_lock_event = false := by
  intro e he
  obtain ⟨i, -, rfl⟩ := List.mem_map.mp he
  rfl

theorem Set_Boundary_Conditions_events_bracketed (periodical : Bool × Bool × Bool)
    (idx_image idx_chain : Int) :
    Bracketed (Hamiltonian_Set_Boundary_Conditions_events periodical idx_image idx_chain :
      List (Store_Event K)) :=
  ⟨[.Write (.boundary_conditions 0), .Write (.boundary_conditions 1),
    .Write (.boundary_conditions 2),
    .Log ⟨.boundary_conditions periodical.1 periodical.2.1 periodical.2.2,
      idx_image, idx_chain⟩], rfl, by
    intro e he
    simp only [List.mem_cons, List.mem_singleton, List.not_mem_nil, or_false] at he
    rcases he with h | h | h | h <;> subst h <;> rfl⟩

theorem Set_mu_s_events_bracketed (state : State K L) (mu : K) (idx_image idx_chain : Int) :
    Bracketed (Hamiltonian_Set_mu_s_events state mu idx_image idx_chain) := by
  unfold Hamiltonian_Set_mu_s_events
  cases state.image.hamiltonian.derived with
  | Heisenberg_Neighbours ham =>
    refine ⟨(List.range ham.mu_s.length).map (fun i => .Write (.mu_s i)) ++
      [.Log ⟨.mu_s mu, idx_image, idx_chain⟩], by simp, ?_⟩
    intro e he
    rcases List.mem_append.mp he with h | h
    · exact writes_not_lock _ _ e h
    · rw [List.mem_singleton] at h
      subst h
      rfl
  | Heisenberg_Pairs ham =>
    refine ⟨(List.range ham.mu_s.length).map (fun i => .Write (.mu_s i)) ++
      [.Log ⟨.mu_s mu, idx_image, idx_chain⟩], by simp, ?_⟩
    intro e he
    rcases List.mem_append.mp he with h | h
    · exact writes_not_lock _ _ e h
    · rw [List.mem_singleton] at h
      subst h
      rfl
  | Gaussian =>
    refine ⟨[.Log ⟨.mu_s mu, idx_image, idx_chain⟩], rfl, ?_⟩
    intro e he
    rw [List.mem_singleton] at he
    subst he
    rfl

theorem Set_Field_events_bracketed (state : State K L) (magnitude : K) (normal : Ptr K)
    (idx_image idx_chain : Int) :
    Bracketed (Hamiltonian_Set_Field_events state magnitude normal idx_image idx_chain) := by
  unfold Hamiltonian_Set_Field_events
  cases state.image.hamiltonian.derived with
  | Heisenberg_Neighbours ham =>
    refine ⟨[.Write .external_field_indices, .Write .external_field_magnitudes,
      .Write .external_field_normals, .Update_Energy_Contributions,
      .Log ⟨.external_field magnitude (normal 0) (normal 1) (normal 2), idx_image, idx_chain⟩],
      rfl, ?_⟩
    intro e he
    simp only [List.mem_cons, List.mem_singleton, List.not_mem_nil, or_false] at he
    rcases he with h | h | h | h | h <;> subst h <;> rfl
  | Heisenberg_Pairs ham =>
    refine ⟨[.Write .external_field_indices, .Write .external_field_magnitudes,
      .Write .external_field_normals, .Update_Energy_Contributions,
      .Log ⟨.external_field magnitude (normal 0) (normal 1) (normal 2), idx_image, idx_chain⟩],
      rfl, ?_⟩
    intro e he
    simp only [List.mem_cons, List.mem_singleton, List.not_mem_nil, or_false] at he
    rcases he with h | h | h | h | h <;> subst h <;> rfl
  | Gaussian =>
    refine ⟨[.Log ⟨.external_field magnitude (normal 0) (normal 1) (normal 2),
      idx_image, idx_chain⟩], rfl, ?_⟩
    intro e he
    rw [List.mem_singleton] at he
    subst he
    rfl

theorem Set_Anisotropy_events_bracketed (state : State K L) (magnitude : K) (normal : Ptr K)
    (idx_image idx_chain : Int) :
    Bracketed (Hamiltonian_Set_Anisotropy_events state magnitude normal idx_image idx_chain) := by
  unfold Hamiltonian_Set_Anisotropy_events
  cases state.image.hamiltonian.derived with
  | Heisenberg_Neighbours ham =>
    refine ⟨[.Write .anisotropy_indices, .Write .anisotropy_magnitudes,
      .Write .anisotropy_normals, .Update_Energy_Contributions,
      .Log ⟨.anisotropy magnitude (normal 0) (normal 1) (normal 2), idx_image, idx_chain⟩],
      rfl, ?_⟩
    intro e he
    simp only [List.mem_cons, List.mem_singleton, List.not_mem_nil, or_false] at he
    rcases he with h | h | h | h | h <;> subst h <;> rfl
  | Heisenberg_Pairs ham =>
    refine ⟨[.Write .anisotropy_indices, .Write .anisotropy_magnitudes,
      .Write .anisotropy_normals, .Update_Energy_Contributions,
      .Log ⟨.anisotropy magnitude (normal 0) (normal 1) (normal 2), idx_image, idx_chain⟩],
      rfl, ?_⟩
    intro e he
    simp only [List.mem_cons, List.mem_singleton, List.not_mem_nil, or_false] at he
    rcases he with h | h | h | h | h <;> subst h <;> rfl
  | Gaussian =>
    refine ⟨[.Log ⟨.anisotropy magnitude (normal 0) (normal 1) (normal 2),
      idx_image, idx_chain⟩], rfl, ?_⟩
    intro e he
    rw [List.mem_singleton] at he
    subst he
    rfl

theorem Set_Exchange_events_bracketed (state : State K L) (n_shells : Int) :
    Bracketed (Hamiltonian_Set_Exchange_events state n_shells) := by
  unfold Hamiltonian_Set_Exchange_events
  cases state.image.hamiltonian.derived with
  | Heisenberg_Neighbours ham =>
    refine ⟨(List.range n_shells.toNat).map (fun i => .Write (.exchange_magnitudes_at i)) ++
      [.Update_Energy_Contributions], by simp, ?_⟩
    intro e he
    rcases List.mem_append.mp he with h | h
    · exact writes_not_lock _ _ e h
    · rw [List.mem_singleton] at h
      subst h
      rfl
  | Heisenberg_Pairs ham =>
    refine ⟨[.Write .exchange_pairs, .Write .exchange_magnitudes,
      .Update_Energy_Contributions], rfl, ?_⟩
    intro e he
    simp only [List.mem_cons, List.mem_singleton, List.not_mem_nil, or_false] at he
    rcases he with h | h | h <;> subst h <;> rfl
  | Gaussian => exact ⟨[], rfl, by simp⟩

theorem Set_DMI_events_bracketed (state : State K L) (n_shells : Int) :
    Bracketed (Hamiltonian_Set_DMI_events state n_shells) := by
  unfold Hamiltonian_Set_DMI_events
  cases state.image.hamiltonian.derived with
  | Heisenberg_Neighbours ham =>
    refine ⟨(List.range n_shells.toNat).map (fun i => .Write (.dmi_magnitudes_at i)) ++
      [.Update_Energy_Contributions], by simp, ?_⟩
    intro e he
    rcases List.mem_append.mp he with h | h
    · exact writes_not_lock _ _ e h
    · rw [List.mem_singleton] at h
      subst h
      rfl
  | Heisenberg_Pairs ham =>
    refine ⟨[.Write .dmi_pairs, .Write .dmi_magnitudes, .Write .dmi_normals,
      .Update_Energy_Contributions], rfl, ?_⟩
    intro e he
    simp only [List.mem_cons, List.mem_singleton, List.not_mem_nil, or_false] at he
    rcases he with h | h | h | h <;> subst h <;> rfl
  | Gaussian => exact ⟨[], rfl, by simp⟩

theorem Set_mu_s_events_logged (state : State K L) (mu : K) (idx_image idx_chain : Int) :
    logged (Hamiltonian_Set_mu_s_events state mu idx_image idx_chain) =
      [⟨.mu_s mu, idx_image, idx_chain⟩] := by
  unfold Hamiltonian_Set_mu_s_events
  cases state.image.hamiltonian.derived <;>
    simp [logged_append, logged_writes, logged]

theorem Set_Field_events_logged (state : State K L) (magnitude : K) (normal : Ptr K)
    (idx_image idx_chain : Int) :
    logged (Hamiltonian_Set_Field_events state magnitude normal idx_image idx_chain) =
      [⟨.external_field magnitude (normal 0) (normal 1) (normal 2), idx_image, idx_chain⟩] := by
  unfold Hamiltonian_Set_Field_events
  cases state.image.hamiltonian.derived <;> rfl

theorem Set_Anisotropy_events_logged (state : State K L) (magnitude : K) (normal : Ptr K)
    (idx_image idx_chain : Int) :
    logged (Hamiltonian_Set_Anisotropy_events state magnitude normal idx_image idx_chain) =
      [⟨.anisotropy magnitude (normal 0) (normal 1) (normal 2), idx_image, idx_chain⟩] := by
  unfold Hamiltonian_Set_Anisotropy_events
  cases state.image.hamiltonian.derived <;> rfl

theorem Set_Exchange_events_logged (state : State K L) (n_shells : Int) :
    logged (Hamiltonian_Set_Exchange_events state n_shells) = [] := by
  unfold Hamiltonian_Set_Exchange_events
  cases state.image.hamiltonian.derived <;>
    simp [logged_append, logged_writes, logged]

theorem Set_DMI_events_logged (state : State K L) (n_shells : Int) :
    logged (Hamiltonian_Set_DMI_events state n_shells) = [] := by
  unfold Hamiltonian_Set_DMI_events
  cases state.image.hamiltonian.derived <;>
    simp [logged_append, logged_writes, logged]

theorem lock_discipline_of (events : List (Store_Event K)) (before : State K L)
    (result : Option (State K L)) (hb : Bracketed events)
    (hres : ∀ state1 : State K L, result = some state1 →
      state1.image.locked = false ∧ state1.log = before.log ++ logged events) :
    Lock_discipline events before result :=
  ⟨hb, (bracketed_lock events hb false).1, (bracketed_lock events hb false).2,
    fun state1 h =>
      ⟨(hres state1 h).1.trans (bracketed_lock events hb before.image.locked).2.symm,
        (hres state1 h).1, (hres state1 h).2⟩⟩

end LockDiscipline

section LockClaim

variable {K L : Type} [LinearOrderedField K]

/-- The closed-form event lists of the six setters are bracketed by Lock and Unlock,
and the state a setter returns has the lock released and the log these events lead
to. That the lists are the traces of the setters is `Set_*_steps_eq`. -/
theorem events_lock_discipline (env : Env K L) (state : State K L)
    (periodical : Bool × Bool × Bool) (x : K) (normal : Ptr K) (n_shells : Int) (c : Ptr K)
    (idx_image idx_chain : Int) :
    Lock_discipline (Hamiltonian_Set_Boundary_Conditions_events periodical idx_image idx_chain)
      state (Hamiltonian_Set_Boundary_Conditions state periodical idx_image idx_chain) ∧
    Lock_discipline (Hamiltonian_Set_mu_s_events state x idx_image idx_chain)
      state (Hamiltonian_Set_mu_s state x idx_image idx_chain) ∧
    Lock_discipline (Hamiltonian_Set_Field_events state x normal idx_image idx_chain)
      state (Hamiltonian_Set_Field env state x normal idx_image idx_chain) ∧
    Lock_discipline (Hamiltonian_Set_Anisotropy_events state x normal idx_image idx_chain)
      state (Hamiltonian_Set_Anisotropy env state x normal idx_image idx_chain) ∧
    Lock_discipline (Hamiltonian_Set_Exchange_events state n_shells)
      state (Hamiltonian_Set_Exchange env state n_shells c idx_image idx_chain) ∧
    Lock_discipline (Hamiltonian_Set_DMI_events state n_shells)
      state (Hamiltonian_Set_DMI env state n_shells c idx_image idx_chain) := by
  refine ⟨?_, ?_, ?_, ?_, ?_, ?_⟩
  · refine lock_discipline_of _ _ _ (Set_Boundary_Conditions_events_bracketed _ _ _) ?_
    intro state1 h
    rw [Set_Boundary_Conditions_eq] at h
    cases h
    exact ⟨rfl, rfl⟩
  · refine lock_discipline_of _ _ _ (Set_mu_s_events_bracketed _ _ _ _) ?_
    intro state1 h
    rw [Set_mu_s_shape] at h
    cases h
    exact ⟨rfl, by rw [Set_mu_s_events_logged]⟩
  · refine lock_discipline_of _ _ _ (Set_Field_events_bracketed _ _ _ _ _) ?_
    intro state1 h
    obtain ⟨indices, magnitudes, -, -, rfl⟩ := Set_Field_shape env state state1 _ _ _ _ h
    exact ⟨rfl, by rw [Set_Field_events_logged]⟩
  · refine lock_discipline_of _ _ _ (Set_Anisotropy_events_bracketed _ _ _ _ _) ?_
    intro state1 h
    rw [Set_Anisotropy_shape] at h
    cases h
    exact ⟨rfl, by rw [Set_Anisotropy_events_logged]⟩
  · refine lock_discipline_of _ _ _ (Set_Exchange_events_bracketed _ _) ?_
    intro state1 h
    obtain ⟨pairs, magnitudes, rfl⟩ := Set_Exchange_shape env state state1 _ _ _ _ h
    exact ⟨rfl, by rw [Set_Exchange_events_logged]; simp⟩
  · refine lock_discipline_of _ _ _ (Set_DMI_events_bracketed _ _) ?_
    intro state1 h
    obtain ⟨pairs, magnitudes, normals, rfl⟩ := Set_DMI_shape env state state1 _ _ _ _ h
    exact ⟨rfl, by rw [Set_DMI_events_logged]; simp⟩

end LockClaim

section LogClaim

/-- Claim C15, the code at the failing inputs: Hamiltonian_Set_Exchange and
Hamiltonian_Set_DMI return with the log as it was, in the pair model and in the
shell model, while the sibling setters Set_Boundary_Conditions, Set_mu_s, Set_Field
and Set_Anisotropy on the same state append one record tagged with the indices
`(3, 1)` of the call. -/
theorem C15_exchange_dmi_write_no_log :
    (∃ state1 : State ℚ Unit,
      Hamiltonian_Set_Exchange envQ pairs_stateQ 2 coeffQ 3 1 = some state1 ∧
      state1.log = pairs_stateQ.log) ∧
    (∃ state1 : State ℚ Unit,
      Hamiltonian_Set_DMI envQ pairs_stateQ 2 coeffQ 3 1 = some state1 ∧
      state1.log = pairs_stateQ.log) ∧
    (∃ state1 : State ℚ Unit,
      Hamiltonian_Set_Exchange envQ neighbours_stateQ 2 coeffQ 3 1 = some state1 ∧
      state1.log = neighbours_stateQ.log) ∧
    (∃ state1 : State ℚ Unit,
      Hamiltonian_Set_DMI envQ neighbours_stateQ 2 coeffQ 3 1 = some state1 ∧
      state1.log = neighbours_stateQ.log) ∧
    (∃ state1 : State ℚ Unit,
      Hamiltonian_Set_Boundary_Conditions pairs_stateQ (true, false, true) 3 1 = some state1 ∧
      state1.log = pairs_stateQ.log ++ [⟨.boundary_conditions true false true, 3, 1⟩]) ∧
    (∃ state1 : State ℚ Unit,
      Hamiltonian_Set_mu_s pairs_stateQ (5 / 2) 3 1 = some state1 ∧
      state1.log = pairs_stateQ.log ++ [⟨.mu_s (5 / 2), 3, 1⟩]) ∧
    (∃ state1 : State ℚ Unit,
      Hamiltonian_Set_Field envQ pairs_stateQ 1 dirQ 3 1 = some state1 ∧
      state1.log = pairs_stateQ.log ++ [⟨.external_field 1 3 4 0, 3, 1⟩]) ∧
    (∃ state1 : State ℚ Unit,
      Hamiltonian_Set_Anisotropy envQ pairs_stateQ 1 dirQ 3 1 = some state1 ∧
      state1.log = pairs_stateQ.log ++ [⟨.anisotropy 1 3 4 0, 3, 1⟩]) :=
  ⟨⟨_, Set_Exchange_Pairs_eq envQ pairs_stateQ pairsQ 2 coeffQ 3 1 rfl, rfl⟩,
   ⟨_, Set_DMI_Pairs_eq envQ pairs_stateQ pairsQ 2 coeffQ 3 1 rfl, rfl⟩,
   ⟨_, Set_Exchange_Neighbours_eq envQ neighbours_stateQ neighboursQ 2 coeffQ 3 1 rfl
      (by decide), rfl⟩,
   ⟨_, Set_DMI_Neighbours_eq envQ neighbours_stateQ neighboursQ 2 coeffQ 3 1 rfl
      (by decide), rfl⟩,
   ⟨_, Set_Boundary_Conditions_eq pairs_stateQ (true, false, true) 3 1, rfl⟩,
   ⟨_, Set_mu_s_shape pairs_stateQ (5 / 2) 3 1, rfl⟩,
   ⟨_, Set_Field_eq envQ pairs_stateQ 1 dirQ 3 1 trivial (by decide), rfl⟩,
   ⟨_, Set_Anisotropy_shape envQ pairs_stateQ 1 dirQ 3 1, rfl⟩⟩

end LogClaim

section InvariantLemmas

variable {K L : Type} [LinearOrderedField K]

theorem invariant_put_mu_s (d : Hamiltonian_Class K) (mu_s : List K)
    (h : Indexed_field_invariant d) : Indexed_field_invariant (d.put_mu_s mu_s) := by
  cases d <;> exact h

theorem invariant_put_exchange (d : Hamiltonian_Class K) (pairs : List Pair)
    (magnitudes : List K) (h : Indexed_field_invariant d) :
    Indexed_field_invariant (d.put_exchange pairs magnitudes) := by
  cases d <;> exact h

theorem invariant_put_dmi (d : Hamiltonian_Class K) (pairs : List Pair) (magnitudes : List K)
    (normals : List (Vector3 K)) (h : Indexed_field_invariant d) :
    Indexed_field_invariant (d.put_dmi pairs magnitudes normals) := by
  cases d <;> exact h

theorem invariant_put_external_field (d : Hamiltonian_Class K) (indices : List Int)
    (magnitudes : List K) (normals : List (Vector3 K))
    (h1 : indices.length = magnitudes.length) (h2 : magnitudes.length = normals.length)
    (hu : ∀ v ∈ normals, v.is_unit) (h : Indexed_field_invariant d) :
    Indexed_field_invariant (d.put_external_field indices magnitudes normals) := by
  cases d with
  | Heisenberg_Neighbours ham => exact ⟨h1, h2, hu, h.2.2.2⟩
  | Heisenberg_Pairs ham => exact ⟨h1, h2, hu, h.2.2.2⟩
  | Gaussian => exact h

theorem invariant_put_anisotropy (d : Hamiltonian_Class K) (indices : List Int)
    (magnitudes : List K) (normals : List (Vector3 K))
    (h1 : indices.length = magnitudes.length) (h2 : magnitudes.length = normals.length)
    (hu : ∀ v ∈ normals, v.is_unit) (h : Indexed_field_invariant d) :
    Indexed_field_invariant (d.put_anisotropy indices magnitudes normals) := by
  cases d with
  | Heisenberg_Neighbours ham => exact ⟨h.1, h.2.1, h.2.2.1, h1, h2, hu⟩
  | Heisenberg_Pairs ham => exact ⟨h.1, h.2.1, h.2.2.1, h1, h2, hu⟩
  | Gaussian => exact h

/-- A nonzero vector normalized with a square root that is exact at its squared
norm has unit length. -/
theorem normalize_is_unit (sqrt : K → K) (v : Ptr K) (hv : v 0 ≠ 0 ∨ v 1 ≠ 0 ∨ v 2 ≠ 0)
    (hsqrt : sqrt (v 0 * v 0 + v 1 * v 1 + v 2 * v 2) *
      sqrt (v 0 * v 0 + v 1 * v 1 + v 2 * v 2) = v 0 * v 0 + v 1 * v 1 + v 2 * v 2) :
    ((Vector3.mk (v 0) (v 1) (v 2)).normalize sqrt).is_unit := by
  have hz : 0 < v 0 * v 0 + v 1 * v 1 + v 2 * v 2 := squaredNorm_pos v hv
  have hs : sqrt (v 0 * v 0 + v 1 * v 1 + v 2 * v 2) ≠ 0 := by
    intro h0
    rw [h0] at hsqrt
    simp at hsqrt
    linarith
  rw [normalize_of_ne_zero sqrt v hv]
  simp only [Vector3.is_unit, Vector3.squaredNorm]
  field_simp
  linarith

end InvariantLemmas

section InvariantClaim

variable {K L : Type} [LinearOrderedField K]

/-- Claim C17, amended. The invariant of the indexed fields (equal lengths of
indices, magnitudes and normals, every normal of unit length, for the external field
and the anisotropy) is kept by Set_Boundary_Conditions, Set_mu_s, Set_Field,
Set_Anisotropy, Set_Exchange, Set_DMI and Set_DDI, on every class and for every input
in which the normal passed to Set_Field and Set_Anisotropy is nonzero (it need not
be normalized), the square root being exact at its squared norm. -/
theorem C17_invariant_preserved (env : Env K L) (state : State K L)
    (periodical : Bool × Bool × Bool) (x : K) (v : Ptr K) (n_shells : Int) (c : Ptr K)
    (idx_image idx_chain : Int)
    (hv : v 0 ≠ 0 ∨ v 1 ≠ 0 ∨ v 2 ≠ 0)
    (hsqrt : env.sqrt (v 0 * v 0 + v 1 * v 1 + v 2 * v 2) *
      env.sqrt (v 0 * v 0 + v 1 * v 1 + v 2 * v 2) = v 0 * v 0 + v 1 * v 1 + v 2 * v 2) :
    Preserves_indexed_invariant state
      (Hamiltonian_Set_Boundary_Conditions state periodical idx_image idx_chain) ∧
    Preserves_indexed_invariant state (Hamiltonian_Set_mu_s state x idx_image idx_chain) ∧
    Preserves_indexed_invariant state
      (Hamiltonian_Set_Field env state x v idx_image idx_chain) ∧
    Preserves_indexed_invariant state
      (Hamiltonian_Set_Anisotropy env state x v idx_image idx_chain) ∧
    Preserves_indexed_invariant state
      (Hamiltonian_Set_Exchange env state n_shells c idx_image idx_chain) ∧
    Preserves_indexed_invariant state
      (Hamiltonian_Set_DMI env state n_shells c idx_image idx_chain) ∧
    Preserves_indexed_invariant state (Hamiltonian_Set_DDI state x idx_image idx_chain) := by
  have hunit := normalize_is_unit env.sqrt v hv hsqrt
  refine ⟨?_, ?_, ?_, ?_, ?_, ?_, ?_⟩
  · intro hinv state1 h
    rw [Set_Boundary_Conditions_eq] at h
    cases h
    exact hinv
  · intro hinv state1 h
    rw [Set_mu_s_shape] at h
    cases h
    exact invariant_put_mu_s _ _ hinv
  · intro hinv state1 h
    obtain ⟨indices, magnitudes, h1, h2, rfl⟩ := Set_Field_shape env state state1 _ _ _ _ h
    refine invariant_put_external_field _ _ _ _ (h1.trans h2.symm) (by simp [h2]) ?_ hinv
    intro w hw
    rw [List.eq_of_mem_replicate hw]
    exact hunit
  · intro hinv state1 h
    rw [Set_Anisotropy_shape] at h
    cases h
    refine invariant_put_anisotropy _ _ _ _ (by simp) (by simp) ?_ hinv
    intro w hw
    rw [List.eq_of_mem_replicate hw]
    exact hunit
  · intro hinv state1 h
    obtain ⟨pairs, magnitudes, rfl⟩ := Set_Exchange_shape env state state1 _ _ _ _ h
    exact invariant_put_exchange _ _ _ hinv
  · intro hinv state1 h
    obtain ⟨pairs, magnitudes, normals, rfl⟩ := Set_DMI_shape env state state1 _ _ _ _ h
    exact invariant_put_dmi _ _ _ _ hinv
  · intro hinv state1 h
    simp only [Hamiltonian_Set_DDI, Option.some.injEq] at h
    exact h ▸ hinv

/-- Claim C17 as stated fails for the zero vector: the two-spin shell-model state
with nothing stored satisfies the invariant, Set_Field and Set_Anisotropy with the
normal `(0, 0, 0)` return, and the normals they stored are `(0, 0, 0)`, not of unit
length. -/
theorem C17_invariant_preserved_counterexample :
    ¬ Preserves_indexed_invariant neighbours_stateQ
        (Hamiltonian_Set_Field envQ neighbours_stateQ 1 (fun _ => 0) 0 0) ∧
    ¬ Preserves_indexed_invariant neighbours_stateQ
        (Hamiltonian_Set_Anisotropy envQ neighbours_stateQ 1 (fun _ => 0) 0 0) := by
  have hinv : Indexed_field_invariant neighbours_stateQ.image.hamiltonian.derived := by
    refine ⟨rfl, rfl, ?_, rfl, rfl, ?_⟩ <;> intro v hv <;> exact absurd hv (List.not_mem_nil v)
  constructor
  · intro h
    obtain ⟨state1, hs, -, -, -, -, hnor⟩ :=
      Set_Field_spec envQ neighbours_stateQ 1 (fun _ => 0) 0 0 trivial (by decide)
    have hu := (h hinv state1 hs).2.2.1
    rw [hnor] at hu
    have h0 := hu _ (List.mem_replicate.mpr ⟨by decide, rfl⟩)
    simp [Vector3.is_unit, Vector3.normalize, Vector3.squaredNorm] at h0
  · intro h
    obtain ⟨state1, hs, -, -, -, -, hnor⟩ :=
      Set_Anisotropy_spec envQ neighbours_stateQ 1 (fun _ => 0) 0 0 trivial
    have hu := (h hinv state1 hs).2.2.2.2.2
    rw [hnor] at hu
    have h0 := hu _ (List.mem_replicate.mpr ⟨by decide, rfl⟩)
    simp [Vector3.is_unit, Vector3.normalize, Vector3.squaredNorm] at h0

/-- Claim C17, amended, at the two-spin state with a field and an anisotropy
stored: the invariant holds there, Set_Field with the normal `(3, 4, 0)` returns, and
the invariant holds in the state it returns. -/
theorem C17_invariant_preserved_witness :
    Indexed_field_invariant field_stateQ.image.hamiltonian.derived ∧
    ∃ state1 : State ℚ Unit,
      Hamiltonian_Set_Field envQ field_stateQ 1 dirQ 0 0 = some state1 ∧
      Indexed_field_invariant state1.image.hamiltonian.derived := by
  have hinv : Indexed_field_invariant field_stateQ.image.hamiltonian.derived := by
    refine ⟨rfl, rfl, ?_, rfl, rfl, ?_⟩ <;> intro v hv <;>
      simp [field_stateQ, stateQ, Hamiltonian_Class.external_field_normals,
        Hamiltonian_Class.anisotropy_normals] at hv <;>
      rcases hv with rfl | rfl <;> simp [Vector3.is_unit, Vector3.squaredNorm]
  have hsqrt : envQ.sqrt (dirQ 0 * dirQ 0 + dirQ 1 * dirQ 1 + dirQ 2 * dirQ 2) *
      envQ.sqrt (dirQ 0 * dirQ 0 + dirQ 1 * dirQ 1 + dirQ 2 * dirQ 2) =
      dirQ 0 * dirQ 0 + dirQ 1 * dirQ 1 + dirQ 2 * dirQ 2 := by
    have h25 : dirQ 0 * dirQ 0 + dirQ 1 * dirQ 1 + dirQ 2 * dirQ 2 = (5 : ℚ) * 5 := by
      simp [dirQ]
      norm_num
    rw [h25]
    show Rat.sqrt (5 * 5) * Rat.sqrt (5 * 5) = 5 * 5
    rw [Rat.sqrt_eq]
    norm_num
  obtain ⟨state1, hs, -⟩ := Set_Field_spec envQ field_stateQ 1 dirQ 0 0 trivial (by decide)
  exact ⟨hinv, state1, hs,
    (C17_invariant_preserved envQ field_stateQ (true, false, true) 1 dirQ 2 coeffQ 0 0
      (by simp [dirQ]) hsqrt).2.2.1 hinv state1 hs⟩

end InvariantClaim

section FrameClaim

variable {K L : Type} [LinearOrderedField K]

/-- Claim C18. Each setter changes only its own parameter group: in the state a
call returns, number of spins, geometry and a free lock are as before, and
Set_Boundary_Conditions has changed the three boundary flags only; Set_mu_s has
changed `mu_s` only; Set_Field the three external-field arrays, Set_Anisotropy the
three anisotropy arrays, Set_Exchange the exchange data and Set_DMI the DMI data
only, each of these four with the energy contributions recomputed.
Set_Boundary_Conditions, Set_mu_s and Set_Anisotropy return on every input. -/
theorem C18_setters_frame (env : Env K L) (state : State K L)
    (periodical : Bool × Bool × Bool) (x : K) (v : Ptr K) (n_shells : Int) (c : Ptr K)
    (idx_image idx_chain : Int) :
    (∃ state1 : State K L,
      Hamiltonian_Set_Boundary_Conditions state periodical idx_image idx_chain = some state1 ∧
        Changes_only state state1 (periodical.1, periodical.2.1, periodical.2.2)
          state.image.hamiltonian.derived) ∧
    (∃ state1 : State K L,
      Hamiltonian_Set_mu_s state x idx_image idx_chain = some state1 ∧
        ∃ mu_s : List K,
          Changes_only state state1 state.image.hamiltonian.boundary_conditions
            (state.image.hamiltonian.derived.put_mu_s mu_s)) ∧
    (∀ state1 : State K L,
      Hamiltonian_Set_Field env state x v idx_image idx_chain = some state1 →
        ∃ (indices : List Int) (magnitudes : List K) (normals : List (Vector3 K)),
          Changes_only state state1 state.image.hamiltonian.boundary_conditions
            (state.image.hamiltonian.derived.put_external_field indices magnitudes normals)) ∧
    (∃ state1 : State K L,
      Hamiltonian_Set_Anisotropy env state x v idx_image idx_chain = some state1 ∧
        ∃ (indices : List Int) (magnitudes : List K) (normals : List (Vector3 K)),
          Changes_only state state1 state.image.hamiltonian.boundary_conditions
            (state.image.hamiltonian.derived.put_anisotropy indices magnitudes normals)) ∧
    (∀ state1 : State K L,
      Hamiltonian_Set_Exchange env state n_shells c idx_image idx_chain = some state1 →
        ∃ (pairs : List Pair) (magnitudes : List K),
          Changes_only state state1 state.image.hamiltonian.boundary_conditions
            (state.image.hamiltonian.derived.put_exchange pairs magnitudes)) ∧
    (∀ state1 : State K L,
      Hamiltonian_Set_DMI env state n_shells c idx_image idx_chain = some state1 →
        ∃ (pairs : List Pair) (magnitudes : List K) (normals : List (Vector3 K)),
          Changes_only state state1 state.image.hamiltonian.boundary_conditions
            (state.image.hamiltonian.derived.put_dmi pairs magnitudes normals)) := by
  refine ⟨?_, ?_, ?_, ?_, ?_, ?_⟩
  · exact ⟨_, Set_Boundary_Conditions_eq state periodical idx_image idx_chain,
      rfl, rfl, fun hl => hl.symm, rfl, rfl⟩
  · exact ⟨_, Set_mu_s_shape state x idx_image idx_chain,
      _, rfl, rfl, fun hl => hl.symm, rfl, rfl⟩
  · intro state1 h
    obtain ⟨indices, magnitudes, -, -, rfl⟩ := Set_Field_shape env state state1 _ _ _ _ h
    exact ⟨_, _, _, rfl, rfl, fun hl => hl.symm, rfl, rfl⟩
  · exact ⟨_, Set_Anisotropy_shape env state x v idx_image idx_chain,
      _, _, _, rfl, rfl, fun hl => hl.symm, rfl, rfl⟩
  · intro state1 h
    obtain ⟨pairs, magnitudes, rfl⟩ := Set_Exchange_shape env state state1 _ _ _ _ h
    exact ⟨_, _, rfl, rfl, fun hl => hl.symm, rfl, rfl⟩
  · intro state1 h
    obtain ⟨pairs, magnitudes, normals, rfl⟩ := Set_DMI_shape env state state1 _ _ _ _ h
    exact ⟨_, _, _, rfl, rfl, fun hl => hl.symm, rfl, rfl⟩

/-- Claim C18 at the two-spin state with a field and an anisotropy stored:
Set_Field returns, and only the external-field arrays (and the recomputed energy
contributions) differ from the state before. -/
theorem C18_setters_frame_witness :
    ∃ state1 : State ℚ Unit,
      Hamiltonian_Set_Field envQ field_stateQ 1 dirQ 0 0 = some state1 ∧
      ∃ (indices : List Int) (magnitudes : List ℚ) (normals : List (Vector3 ℚ)),
        Changes_only field_stateQ state1 field_stateQ.image.hamiltonian.boundary_conditions
          (field_stateQ.image.hamiltonian.derived.put_external_field
            indices magnitudes normals) := by
  obtain ⟨state1, hs, -⟩ := Set_Field_spec envQ field_stateQ 1 dirQ 0 0 trivial (by decide)
  exact ⟨state1, hs,
    (C18_setters_frame envQ field_stateQ (true, false, true) 1 dirQ 2 coeffQ 0 0).2.2.1
      state1 hs⟩

end FrameClaim

section MomentChange

variable {K L : Type} [LinearOrderedField K]

/-- Claim C19. The stored external field is not rescaled when the moment changes:
for a state in either Heisenberg class with at least one site (and `mu_s` holding an
entry for each site), `mu_s[0] = mu0` nonzero, every `m`, every nonzero `v` and every
nonzero `mu1` (`mu_B` being nonzero), `Set_Field(m, v)`, `Set_mu_s(mu1)`, `Get_Field`
all return and the magnitude reported is `m * mu0 / mu1`, the normal `v / |v|`; the
magnitude reported equals `m` exactly when `mu1 = mu0` or `m = 0`. -/
theorem C19_field_not_rescaled (env : Env K L) (state : State K L) (m mu0 mu1 : K)
    (v : Ptr K) (magnitude : K) (normal : Ptr K) (idx_image idx_chain : Int)
    (hH : state.image.hamiltonian.derived.is_Heisenberg)
    (hnos : 0 < state.image.nos)
    (hmu : state.image.nos ≤ state.image.hamiltonian.derived.mu_s.length)
    (h0 : state.image.hamiltonian.derived.mu_s[0]? = some mu0)
    (hmu0 : mu0 ≠ 0) (hmu1 : mu1 ≠ 0) (hB : env.mu_B ≠ 0)
    (hv : v 0 ≠ 0 ∨ v 1 ≠ 0 ∨ v 2 ≠ 0) :
    ∃ (state1 state2 : State K L) (out : K × Ptr K),
      Hamiltonian_Set_Field env state m v idx_image idx_chain = some state1 ∧
      Hamiltonian_Set_mu_s state1 mu1 idx_image idx_chain = some state2 ∧
      Hamiltonian_Get_Field env state2 magnitude normal idx_image idx_chain = some out ∧
      out.1 = m * mu0 / mu1 ∧
      out.2 0 = v 0 / env.sqrt (v 0 * v 0 + v 1 * v 1 + v 2 * v 2) ∧
      out.2 1 = v 1 / env.sqrt (v 0 * v 0 + v 1 * v 1 + v 2 * v 2) ∧
      out.2 2 = v 2 / env.sqrt (v 0 * v 0 + v 1 * v 1 + v 2 * v 2) ∧
      (out.1 = m ↔ (mu1 = mu0 ∨ m = 0)) := by
  obtain ⟨state1, hs, hH1, hmu1v, hidx, hmag, hnor⟩ :=
    Set_Field_spec env state m v idx_image idx_chain hH hmu
  obtain ⟨state2, hs2, hH2, hmu2, hi2, hm2, hn2⟩ :=
    Set_mu_s_spec state1 mu1 idx_image idx_chain hH1
  obtain ⟨n, hn⟩ : ∃ n, state.image.nos = n + 1 := ⟨state.image.nos - 1, by omega⟩
  cases hl : state.image.hamiltonian.derived.mu_s with
  | nil => rw [hl, hn] at hmu; simp at hmu
  | cons b rest =>
    have hb : b = mu0 := by
      rw [hl] at h0
      simpa using h0
    subst hb
    have hget := Get_Field_eq env state2 magnitude normal idx_image idx_chain hH2
    rw [hmu2, hi2, hm2, hn2, hmu1v, hidx, hmag, hnor, hl, hn, List.range_succ_eq_map,
      List.take_succ_cons, List.replicate_succ, List.map_cons, List.map_cons, List.map_cons,
      Get_Field_branch_cons _ _ _ _ _ _ _ _ _ _ hmu1 hB, normalize_of_ne_zero _ _ hv] at hget
    refine ⟨state1, state2, _, hs, hs2, hget, ?_, ?_, ?_, ?_, ?_⟩
    · show m * b * env.mu_B / mu1 / env.mu_B = m * b / mu1
      field_simp
      ring
    · simp [Ptr.write3, Ptr.write]
    · simp [Ptr.write3, Ptr.write]
    · simp [Ptr.write3, Ptr.write]
    · show m * b * env.mu_B / mu1 / env.mu_B = m ↔ (mu1 = b ∨ m = 0)
      have e : m * b * env.mu_B / mu1 / env.mu_B = m * b / mu1 := by
        field_simp
        ring
      rw [e, div_eq_iff hmu1]
      constructor
      · intro h
        by_cases hm : m = 0
        · exact Or.inr hm
        · exact Or.inl (mul_left_cancel₀ hm h).symm
      · rintro (h | h)
        · rw [h]
        · rw [h]
          simp

/-- Claim C19 at the two-spin pair-model state (`mu_s[0] = 2`): the field
`(1, (3, 4, 0))` is set, the moment is changed to `4`, and the field reported is
`1 * 2 / 4`. -/
theorem C19_field_not_rescaled_witness :
    ∃ (state1 state2 : State ℚ Unit) (out : ℚ × Ptr ℚ),
      Hamiltonian_Set_Field envQ pairs_stateQ 1 dirQ 0 0 = some state1 ∧
      Hamiltonian_Set_mu_s state1 4 0 0 = some state2 ∧
      Hamiltonian_Get_Field envQ state2 0 coeffQ 0 0 = some out ∧
      out.1 = 1 * 2 / 4 ∧
      out.2 0 = dirQ 0 / envQ.sqrt (dirQ 0 * dirQ 0 + dirQ 1 * dirQ 1 + dirQ 2 * dirQ 2) ∧
      out.2 1 = dirQ 1 / envQ.sqrt (dirQ 0 * dirQ 0 + dirQ 1 * dirQ 1 + dirQ 2 * dirQ 2) ∧
      out.2 2 = dirQ 2 / envQ.sqrt (dirQ 0 * dirQ 0 + dirQ 1 * dirQ 1 + dirQ 2 * dirQ 2) ∧
      (out.1 = 1 ↔ ((4 : ℚ) = 2 ∨ (1 : ℚ) = 0)) :=
  C19_field_not_rescaled envQ pairs_stateQ 1 2 4 dirQ 0 coeffQ 0 0 trivial (by decide)
    (by decide) rfl (by norm_num) (by norm_num) (by simp [envQ]) (by simp [dirQ])

end MomentChange

section ShellCount

variable {K L : Type}

/-- The in-place copy loop leaves the length of the array as it was. -/
theorem shell_copy_loop_length (c : Ptr K) (v v1 : List K) (n : Nat)
    (h : for_loop n (fun i v => vec_set v i (c (i : Int))) v = some v1) :
    v1.length = v.length :=
  for_loop_invariant (fun w : List K => w.length = v.length) _
    (fun i s s1 hs hb => (vec_set_length s s1 i _ hb).trans hs) n v v1 rfl h

/-- The in-place copy loop indexes outside the array when it has fewer than `n` entries. -/
theorem shell_copy_loop_none (c : Ptr K) (v : List K) (n : Nat) (hn : v.length < n) :
    for_loop n (fun i v => vec_set v i (c (i : Int))) v = none := by
  induction n with
  | zero => omega
  | succ k ih =>
    rw [for_loop]
    cases hk : for_loop k (fun i v => vec_set v i (c (i : Int))) v with
    | none => rfl
    | some w =>
      have hlen := shell_copy_loop_length c v w k hk
      have hkl : ¬ v.length < k := by
        intro h
        rw [ih h] at hk
        cases hk
      have hkeq : ¬ k < w.length := by omega
      simp [vec_set, hkeq]

/-- Entries from `n` on of an array whose first `n` entries were overwritten. -/
theorem kept_getElem? (c : Ptr K) (v : List K) (n i : Nat) (hi : n ≤ i) :
    ((List.range n).map (fun (i : Nat) => c (i : Int)) ++ v.drop n)[i]? = v[i]? := by
  rw [List.getElem?_append_right (by simpa using hi)]
  simp only [List.length_map, List.length_range, List.getElem?_drop]
  congr 1
  omega

end ShellCount

section ShellCountClaim

variable {K L : Type} [LinearOrderedField K]

/-- Shell-model branch of Hamiltonian_Set_Exchange with more shells than stored:
an entry outside the array is indexed. -/
theorem Set_Exchange_Neighbours_none (env : Env K L) (state : State K L)
    (ham : Hamiltonian_Heisenberg_Neighbours K) (n_shells : Int) (jij : Ptr K)
    (idx_image idx_chain : Int)
    (hN : state.image.hamiltonian.derived = .Heisenberg_Neighbours ham)
    (hn : ham.exchange_magnitudes.length < n_shells.toNat) :
    Hamiltonian_Set_Exchange env state n_shells jij idx_image idx_chain = none := by
  simp only [Hamiltonian_Set_Exchange, Spin_System.Lock, hN, shell_copy_loop_none jij _ _ hn]
  rfl

/-- Shell-model branch of Hamiltonian_Set_DMI with more shells than stored. -/
theorem Set_DMI_Neighbours_none (env : Env K L) (state : State K L)
    (ham : Hamiltonian_Heisenberg_Neighbours K) (n_shells : Int) (dij : Ptr K)
    (idx_image idx_chain : Int)
    (hN : state.image.hamiltonian.derived = .Heisenberg_Neighbours ham)
    (hn : ham.dmi_magnitudes.length < n_shells.toNat) :
    Hamiltonian_Set_DMI env state n_shells dij idx_image idx_chain = none := by
  simp only [Hamiltonian_Set_DMI, Spin_System.Lock, hN, shell_copy_loop_none dij _ _ hn]
  rfl

/-- Claim C20. In the shell model the number of stored shells is fixed: with `L`
stored exchange shells and `n_shells ≤ L`, Hamiltonian_Set_Exchange returns, the
exchange array still has `L` entries, every entry of index `i` with
`n_shells ≤ i < L` is as before, and Hamiltonian_Get_Exchange afterwards reports
`n_shells = L`; the setter returns, all its indexed writes being in bounds, exactly
when `n_shells ≤ L`. The same holds for Hamiltonian_Set_DMI and Hamiltonian_Get_DMI
with the `dmi` array. -/
theorem C20_shell_count_fixed (env : Env K L) (state : State K L)
    (ham : Hamiltonian_Heisenberg_Neighbours K) (n_shells : Int) (jij dij : Ptr K)
    (n0 : Int) (out : Ptr K) (idx_image idx_chain : Int)
    (hN : state.image.hamiltonian.derived = .Heisenberg_Neighbours ham) :
    (n_shells ≤ (ham.exchange_magnitudes.length : Int) →
      ∃ (state1 : State K L) (ham1 : Hamiltonian_Heisenberg_Neighbours K) (res : Int × Ptr K),
        Hamiltonian_Set_Exchange env state n_shells jij idx_image idx_chain = some state1 ∧
        state1.image.hamiltonian.derived = .Heisenberg_Neighbours ham1 ∧
        ham1.exchange_magnitudes.length = ham.exchange_magnitudes.length ∧
        (∀ i : Nat, n_shells ≤ (i : Int) → i < ham.exchange_magnitudes.length →
          ham1.exchange_magnitudes[i]? = ham.exchange_magnitudes[i]?) ∧
        Hamiltonian_Get_Exchange state1 n0 out idx_image idx_chain = some res ∧
        res.1 = (ham.exchange_magnitudes.length : Int)) ∧
    ((∃ state1 : State K L,
        Hamiltonian_Set_Exchange env state n_shells jij idx_image idx_chain = some state1) ↔
      n_shells ≤ (ham.exchange_magnitudes.length : Int)) ∧
    (n_shells ≤ (ham.dmi_magnitudes.length : Int) →
      ∃ (state1 : State K L) (ham1 : Hamiltonian_Heisenberg_Neighbours K) (res : Int × Ptr K),
        Hamiltonian_Set_DMI env state n_shells dij idx_image idx_chain = some state1 ∧
        state1.image.hamiltonian.derived = .Heisenberg_Neighbours ham1 ∧
        ham1.dmi_magnitudes.length = ham.dmi_magnitudes.length ∧
        (∀ i : Nat, n_shells ≤ (i : Int) → i < ham.dmi_magnitudes.length →
          ham1.dmi_magnitudes[i]? = ham.dmi_magnitudes[i]?) ∧
        Hamiltonian_Get_DMI state1 n0 out idx_image idx_chain = some res ∧
        res.1 = (ham.dmi_magnitudes.length : Int)) ∧
    ((∃ state1 : State K L,
        Hamiltonian_Set_DMI env state n_shells dij idx_image idx_chain = some state1) ↔
      n_shells ≤ (ham.dmi_magnitudes.length : Int)) := by
  refine ⟨?_, ?_, ?_, ?_⟩
  · intro hE
    have hE1 : n_shells.toNat ≤ ham.exchange_magnitudes.length := by omega
    have hlen : ((List.range n_shells.toNat).map (fun (i : Nat) => jij (i : Int)) ++
        ham.exchange_magnitudes.drop n_shells.toNat).length =
        ham.exchange_magnitudes.length := by
      simp
      omega
    obtain ⟨res, hres, -⟩ := get_after_copy jij ham.exchange_magnitudes n_shells.toNat hE1 out
    refine ⟨_, _,
      ((((List.range n_shells.toNat).map (fun (i : Nat) => jij (i : Int)) ++
          ham.exchange_magnitudes.drop n_shells.toNat).length : Int), res),
      Set_Exchange_Neighbours_eq env state ham n_shells jij idx_image idx_chain hN hE1, rfl,
      hlen, ?_, ?_, ?_⟩
    · intro i hi _
      exact kept_getElem? jij _ _ i (by omega)
    · simp only [Hamiltonian_Get_Exchange,
        Hamiltonian_Heisenberg_Neighbours.Update_Energy_Contributions]
      rw [hres]
      rfl
    · show ((_ : Nat) : Int) = _
      rw [hlen]
  · constructor
    · rintro ⟨state1, h⟩
      by_contra hlt
      rw [Set_Exchange_Neighbours_none env state ham n_shells jij idx_image idx_chain hN
        (by omega)] at h
      cases h
    · intro hE
      exact ⟨_, Set_Exchange_Neighbours_eq env state ham n_shells jij idx_image idx_chain hN
        (by omega)⟩
  · intro hD
    have hD1 : n_shells.toNat ≤ ham.dmi_magnitudes.length := by omega
    have hlen : ((List.range n_shells.toNat).map (fun (i : Nat) => dij (i : Int)) ++
        ham.dmi_magnitudes.drop n_shells.toNat).length = ham.dmi_magnitudes.length := by
      simp
      omega
    obtain ⟨res, hres, -⟩ := get_after_copy dij ham.dmi_magnitudes n_shells.toNat hD1 out
    refine ⟨_, _,
      ((((List.range n_shells.toNat).map (fun (i : Nat) => dij (i : Int)) ++
          ham.dmi_magnitudes.drop n_shells.toNat).length : Int), res),
      Set_DMI_Neighbours_eq env state ham n_shells dij idx_image idx_chain hN hD1, rfl,
      hlen, ?_, ?_, ?_⟩
    · intro i hi _
      exact kept_getElem? dij _ _ i (by omega)
    · simp only [Hamiltonian_Get_DMI,
        Hamiltonian_Heisenberg_Neighbours.Update_Energy_Contributions]
      rw [hres]
      rfl
    · show ((_ : Nat) : Int) = _
      rw [hlen]
  · constructor
    · rintro ⟨state1, h⟩
      by_contra hlt
      rw [Set_DMI_Neighbours_none env state ham n_shells dij idx_image idx_chain hN
        (by omega)] at h
      cases h
    · intro hD
      exact ⟨_, Set_DMI_Neighbours_eq env state ham n_shells dij idx_image idx_chain hN
        (by omega)⟩

/-- Claim C20 at the two-spin shell-model state with three stored shells
`10, 20, 30`: after `Set_Exchange(2, (5, 7, ..))` the array still has three entries,
entry 2 is still `30`, and `Get_Exchange` reports three shells. -/
theorem C20_shell_count_fixed_witness :
    ∃ (state1 : State ℚ Unit) (ham1 : Hamiltonian_Heisenberg_Neighbours ℚ)
      (res : Int × Ptr ℚ),
      Hamiltonian_Set_Exchange envQ neighbours_stateQ 2 coeffQ 0 0 = some state1 ∧
      state1.image.hamiltonian.derived = .Heisenberg_Neighbours ham1 ∧
      ham1.exchange_magnitudes.length = 3 ∧
      ham1.exchange_magnitudes[2]? = some 30 ∧
      Hamiltonian_Get_Exchange state1 0 coeffQ 0 0 = some res ∧
      res.1 = 3 := by
  obtain ⟨state1, ham1, res, h1, h2, h3, h4, h5, h6⟩ :=
    (C20_shell_count_fixed envQ neighbours_stateQ neighboursQ 2 coeffQ coeffQ 0 coeffQ 0 0
      rfl).1 (by decide)
  exact ⟨state1, ham1, res, h1, h2, h3, (h4 2 (by decide) (by decide)).trans rfl, h5, h6⟩

end ShellCountClaim

/-! ## The runs of the setters -/

section RunLemmasPlain

variable {K L : Type}

/-- Two loops whose iterations correspond step by step correspond as a whole. -/
theorem for_loop_simulation {σ τ : Type} (f : Nat → τ → Option τ) (g : Nat → σ → Option σ)
    (R : Nat → τ → σ) (h : ∀ (i : Nat) (t : τ), g i (R i t) = (f i t).map (R (i + 1))) :
    ∀ (n : Nat) (t : τ), for_loop n g (R 0 t) = (for_loop n f t).map (R n) := by
  intro n
  induction n with
  | zero => intro t; rfl
  | succ k ih =>
    intro t
    rw [for_loop, for_loop, ih t]
    cases for_loop k f t with
    | none => rfl
    | some t1 => exact h k t1

/-- Overwriting every entry of an array in place gives the constant array. -/
theorem fill_loop_eq (mu : K) (v : List K) :
    for_loop v.length (fun i v => vec_set v i mu) v = some (v.map (fun _ => mu)) := by
  have h := shell_copy_loop_eq (fun _ => mu) v v.length (le_refl _)
  rw [h, List.drop_length, List.append_nil, List.map_const', List.map_const']
  simp

/-- The range loop of Hamiltonian_Set_mu_s on the shell-model object, run under the lock. -/
theorem mu_s_steps_Neighbours (mu : K) (nos : Nat) (geometry : Geometry L)
    (bc : Bool × Bool × Bool) (ham : Hamiltonian_Heisenberg_Neighbours K)
    (log : List (Log_Entry K)) (events : List (Store_Event K)) (n : Nat) :
    for_loop n (fun i m => step (.mu_s i mu) m)
        (⟨⟨⟨nos, geometry, ⟨bc, .Heisenberg_Neighbours ham⟩, true⟩, log⟩, events, true⟩ :
          Machine K L) =
      (for_loop n (fun i v => vec_set v i mu) ham.mu_s).map (fun l =>
        ⟨⟨⟨nos, geometry, ⟨bc, .Heisenberg_Neighbours { ham with mu_s := l }⟩, true⟩, log⟩,
          events ++ (List.range n).map (fun i => .Write (.mu_s i)), true⟩) := by
  have h := for_loop_simulation (fun i v => vec_set v i mu)
    (fun i (m : Machine K L) => step (.mu_s i mu) m)
    (fun i l => ⟨⟨⟨nos, geometry, ⟨bc, .Heisenberg_Neighbours { ham with mu_s := l }⟩, true⟩,
      log⟩, events ++ (List.range i).map (fun i => .Write (.mu_s i)), true⟩)
    (by
      intro i t
      cases hv : vec_set t i mu with
      | none =>
        simp [step, Action.apply, Hamiltonian_Heisenberg_Neighbours.store, hv]
      | some l =>
        simp [step, Action.apply, Hamiltonian_Heisenberg_Neighbours.store, hv,
          Spin_System.with_derived, Action.event, Store_Event.is_lock_event, List.range_succ])
    n ham.mu_s
  simpa using h

/-- The range loop of Hamiltonian_Set_mu_s on the pair-model object, run under the lock. -/
theorem mu_s_steps_Pairs (mu : K) (nos : Nat) (geometry : Geometry L)
    (bc : Bool × Bool × Bool) (ham : Hamiltonian_Heisenberg_Pairs K)
    (log : List (Log_Entry K)) (events : List (Store_Event K)) (n : Nat) :
    for_loop n (fun i m => step (.mu_s i mu) m)
        (⟨⟨⟨nos, geometry, ⟨bc, .Heisenberg_Pairs ham⟩, true⟩, log⟩, events, true⟩ :
          Machine K L) =
      (for_loop n (fun i v => vec_set v i mu) ham.mu_s).map (fun l =>
        ⟨⟨⟨nos, geometry, ⟨bc, .Heisenberg_Pairs { ham with mu_s := l }⟩, true⟩, log⟩,
          events ++ (List.range n).map (fun i => .Write (.mu_s i)), true⟩) := by
  have h := for_loop_simulation (fun i v => vec_set v i mu)
    (fun i (m : Machine K L) => step (.mu_s i mu) m)
    (fun i l => ⟨⟨⟨nos, geometry, ⟨bc, .Heisenberg_Pairs { ham with mu_s := l }⟩, true⟩,
      log⟩, events ++ (List.range i).map (fun i => .Write (.mu_s i)), true⟩)
    (by
      intro i t
      cases hv : vec_set t i mu with
      | none =>
        simp [step, Action.apply, Hamiltonian_Heisenberg_Pairs.store, hv]
      | some l =>
        simp [step, Action.apply, Hamiltonian_Heisenberg_Pairs.store, hv,
          Spin_System.with_derived, Action.event, Store_Event.is_lock_event, List.range_succ])
    n ham.mu_s
  simpa using h

/-- The loop of the shell-model branch of Hamiltonian_Set_Exchange, run under the lock. -/
theorem exchange_steps_Neighbours (jij : Ptr K) (nos : Nat) (geometry : Geometry L)
    (bc : Bool × Bool × Bool) (ham : Hamiltonian_Heisenberg_Neighbours K)
    (log : List (Log_Entry K)) (events : List (Store_Event K)) (n : Nat) :
    for_loop n (fun i m => step (.exchange_magnitudes_at i (jij (i : Int))) m)
        (⟨⟨⟨nos, geometry, ⟨bc, .Heisenberg_Neighbours ham⟩, true⟩, log⟩, events, true⟩ :
          Machine K L) =
      (for_loop n (fun i v => vec_set v i (jij (i : Int))) ham.exchange_magnitudes).map
        (fun l =>
          ⟨⟨⟨nos, geometry,
              ⟨bc, .Heisenberg_Neighbours { ham with exchange_magnitudes := l }⟩, true⟩, log⟩,
            events ++ (List.range n).map (fun i => .Write (.exchange_magnitudes_at i)),
            true⟩) := by
  have h := for_loop_simulation (fun i v => vec_set v i (jij (i : Int)))
    (fun i (m : Machine K L) => step (.exchange_magnitudes_at i (jij (i : Int))) m)
    (fun i l => ⟨⟨⟨nos, geometry,
        ⟨bc, .Heisenberg_Neighbours { ham with exchange_magnitudes := l }⟩, true⟩, log⟩,
      events ++ (List.range i).map (fun i => .Write (.exchange_magnitudes_at i)), true⟩)
    (by
      intro i t
      cases hv : vec_set t i (jij (i : Int)) with
      | none =>
        simp [step, Action.apply, Hamiltonian_Heisenberg_Neighbours.store, hv]
      | some l =>
        simp [step, Action.apply, Hamiltonian_Heisenberg_Neighbours.store, hv,
          Spin_System.with_derived, Action.event, Store_Event.is_lock_event, List.range_succ])
    n ham.exchange_magnitudes
  simpa using h

/-- The loop of the shell-model branch of Hamiltonian_Set_DMI, run under the lock. -/
theorem dmi_steps_Neighbours (dij : Ptr K) (nos : Nat) (geometry : Geometry L)
    (bc : Bool × Bool × Bool) (ham : Hamiltonian_Heisenberg_Neighbours K)
    (log : List (Log_Entry K)) (events : List (Store_Event K)) (n : Nat) :
    for_loop n (fun i m => step (.dmi_magnitudes_at i (dij (i : Int))) m)
        (⟨⟨⟨nos, geometry, ⟨bc, .Heisenberg_Neighbours ham⟩, true⟩, log⟩, events, true⟩ :
          Machine K L) =
      (for_loop n (fun i v => vec_set v i (dij (i : Int))) ham.dmi_magnitudes).map
        (fun l =>
          ⟨⟨⟨nos, geometry,
              ⟨bc, .Heisenberg_Neighbours { ham with dmi_magnitudes := l }⟩, true⟩, log⟩,
            events ++ (List.range n).map (fun i => .Write (.dmi_magnitudes_at i)),
            true⟩) := by
  have h := for_loop_simulation (fun i v => vec_set v i (dij (i : Int)))
    (fun i (m : Machine K L) => step (.dmi_magnitudes_at i (dij (i : Int))) m)
    (fun i l => ⟨⟨⟨nos, geometry,
        ⟨bc, .Heisenberg_Neighbours { ham with dmi_magnitudes := l }⟩, true⟩, log⟩,
      events ++ (List.range i).map (fun i => .Write (.dmi_magnitudes_at i)), true⟩)
    (by
      intro i t
      cases hv : vec_set t i (dij (i : Int)) with
      | none =>
        simp [step, Action.apply, Hamiltonian_Heisenberg_Neighbours.store, hv]
      | some l =>
        simp [step, Action.apply, Hamiltonian_Heisenberg_Neighbours.store, hv,
          Spin_System.with_derived, Action.event, Store_Event.is_lock_event, List.range_succ])
    n ham.dmi_magnitudes
  simpa using h

/-- The run of Hamiltonian_Set_Boundary_Conditions: its state is the one the setter
returns, its trace the events in source order, every action under the lock. -/
theorem Set_Boundary_Conditions_steps_eq (state : State K L) (periodical : Bool × Bool × Bool)
    (idx_image idx_chain : Int) :
    Hamiltonian_Set_Boundary_Conditions_steps periodical idx_image idx_chain
        (Machine.start state) =
      (Hamiltonian_Set_Boundary_Conditions state periodical idx_image idx_chain).map
        (fun state1 =>
          ⟨state1, Hamiltonian_Set_Boundary_Conditions_events periodical idx_image idx_chain,
            true⟩) := by
  rcases state with ⟨⟨nos, geometry, ⟨bc, d⟩, locked⟩, log⟩
  rfl

/-- The run of Hamiltonian_Set_mu_s: its state is the one the setter returns, its
trace the events in source order, every action under the lock. -/
theorem Set_mu_s_steps_eq (state : State K L) (mu : K) (idx_image idx_chain : Int) :
    Hamiltonian_Set_mu_s_steps mu idx_image idx_chain (Machine.start state) =
      (Hamiltonian_Set_mu_s state mu idx_image idx_chain).map
        (fun state1 =>
          ⟨state1, Hamiltonian_Set_mu_s_events state mu idx_image idx_chain, true⟩) := by
  rcases state with ⟨⟨nos, geometry, ⟨bc, d⟩, locked⟩, log⟩
  cases d with
  | Heisenberg_Neighbours ham =>
    have h := mu_s_steps_Neighbours mu nos geometry bc ham log
      ([Store_Event.Lock] : List (Store_Event K)) ham.mu_s.length
    rw [fill_loop_eq] at h
    simp only [Hamiltonian_Set_mu_s_steps, Machine.start, step, Action.apply, Spin_System.Lock,
      Option.map_some', Option.bind_eq_bind, Option.some_bind, Action.event, List.nil_append,
      Store_Event.is_lock_event, Bool.true_or, Bool.and_self] at h ⊢
    rw [h]
    simp [Hamiltonian_Set_mu_s, Hamiltonian_Set_mu_s_events, Spin_System.Lock,
      Spin_System.Unlock, Spin_System.with_derived, Log]
  | Heisenberg_Pairs ham =>
    have h := mu_s_steps_Pairs mu nos geometry bc ham log
      ([Store_Event.Lock] : List (Store_Event K)) ham.mu_s.length
    rw [fill_loop_eq] at h
    simp only [Hamiltonian_Set_mu_s_steps, Machine.start, step, Action.apply, Spin_System.Lock,
      Option.map_some', Option.bind_eq_bind, Option.some_bind, Action.event, List.nil_append,
      Store_Event.is_lock_event, Bool.true_or, Bool.and_self] at h ⊢
    rw [h]
    simp [Hamiltonian_Set_mu_s, Hamiltonian_Set_mu_s_events, Spin_System.Lock,
      Spin_System.Unlock, Spin_System.with_derived, Log]
  | Gaussian => rfl

end RunLemmasPlain

section RunLemmas

variable {K L : Type} [LinearOrderedField K]

/-- The run of Hamiltonian_Set_Field: its state is the one the setter returns, its
trace the events in source order, every action under the lock. -/
theorem Set_Field_steps_eq (env : Env K L) (state : State K L) (magnitude : K)
    (normal : Ptr K) (idx_image idx_chain : Int) :
    Hamiltonian_Set_Field_steps env magnitude normal idx_image idx_chain
        (Machine.start state) =
      (Hamiltonian_Set_Field env state magnitude normal idx_image idx_chain).map
        (fun state1 =>
          ⟨state1, Hamiltonian_Set_Field_events state magnitude normal idx_image idx_chain,
            true⟩) := by
  rcases state with ⟨⟨nos, geometry, ⟨bc, d⟩, locked⟩, log⟩
  cases d with
  | Heisenberg_Neighbours ham =>
    cases hl : Set_Field_loop env.mu_B ham.mu_s nos magnitude <;>
      simp [Hamiltonian_Set_Field_steps, Hamiltonian_Set_Field, Hamiltonian_Set_Field_events,
        Machine.start, step, Action.apply, Hamiltonian_Heisenberg_Neighbours.store,
        Spin_System.Lock, Spin_System.Unlock, Spin_System.with_derived, Log, Action.event,
        Store_Event.is_lock_event, hl,
        Hamiltonian_Heisenberg_Neighbours.Update_Energy_Contributions]
  | Heisenberg_Pairs ham =>
    cases hl : Set_Field_loop env.mu_B ham.mu_s nos magnitude <;>
      simp [Hamiltonian_Set_Field_steps, Hamiltonian_Set_Field, Hamiltonian_Set_Field_events,
        Machine.start, step, Action.apply, Hamiltonian_Heisenberg_Pairs.store,
        Spin_System.Lock, Spin_System.Unlock, Spin_System.with_derived, Log, Action.event,
        Store_Event.is_lock_event, hl, Hamiltonian_Heisenberg_Pairs.Update_Energy_Contributions]
  | Gaussian => rfl

/-- The run of Hamiltonian_Set_Anisotropy: its state is the one the setter returns,
its trace the events in source order, every action under the lock. -/
theorem Set_Anisotropy_steps_eq (env : Env K L) (state : State K L) (magnitude : K)
    (normal : Ptr K) (idx_image idx_chain : Int) :
    Hamiltonian_Set_Anisotropy_steps env magnitude normal idx_image idx_chain
        (Machine.start state) =
      (Hamiltonian_Set_Anisotropy env state magnitude normal idx_image idx_chain).map
        (fun state1 =>
          ⟨state1, Hamiltonian_Set_Anisotropy_events state magnitude normal idx_image idx_chain,
            true⟩) := by
  rcases state with ⟨⟨nos, geometry, ⟨bc, d⟩, locked⟩, log⟩
  cases d with
  | Heisenberg_Neighbours ham =>
    simp [Hamiltonian_Set_Anisotropy_steps, Hamiltonian_Set_Anisotropy,
      Hamiltonian_Set_Anisotropy_events, Set_Anisotropy_loop_eq,
      Machine.start, step, Action.apply, Hamiltonian_Heisenberg_Neighbours.store,
      Spin_System.Lock, Spin_System.Unlock, Spin_System.with_derived, Log, Action.event,
      Store_Event.is_lock_event, Hamiltonian_Heisenberg_Neighbours.Update_Energy_Contributions]
  | Heisenberg_Pairs ham =>
    simp [Hamiltonian_Set_Anisotropy_steps, Hamiltonian_Set_Anisotropy,
      Hamiltonian_Set_Anisotropy_events, Set_Anisotropy_loop_eq,
      Machine.start, step, Action.apply, Hamiltonian_Heisenberg_Pairs.store,
      Spin_System.Lock, Spin_System.Unlock, Spin_System.with_derived, Log, Action.event,
      Store_Event.is_lock_event, Hamiltonian_Heisenberg_Pairs.Update_Energy_Contributions]
  | Gaussian => rfl

/-- The run of Hamiltonian_Set_Exchange: its state is the one the setter returns, its
trace the events in source order, every action under the lock. -/
theorem Set_Exchange_steps_eq (env : Env K L) (state : State K L) (n_shells : Int)
    (jij : Ptr K) (idx_image idx_chain : Int) :
    Hamiltonian_Set_Exchange_steps env n_shells jij idx_image idx_chain
        (Machine.start state) =
      (Hamiltonian_Set_Exchange env state n_shells jij idx_image idx_chain).map
        (fun state1 => ⟨state1, Hamiltonian_Set_Exchange_events state n_shells, true⟩) := by
  rcases state with ⟨⟨nos, geometry, ⟨bc, d⟩, locked⟩, log⟩
  cases d with
  | Heisenberg_Neighbours ham =>
    have h := exchange_steps_Neighbours jij nos geometry bc ham log
      ([Store_Event.Lock] : List (Store_Event K)) n_shells.toNat
    simp only [Hamiltonian_Set_Exchange_steps, Machine.start, step, Action.apply,
      Spin_System.Lock, Option.map_some', Option.bind_eq_bind, Option.some_bind, Action.event,
      List.nil_append, Store_Event.is_lock_event, Bool.true_or, Bool.and_self] at h ⊢
    rw [h]
    cases hl : for_loop n_shells.toNat (fun i v => vec_set v i (jij (i : Int)))
        ham.exchange_magnitudes <;>
      simp [Hamiltonian_Set_Exchange, Hamiltonian_Set_Exchange_events, Spin_System.Lock,
        Spin_System.Unlock, Spin_System.with_derived, hl,
        Hamiltonian_Heisenberg_Neighbours.store,
        Hamiltonian_Heisenberg_Neighbours.Update_Energy_Contributions]
  | Heisenberg_Pairs ham =>
    simp [Hamiltonian_Set_Exchange_steps, Hamiltonian_Set_Exchange,
      Hamiltonian_Set_Exchange_events,
      Machine.start, step, Action.apply, Hamiltonian_Heisenberg_Pairs.store,
      Spin_System.Lock, Spin_System.Unlock, Spin_System.with_derived, Action.event,
      Store_Event.is_lock_event, Hamiltonian_Heisenberg_Pairs.Update_Energy_Contributions]
  | Gaussian => rfl

/-- The run of Hamiltonian_Set_DMI: its state is the one the setter returns, its
trace the events in source order, every action under the lock. -/
theorem Set_DMI_steps_eq (env : Env K L) (state : State K L) (n_shells : Int)
    (dij : Ptr K) (idx_image idx_chain : Int) :
    Hamiltonian_Set_DMI_steps env n_shells dij idx_image idx_chain (Machine.start state) =
      (Hamiltonian_Set_DMI env state n_shells dij idx_image idx_chain).map
        (fun state1 => ⟨state1, Hamiltonian_Set_DMI_events state n_shells, true⟩) := by
  rcases state with ⟨⟨nos, geometry, ⟨bc, d⟩, locked⟩, log⟩
  cases d with
  | Heisenberg_Neighbours ham =>
    have h := dmi_steps_Neighbours dij nos geometry bc ham log
      ([Store_Event.Lock] : List (Store_Event K)) n_shells.toNat
    simp only [Hamiltonian_Set_DMI_steps, Machine.start, step, Action.apply,
      Spin_System.Lock, Option.map_some', Option.bind_eq_bind, Option.some_bind, Action.event,
      List.nil_append, Store_Event.is_lock_event, Bool.true_or, Bool.and_self] at h ⊢
    rw [h]
    cases hl : for_loop n_shells.toNat (fun i v => vec_set v i (dij (i : Int)))
        ham.dmi_magnitudes <;>
      simp [Hamiltonian_Set_DMI, Hamiltonian_Set_DMI_events, Spin_System.Lock,
        Spin_System.Unlock, Spin_System.with_derived, hl,
        Hamiltonian_Heisenberg_Neighbours.store,
        Hamiltonian_Heisenberg_Neighbours.Update_Energy_Contributions]
  | Heisenberg_Pairs ham =>
    simp [Hamiltonian_Set_DMI_steps, Hamiltonian_Set_DMI, Hamiltonian_Set_DMI_events,
      Machine.start, step, Action.apply, Hamiltonian_Heisenberg_Pairs.store,
      Spin_System.Lock, Spin_System.Unlock, Spin_System.with_derived, Action.event,
      Store_Event.is_lock_event, Hamiltonian_Heisenberg_Pairs.Update_Energy_Contributions]
  | Gaussian => rfl

end RunLemmas

section RunShape

variable {K L : Type}

/-- A run whose machine carries the state the setter returns, the closed-form event
list and no action outside the lock, is a run under the lock. -/
theorem runs_under_lock_of (events : List (Store_Event K)) (before : State K L)
    (result : Option (State K L)) (run : Option (Machine K L))
    (hrun : run = result.map (fun state1 => ⟨state1, events, true⟩))
    (hd : Lock_discipline events before result) :
    Runs_under_lock run before result := by
  subst hrun
  refine ⟨?_, ?_⟩
  · cases result <;> rfl
  · intro m1 h
    cases hr : result with
    | none => rw [hr] at h; cases h
    | some state1 =>
      rw [hr] at h
      simp only [Option.map_some', Option.some.injEq] at h
      subst h
      obtain ⟨h1, h2, h3⟩ := hd.2.2.2 state1 hr
      exact ⟨hd.1, rfl, hd.2.1, h1.symm, h2, h3⟩


/-- A store, recompute or log write executed while the lock flag is down is seen by
the run: `under_lock` is false from then on. -/
theorem step_outside_lock (a : Action K) (m m1 : Machine K L)
    (ha : a.event.is_lock_event = false) (hl : m.state.image.locked = false)
    (h : step a m = some m1) : m1.under_lock = false := by
  unfold step at h
  cases hs : a.apply m.state with
  | none => rw [hs] at h; cases h
  | some state1 =>
    rw [hs] at h
    simp only [Option.map_some', Option.some.injEq] at h
    subst h
    simp [ha, hl]

/-- A run that ends with `under_lock` set had it set before its last action, and that
action was `Lock`, `Unlock`, or found the lock flag up. -/
theorem step_under_lock (a : Action K) (m m1 : Machine K L)
    (h : step a m = some m1) (hu : m1.under_lock = true) :
    m.under_lock = true ∧ (a.event.is_lock_event = true ∨ m.state.image.locked = true) := by
  unfold step at h
  cases hs : a.apply m.state with
  | none => rw [hs] at h; cases h
  | some state1 =>
    rw [hs] at h
    simp only [Option.map_some', Option.some.injEq] at h
    subst h
    simpa using hu

end RunShape

section RunClaim

variable {K L : Type} [LinearOrderedField K]

/-- Claim C14. With the lock as explicit state and each setter run statement by
statement, every statement that acts on the store leaving its event in the trace:
for Set_Boundary_Conditions, Set_mu_s, Set_Field, Set_Anisotropy, Set_Exchange and
Set_DMI, on every class (the one without branch included) and every input, the run
reaches exactly the state the setter returns, Lock is the first event of its trace
and Unlock the last, every store to a member, the recompute of the energy
contributions and the log write lie strictly between them and found the lock held
when they were executed, and the lock is free afterwards (so a store unlocked before
the call is unlocked after it). -/
theorem C14_setters_run_under_lock (env : Env K L) (state : State K L)
    (periodical : Bool × Bool × Bool) (x : K) (normal : Ptr K) (n_shells : Int) (c : Ptr K)
    (idx_image idx_chain : Int) :
    Runs_under_lock
      (Hamiltonian_Set_Boundary_Conditions_steps periodical idx_image idx_chain
        (Machine.start state))
      state (Hamiltonian_Set_Boundary_Conditions state periodical idx_image idx_chain) ∧
    Runs_under_lock
      (Hamiltonian_Set_mu_s_steps x idx_image idx_chain (Machine.start state))
      state (Hamiltonian_Set_mu_s state x idx_image idx_chain) ∧
    Runs_under_lock
      (Hamiltonian_Set_Field_steps env x normal idx_image idx_chain (Machine.start state))
      state (Hamiltonian_Set_Field env state x normal idx_image idx_chain) ∧
    Runs_under_lock
      (Hamiltonian_Set_Anisotropy_steps env x normal idx_image idx_chain (Machine.start state))
      state (Hamiltonian_Set_Anisotropy env state x normal idx_image idx_chain) ∧
    Runs_under_lock
      (Hamiltonian_Set_Exchange_steps env n_shells c idx_image idx_chain (Machine.start state))
      state (Hamiltonian_Set_Exchange env state n_shells c idx_image idx_chain) ∧
    Runs_under_lock
      (Hamiltonian_Set_DMI_steps env n_shells c idx_image idx_chain (Machine.start state))
      state (Hamiltonian_Set_DMI env state n_shells c idx_image idx_chain) := by
  obtain ⟨h1, h2, h3, h4, h5, h6⟩ :=
    events_lock_discipline env state periodical x normal n_shells c idx_image idx_chain
  exact
    ⟨runs_under_lock_of _ _ _ _
        (Set_Boundary_Conditions_steps_eq state periodical idx_image idx_chain) h1,
     runs_under_lock_of _ _ _ _ (Set_mu_s_steps_eq state x idx_image idx_chain) h2,
     runs_under_lock_of _ _ _ _ (Set_Field_steps_eq env state x normal idx_image idx_chain) h3,
     runs_under_lock_of _ _ _ _
        (Set_Anisotropy_steps_eq env state x normal idx_image idx_chain) h4,
     runs_under_lock_of _ _ _ _
        (Set_Exchange_steps_eq env state n_shells c idx_image idx_chain) h5,
     runs_under_lock_of _ _ _ _ (Set_DMI_steps_eq env state n_shells c idx_image idx_chain) h6⟩

/-- Claim C14 at the two-spin pair-model state: the run of `Set_Field` statement by
statement returns, reaches the state `Set_Field` returns, its trace is Lock, the
three assignments, the recompute, the log write, Unlock, every action found the lock
held, and the lock is free at the end. -/
theorem C14_setters_run_under_lock_witness :
    ∃ m1 : Machine ℚ Unit,
      Hamiltonian_Set_Field_steps envQ 1 dirQ 3 1 (Machine.start pairs_stateQ) = some m1 ∧
      Hamiltonian_Set_Field envQ pairs_stateQ 1 dirQ 3 1 = some m1.state ∧
      m1.events =
        [Store_Event.Lock, .Write .external_field_indices, .Write .external_field_magnitudes,
         .Write .external_field_normals, .Update_Energy_Contributions,
         .Log ⟨.external_field 1 (dirQ 0) (dirQ 1) (dirQ 2), 3, 1⟩, .Unlock] ∧
      Bracketed m1.events ∧
      m1.under_lock = true ∧
      m1.state.image.locked = false := by
  obtain ⟨state1, hs, -⟩ := Set_Field_spec envQ pairs_stateQ 1 dirQ 3 1 trivial (by decide)
  have hrun := Set_Field_steps_eq envQ pairs_stateQ 1 dirQ 3 1
  rw [hs] at hrun
  have h := (C14_setters_run_under_lock envQ pairs_stateQ (true, false, true) 1 dirQ 2 coeffQ
    3 1).2.2.1.2 _ hrun
  exact ⟨_, hrun, hs, rfl, h.1, h.2.1, h.2.2.2.2.1⟩

end RunClaim

end Spirit
